import Mathlib

/-!
# UHD-Fairwaves firmware network stack: `net_common.c`

A shallow embedding of `firmware/microblaze/lib/net_common.c` (checksum engine,
UDP listener registry, receive dispatcher, ARP responder) together with
theorems about it.

Conventions of the embedding:

* C `unsigned int` / `size_t` values are natural numbers, reduced `% 2 ^ 32`
  where the C arithmetic can wrap; C `int` values are integers.
* `x & 0xffff` is written `x % 65536` and `x >> 16` is written `x / 65536`.
* The target (MicroBlaze) is big-endian: byte `k` of a 32-bit word is
  `(w / 256 ^ (3 - k)) % 256`, and `ntohs`/`htons` are the identity.
* Side effects (diagnostics, ARP cache updates, listener callbacks, calls of
  `send_pkt`) are recorded, in program order, as a list of `Event`s.
-/

namespace NetCommon

/-! ## Checksum engine -/

/-- Modelled from the spec: the `CHKSUM(x, &chksum)` helper used by `chksum_buffer`
is declared in `net_common.h`, which is not among the sources. The spec describes it
as RFC 1071 one's-complement summation with end-around carry: the word is added to the
32-bit accumulator (`unsigned int`, so the addition wraps at `2 ^ 32`) and the carries
above bit 15 are folded back into the low 16 bits, twice. -/
def CHKSUM (x chksum : Nat) : Nat :=
  let s0 := (chksum + x) % 2 ^ 32
  let s1 := s0 % 65536 + s0 / 65536
  s1 % 65536 + s1 / 65536

/-- Embedding of `chksum_buffer(unsigned short *buf, int nshorts, unsigned int initial_chksum)`.
`buf i` is the memory cell `buf[i]`; it is read as an `unsigned short`, hence `% 65536`.
The loop `for (i = 0; i < nshorts; i++)` runs `nshorts.toNat` times. -/
def chksum_buffer (buf : Nat → Nat) (nshorts : Int) (initial_chksum : Nat) : Nat :=
  (List.range nshorts.toNat).foldl (fun chksum i => CHKSUM (buf i % 65536) chksum) initial_chksum

/-- Bitwise complement `~x` of a C `unsigned int`. -/
def bnot32 (x : Nat) : Nat := 2 ^ 32 - 1 - x % 2 ^ 32

/-- Plain (unreduced) sum of the 16-bit words `buf[0] .. buf[n-1]`. -/
def word_sum (buf : Nat → Nat) : Nat → Nat
  | 0 => 0
  | n + 1 => word_sum buf n + buf n % 65536

/-- Canonical one's-complement representative of a natural number: `0` for `0`, and
otherwise the unique value in `1 .. 0xFFFF` congruent to it modulo `0xFFFF`. -/
def oc_norm (s : Nat) : Nat := if s = 0 then 0 else (s - 1) % 65535 + 1

/-- The buffer `buf` with cell `k` overwritten by `v`. -/
def store (buf : Nat → Nat) (k v : Nat) : Nat → Nat := fun i => if i = k then v else buf i

/-! ## C integer conversions -/

/-- Conversion of a C `int` to `size_t` / `unsigned int` (32 bits). -/
def to_size_t (x : Int) : Nat := (x % 2 ^ 32).toNat

/-- Conversion of a 32-bit unsigned value to a C `int` (two's complement). -/
def to_int (x : Nat) : Int :=
  if x % 2 ^ 32 < 2 ^ 31 then ((x % 2 ^ 32 : Nat) : Int) else ((x % 2 ^ 32 : Nat) : Int) - 2 ^ 32

/-- Conversion of a C `int` to `unsigned short` (16 bits). -/
def to_u16 (x : Int) : Nat := (x % 65536).toNat

/-! ## Constants of the wire formats

The headers that declare these constants and structures (`ethertype.h`, `if_arp.h`,
`lwip/ip.h`, `lwip/udp.h`, `lwip/icmp.h`, `banal.h`, `net_common.h`) are not among the
sources; the spec fixes the wire formats as Ethernet II, ARP for Ethernet/IPv4, IPv4
without options, UDP and ICMP, so the standard values and layouts are used. -/

/-- Modelled from the spec: `ETHERTYPE_ARP` of `ethertype.h`, ethertype `0x0806`. -/
def ETHERTYPE_ARP : Nat := 0x0806
/-- Modelled from the spec: `ETHERTYPE_IPV4` of `ethertype.h`, ethertype `0x0800`. -/
def ETHERTYPE_IPV4 : Nat := 0x0800
/-- Modelled from the spec: `ARPHRD_ETHER` of `if_arp.h`, hardware type Ethernet. -/
def ARPHRD_ETHER : Nat := 1
/-- Modelled from the spec: `ARPOP_REQUEST` of `if_arp.h`. -/
def ARPOP_REQUEST : Nat := 1
/-- Modelled from the spec: `ARPOP_REPLY` of `if_arp.h`. -/
def ARPOP_REPLY : Nat := 2
/-- Modelled from the spec: `IP_HLEN` of `lwip/ip.h`, the 20-byte option-free IPv4 header. -/
def IP_HLEN : Nat := 20
/-- Modelled from the spec: `UDP_HLEN` of `lwip/udp.h`, the 8-byte UDP header. -/
def UDP_HLEN : Nat := 8
/-- Modelled from the spec: `IP_PROTO_ICMP` of `lwip/ip.h`. -/
def IP_PROTO_ICMP : Nat := 1
/-- Modelled from the spec: `IP_PROTO_UDP` of `lwip/ip.h`. -/
def IP_PROTO_UDP : Nat := 17
/-- Modelled from the spec: `IP_DF` of `lwip/ip.h`, the don't-fragment flag. -/
def IP_DF : Nat := 0x4000
/-- Modelled from the spec: `IP_MF` of `lwip/ip.h`, the more-fragments flag. -/
def IP_MF : Nat := 0x2000
/-- Modelled from the spec: `IP_OFFMASK` of `lwip/ip.h`, the fragment-offset mask. -/
def IP_OFFMASK : Nat := 0x1fff
/-- Modelled from the spec: `ICMP_DUR` of `lwip/icmp.h`, destination unreachable. -/
def ICMP_DUR : Nat := 3
/-- Modelled from the spec: `ICMP_DUR_PORT` of `lwip/icmp.h`, port unreachable. -/
def ICMP_DUR_PORT : Nat := 3
/-- Modelled from the spec: `ICMP_ECHO` of `lwip/icmp.h`, echo request. -/
def ICMP_ECHO : Nat := 8

/-- From the source: `#define MAX_UDP_LISTENERS 6`. -/
def MAX_UDP_LISTENERS : Nat := 6

/-! ## Memory access

A received buffer is the array `uint32_t *p`, modelled as the function `i ↦ p[i]`.
Reads are not bounded by `nlines`: the C code indexes the array without consulting it. -/

/-- Byte at byte offset `off` of the word array `p` (big-endian target). -/
def byte_at (p : Nat → Nat) (off : Nat) : Nat := p (off / 4) / 256 ^ (3 - off % 4) % 256

/-- The `unsigned short` stored at byte offset `off`. -/
def u16_at (p : Nat → Nat) (off : Nat) : Nat := byte_at p off * 256 + byte_at p (off + 1)

/-- The 32-bit value stored at byte offset `off`. -/
def u32_at (p : Nat → Nat) (off : Nat) : Nat := u16_at p off * 65536 + u16_at p (off + 2)

/-- The `n` bytes stored from byte offset `off` on. -/
def bytes_at (p : Nat → Nat) (off n : Nat) : List Nat :=
  (List.range n).map (fun i => byte_at p (off + i))

/-- Modelled from the spec: `get_int32` of `banal.h` (not among the sources) assembles a
32-bit value from four bytes in network (big-endian) order. -/
def get_int32 (s : List Nat) : Nat :=
  s.getD 0 0 * 2 ^ 24 + s.getD 1 0 * 2 ^ 16 + s.getD 2 0 * 2 ^ 8 + s.getD 3 0

/-- Embedding of `ip_addr_eq`: `a.addr == b.addr`. -/
def ip_addr_eq (a b : Nat) : Bool := a == b

/-! ## Data model -/

/-- A MAC address `eth_mac_addr_t`: the six bytes `addr[0..5]`. -/
structure eth_mac_addr_t where
  addr : List Nat
  deriving DecidableEq, Repr

/-- A `struct socket_address`: IPv4 address and UDP port. -/
structure socket_address where
  addr : Nat
  port : Nat
  deriving DecidableEq, Repr

/-- Modelled from the spec: `make_socket_address` of `net_common.h` (not among the
sources) pairs an address with a port. -/
def make_socket_address (addr port : Nat) : socket_address := ⟨addr, port⟩

/-- Modelled from the spec: `struct arp_eth_ipv4` of `if_arp.h` (not among the sources), the
28-byte ARP message for Ethernet/IPv4: hardware type, protocol type, the two address
lengths, the operation, then sender MAC, sender IP, target MAC, target IP. -/
structure arp_eth_ipv4 where
  ar_hrd : Nat
  ar_pro : Nat
  ar_hln : Nat
  ar_pln : Nat
  ar_op : Nat
  ar_sha : List Nat
  ar_sip : List Nat
  ar_tha : List Nat
  ar_tip : List Nat
  deriving DecidableEq, Repr

/-- The value of `sizeof(struct arp_eth_ipv4)`. -/
def sizeof_arp_eth_ipv4 : Nat := 28

/-- The ARP message read through a `struct arp_eth_ipv4 *` at byte offset `off` of `p`. -/
def arp_at (p : Nat → Nat) (off : Nat) : arp_eth_ipv4 :=
  { ar_hrd := u16_at p off
    ar_pro := u16_at p (off + 2)
    ar_hln := byte_at p (off + 4)
    ar_pln := byte_at p (off + 5)
    ar_op := u16_at p (off + 6)
    ar_sha := bytes_at p (off + 8) 6
    ar_sip := bytes_at p (off + 14) 4
    ar_tha := bytes_at p (off + 18) 6
    ar_tip := bytes_at p (off + 24) 4 }

/-- The bytes of a `struct arp_eth_ipv4` object in memory order. -/
def arp_eth_ipv4.bytes (a : arp_eth_ipv4) : List Nat :=
  [a.ar_hrd / 256 % 256, a.ar_hrd % 256, a.ar_pro / 256 % 256, a.ar_pro % 256,
   a.ar_hln % 256, a.ar_pln % 256, a.ar_op / 256 % 256, a.ar_op % 256]
    ++ a.ar_sha ++ a.ar_sip ++ a.ar_tha ++ a.ar_tip

/-- Modelled from the spec: `IPH_V` of `lwip/ip.h`, the version nibble of the first
header half-word. -/
def IPH_V (p : Nat → Nat) (ip : Nat) : Nat := u16_at p ip / 4096
/-- Modelled from the spec: `IPH_HL` of `lwip/ip.h`, the header length in 32-bit words. -/
def IPH_HL (p : Nat → Nat) (ip : Nat) : Nat := u16_at p ip / 256 % 16
/-- Modelled from the spec: `IPH_LEN` of `lwip/ip.h`, the total-length field. -/
def IPH_LEN (p : Nat → Nat) (ip : Nat) : Nat := u16_at p (ip + 2)
/-- Modelled from the spec: `IPH_OFFSET` of `lwip/ip.h`, the flags/fragment-offset field. -/
def IPH_OFFSET (p : Nat → Nat) (ip : Nat) : Nat := u16_at p (ip + 6)
/-- Modelled from the spec: `IPH_PROTO` of `lwip/ip.h`, the protocol byte. -/
def IPH_PROTO (p : Nat → Nat) (ip : Nat) : Nat := u16_at p (ip + 8) % 256
/-- Modelled from the spec: field `src` of `struct ip_hdr` (`lwip/ip.h`), at byte 12. -/
def ip_hdr_src (p : Nat → Nat) (ip : Nat) : Nat := u32_at p (ip + 12)
/-- Modelled from the spec: field `dest` of `struct ip_hdr` (`lwip/ip.h`), at byte 16. -/
def ip_hdr_dest (p : Nat → Nat) (ip : Nat) : Nat := u32_at p (ip + 16)

/-- Modelled from the spec: field `src` of `struct udp_hdr` (`lwip/udp.h`). -/
def udp_hdr_src (p : Nat → Nat) (udp : Nat) : Nat := u16_at p udp
/-- Modelled from the spec: field `dest` of `struct udp_hdr` (`lwip/udp.h`). -/
def udp_hdr_dest (p : Nat → Nat) (udp : Nat) : Nat := u16_at p (udp + 2)
/-- Modelled from the spec: field `len` of `struct udp_hdr` (`lwip/udp.h`). -/
def udp_hdr_len (p : Nat → Nat) (udp : Nat) : Nat := u16_at p (udp + 4)

/-- Modelled from the spec: field `type` of `struct icmp_echo_hdr` (`lwip/icmp.h`). -/
def icmp_hdr_type (p : Nat → Nat) (icmp : Nat) : Nat := byte_at p icmp
/-- Modelled from the spec: field `code` of `struct icmp_echo_hdr` (`lwip/icmp.h`). -/
def icmp_hdr_code (p : Nat → Nat) (icmp : Nat) : Nat := byte_at p (icmp + 1)

/-- The registered address providers `_get_eth_mac_addr` and `_get_ip_addr`, by the values
they return. -/
structure net_config where
  _get_eth_mac_addr : eth_mac_addr_t
  _get_ip_addr : Nat
  deriving DecidableEq, Repr

/-- An entry of the listener table: `struct listener_entry`. The callback `rcvr` is a
function pointer, `0` being the null pointer. -/
structure listener_entry where
  port : Nat
  rcvr : Nat
  deriving DecidableEq, Repr

/-- The observable effects of the receive path, in program order. Pointers into the
received buffer are byte offsets from `p`. -/
inductive Event where
  /-- The diagnostic `printf("UDP inconsistent lengths: %d %d\n", (int)len, udp->len)`. -/
  | printf_udp_inconsistent_lengths (len : Int) (udp_len : Nat)
  /-- The diagnostic `printf("\nhandle_arp: weird size = %d\n", (int)size)`. -/
  | printf_handle_arp_weird_size (size : Int)
  /-- The diagnostic of `send_ip_pkt` on an ARP cache miss:
  `printf("net_common: failed to hit cache looking for "); print_ip(ip.dest); newline();`. -/
  | printf_failed_to_hit_cache (dest : Nat)
  /-- A call `putchar(c)`. -/
  | putchar (c : Nat)
  /-- A call `arp_cache_update(&ip, &mac)`, by the values pointed to. -/
  | arp_cache_update (ip : Nat) (mac : List Nat)
  /-- A call `rcvr(src, dst, payload, payload_len)` through the function pointer `rcvr`. -/
  | rcvr (rcvr : Nat) (src dst : socket_address) (payload : Nat) (payload_len : Int)
  /-- A call `send_pkt(dst, ethertype, buf0, len0, buf1, len1, buf2, len2)`; each buffer
  is given by the bytes of the object it points to (no bytes for a null pointer). -/
  | send_pkt (dst : eth_mac_addr_t) (ethertype : Nat) (buf0 : List Nat) (len0 : Nat)
      (buf1 : List Nat) (len1 : Nat) (buf2 : List Nat) (len2 : Nat)
  deriving DecidableEq, Repr

/-- The event is a listener callback. -/
def Event.is_rcvr : Event → Bool
  | Event.rcvr _ _ _ _ _ => true
  | _ => false

/-- The event is a frame transmission (`send_pkt`). -/
def Event.is_send_pkt : Event → Bool
  | Event.send_pkt _ _ _ _ _ _ _ _ => true
  | _ => false

/-- The event is an ARP cache update. -/
def Event.is_arp_cache_update : Event → Bool
  | Event.arp_cache_update _ _ => true
  | _ => false

/-! ## UDP listener registry -/

/-- The static table `listeners[MAX_UDP_LISTENERS]`, zero-initialised. -/
def listeners_init : Nat → listener_entry := fun _ => ⟨0, 0⟩

/-- Embedding of `find_listener_by_port`: index of the first entry whose port equals
`port`, or `none` for the null result. -/
def find_listener_by_port (listeners : Nat → listener_entry) (port : Nat) : Option Nat :=
  (List.range MAX_UDP_LISTENERS).find? (fun i => port == (listeners i).port)

/-- Embedding of `find_free_listener`: index of the first entry whose callback is null;
`none` stands for `abort()`. -/
def find_free_listener (listeners : Nat → listener_entry) : Option Nat :=
  (List.range MAX_UDP_LISTENERS).find? (fun i => (listeners i).rcvr == 0)

/-- Embedding of `register_udp_listener(int port, udp_receiver_t rcvr)`; the `int` port is
converted to `unsigned short` both for the lookup and for the store. `none` stands for
`abort()`. -/
def register_udp_listener (listeners : Nat → listener_entry) (port : Int) (rcvr : Nat) :
    Option (Nat → listener_entry) :=
  match find_listener_by_port listeners (to_u16 port) with
  | some lx => some (fun i => if i = lx then { listeners i with rcvr := rcvr } else listeners i)
  | none =>
    match find_free_listener listeners with
    | some lx => some (fun i => if i = lx then ⟨to_u16 port, rcvr⟩ else listeners i)
    | none => none

/-- A sequence of `register_udp_listener` calls, stopping at the first `abort()`. -/
def register_all (listeners : Nat → listener_entry) :
    List (Int × Nat) → Option (Nat → listener_entry)
  | [] => some listeners
  | (port, rcvr) :: rest =>
    match register_udp_listener listeners port rcvr with
    | some l => register_all l rest
    | none => none

/-! ## Receive dispatcher -/

/-- Embedding of `handle_udp_packet(src_ip, dst_ip, udp, len)`; `udp` is the byte offset
of the UDP header and `len` the `size_t` argument. -/
def handle_udp_packet (listeners : Nat → listener_entry) (p : Nat → Nat)
    (src_ip dst_ip : Nat) (udp : Nat) (len : Nat) : List Event :=
  if len ≠ udp_hdr_len p udp then
    [Event.printf_udp_inconsistent_lengths (to_int len) (udp_hdr_len p udp)]
  else
    let payload := udp + UDP_HLEN
    let payload_len : Int := to_int ((len + (2 ^ 32 - UDP_HLEN)) % 2 ^ 32)
    match find_listener_by_port listeners (udp_hdr_dest p udp) with
    | some lx =>
      let src := make_socket_address src_ip (udp_hdr_src p udp)
      let dst := make_socket_address dst_ip (udp_hdr_dest p udp)
      [Event.rcvr (listeners lx).rcvr src dst payload payload_len]
    | none => []

/-- Embedding of `handle_icmp_packet(src, dst, icmp, len)`; `0x69` is the character `i`. -/
def handle_icmp_packet (p : Nat → Nat) (_src _dst : Nat) (icmp : Nat) (_len : Nat) :
    List Event :=
  if icmp_hdr_type p icmp = ICMP_DUR then
    if icmp_hdr_code p icmp = ICMP_DUR_PORT then [Event.putchar 0x69] else [Event.putchar 0x69]
  else []

/-- Embedding of `send_arp_reply(req, our_mac)`. -/
def send_arp_reply (req : arp_eth_ipv4) (our_mac : eth_mac_addr_t) : List Event :=
  let reply : arp_eth_ipv4 :=
    { ar_hrd := req.ar_hrd
      ar_pro := req.ar_pro
      ar_hln := req.ar_hln
      ar_pln := req.ar_pln
      ar_op := ARPOP_REPLY
      ar_sha := our_mac.addr
      ar_sip := req.ar_tip
      ar_tha := req.ar_sha
      ar_tip := req.ar_sip }
  let t : eth_mac_addr_t := ⟨reply.ar_tha⟩
  [Event.send_pkt t ETHERTYPE_ARP reply.bytes sizeof_arp_eth_ipv4 [] 0 [] 0]

/-- Embedding of `handle_arp_packet(p, size)`; `arp` is the byte offset of the message. -/
def handle_arp_packet (cfg : net_config) (p : Nat → Nat) (arp : Nat) (size : Nat) :
    List Event :=
  if size < sizeof_arp_eth_ipv4 then [Event.printf_handle_arp_weird_size (to_int size)]
  else
    let req := arp_at p arp
    if req.ar_hrd ≠ ARPHRD_ETHER ∨ req.ar_pro ≠ ETHERTYPE_IPV4
        ∨ req.ar_hln ≠ 6 ∨ req.ar_pln ≠ 4 then []
    else if req.ar_op ≠ ARPOP_REQUEST then []
    else
      let tip := get_int32 req.ar_tip
      if ip_addr_eq tip cfg._get_ip_addr then send_arp_reply req cfg._get_eth_mac_addr
      else []

/-- Embedding of `handle_eth_packet(uint32_t *p, size_t nlines)`. The ARP message and
the IP header start at word 4, i.e. byte offset 16; the size handed to
`handle_arp_packet` is `nlines*sizeof(uint32_t) - 14` in `size_t` arithmetic. -/
def handle_eth_packet (cfg : net_config) (listeners : Nat → listener_entry)
    (p : Nat → Nat) (nlines : Nat) : List Event :=
  let ethertype := p 3 % 65536
  if ethertype = ETHERTYPE_ARP then
    handle_arp_packet cfg p 16 ((nlines * 4 + (2 ^ 32 - 14)) % 2 ^ 32)
  else if ethertype = ETHERTYPE_IPV4 then
    let ip := 16
    if IPH_V p ip ≠ 4 ∨ IPH_HL p ip ≠ 5 then []
    else if IPH_OFFSET p ip &&& (IP_MF ||| IP_OFFMASK) ≠ 0 then []
    else
      let protocol := IPH_PROTO p ip
      let len : Int := (IPH_LEN p ip : Int) - (IP_HLEN : Int)
      Event.arp_cache_update (ip_hdr_src p ip) (bytes_at p 8 6) ::
        (if protocol = IP_PROTO_UDP then
          handle_udp_packet listeners p (ip_hdr_src p ip) (ip_hdr_dest p ip)
            (ip + IP_HLEN) (to_size_t len)
        else if protocol = IP_PROTO_ICMP then
          handle_icmp_packet p (ip_hdr_src p ip) (ip_hdr_dest p ip)
            (ip + IP_HLEN) (to_size_t len)
        else [])
  else []

/-! ## Transmit path: IP and UDP senders -/

/-- Conversion of a C `int` to its low 8 bits: `x & 0xff`. -/
def to_u8 (x : Int) : Nat := (x % 256).toNat

/-- The bytes of a sequence of `unsigned short`s in memory order (big-endian). -/
def bytes_of_shorts : List Nat → List Nat
  | [] => []
  | s :: rest => s / 256 % 256 :: s % 256 :: bytes_of_shorts rest

/-- Modelled from the spec: `struct ip_hdr` of `lwip/ip.h` (not among the sources), the
20-byte option-free IPv4 header with its six 16-bit fields and two addresses. -/
structure ip_hdr where
  _v_hl_tos : Nat
  _len : Nat
  _id : Nat
  _offset : Nat
  _ttl_proto : Nat
  _chksum : Nat
  src : Nat
  dest : Nat
  deriving DecidableEq, Repr

/-- The ten `unsigned short`s seen through `(unsigned short *) &ip`. -/
def ip_hdr.shorts (h : ip_hdr) : List Nat :=
  [h._v_hl_tos, h._len, h._id, h._offset, h._ttl_proto, h._chksum,
   h.src / 65536 % 65536, h.src % 65536, h.dest / 65536 % 65536, h.dest % 65536]

/-- The 20 bytes of a `struct ip_hdr` object in memory order. -/
def ip_hdr.bytes (h : ip_hdr) : List Nat := bytes_of_shorts h.shorts

/-- Modelled from the spec: `IPH_VHLTOS_SET` of `lwip/ip.h` stores
`(v << 12) | (hl << 8) | tos` in the first header half-word. -/
def IPH_VHLTOS_SET (v hl tos : Nat) : Nat := (v <<< 12) ||| (hl <<< 8) ||| tos

/-- Lines 221-235 of `send_ip_pkt`: the header it builds. `IPH_LEN_SET` stores
`IP_HLEN + len0 + len1` into a 16-bit field; the checksum field is first zero and then
receives the complement of the sum over the ten half-words, truncated to 16 bits. -/
def send_ip_pkt_hdr (cfg : net_config) (dst : Nat) (protocol : Int) (len0 len1 : Nat) :
    ip_hdr :=
  let src := cfg._get_ip_addr
  let ttl := 32
  let ip : ip_hdr :=
    { _v_hl_tos := IPH_VHLTOS_SET 4 5 0
      _len := (IP_HLEN + len0 + len1) % 65536
      _id := 0
      _offset := IP_DF
      _ttl_proto := (ttl <<< 8) ||| to_u8 protocol
      _chksum := 0
      src := src
      dest := dst }
  { ip with _chksum := bnot32 (chksum_buffer (fun i => ip.shorts.getD i 0) 10 0) % 65536 }

/-- Embedding of `send_ip_pkt(dst, protocol, buf0, len0, buf1, len1)`. The ARP cache
module is not among the sources; its lookup `arp_cache_lookup_mac` is a parameter, giving
the cached MAC of an address or `none` on a miss. -/
def send_ip_pkt (cfg : net_config) (arp_cache_lookup_mac : Nat → Option eth_mac_addr_t)
    (dst : Nat) (protocol : Int) (buf0 : List Nat) (len0 : Nat) (buf1 : List Nat)
    (len1 : Nat) : List Event :=
  let ip := send_ip_pkt_hdr cfg dst protocol len0 len1
  match arp_cache_lookup_mac ip.dest with
  | none => [Event.printf_failed_to_hit_cache ip.dest]
  | some dst_mac => [Event.send_pkt dst_mac ETHERTYPE_IPV4 ip.bytes 20 buf0 len0 buf1 len1]

/-- Modelled from the spec: `struct udp_hdr` of `lwip/udp.h` (not among the sources). -/
structure udp_hdr where
  src : Nat
  dest : Nat
  len : Nat
  chksum : Nat
  deriving DecidableEq, Repr

/-- The 8 bytes of a `struct udp_hdr` object in memory order. -/
def udp_hdr.bytes (h : udp_hdr) : List Nat := bytes_of_shorts [h.src, h.dest, h.len, h.chksum]

/-- Lines 254-258 of `send_udp_pkt`: the UDP header it builds. The `int` source port and
the `size_t` sum `UDP_HLEN + len` are stored into 16-bit fields; `dst.port` already is an
`unsigned short`. -/
def send_udp_pkt_hdr (src_port : Int) (dst : socket_address) (len : Nat) : udp_hdr :=
  { src := to_u16 src_port
    dest := dst.port
    len := (UDP_HLEN + len) % 65536
    chksum := 0 }

/-- Embedding of `send_udp_pkt(src_port, dst, buf, len)`. -/
def send_udp_pkt (cfg : net_config) (arp_cache_lookup_mac : Nat → Option eth_mac_addr_t)
    (src_port : Int) (dst : socket_address) (buf : List Nat) (len : Nat) : List Event :=
  let udp := send_udp_pkt_hdr src_port dst len
  send_ip_pkt cfg arp_cache_lookup_mac dst.addr IP_PROTO_UDP udp.bytes 8 buf len

/-! ## Transmit path: frame assembly -/

/-- Modelled from the spec: `padded_eth_hdr_t` of `net/padded_eth_hdr.h` (not among the
sources), the 16-byte padded Ethernet header: two pad bytes, destination MAC, source MAC,
ethertype. -/
structure padded_eth_hdr_t where
  pad : Nat
  dst : eth_mac_addr_t
  src : eth_mac_addr_t
  ethertype : Nat
  deriving DecidableEq, Repr

/-- The 16 bytes of a `padded_eth_hdr_t` object in memory order. -/
def padded_eth_hdr_t.bytes (h : padded_eth_hdr_t) : List Nat :=
  [h.pad / 256 % 256, h.pad % 256] ++ h.dst.addr ++ h.src.addr
    ++ [h.ethertype / 256 % 256, h.ethertype % 256]

/-- The 32-bit word at word index `i` of the byte sequence `src` (big-endian). -/
def word_of_bytes (src : List Nat) (i : Nat) : Nat :=
  ((src.getD (4 * i) 0 % 256 * 256 + src.getD (4 * i + 1) 0 % 256) * 256
    + src.getD (4 * i + 2) 0 % 256) * 256 + src.getD (4 * i + 3) 0 % 256

/-- Modelled from the spec: `memcpy_wa(dst, src, nbytes)` of `memcpy_wa.h` (not among the
sources), the word-aligned copy into the buffer pool: it copies `nbytes / 4` whole 32-bit
words. The result is the list of words stored from `dst` on. -/
def memcpy_wa (src : List Nat) (nbytes : Nat) : List Nat :=
  (List.range (nbytes / 4)).map (word_of_bytes src)

/-- The hardware seen by `send_pkt`. The masks and the buffer number come from
`buffer_pool.h` / `memory_map.h` (not among the sources) and are parameters; `status k` is
the value returned by the `k`-th read of `buffer_pool_status->status`. -/
structure tx_hw where
  CPU_TX_BUF : Nat
  BPS_IDLE : Nat
  BPS_DONE : Nat
  BPS_ERROR : Nat
  status : Nat → Nat
  cpu_tx_buf_dest_port : Nat
  ac_could_be_sending_to_eth : Nat

/-- The actions of `send_pkt`, in program order. -/
inductive tx_event where
  /-- The first busy-wait loop ended after `reads` reads of the status register. -/
  | wait_idle (reads : Nat)
  /-- Words written to `buffer_ram(CPU_TX_BUF)` from word index `line` on. -/
  | store (line : Nat) (words : List Nat)
  /-- The diagnostic `printf("send_pkt: bad alignment of len<k> and/or buf<k>\n")`. -/
  | printf_bad_alignment (k : Nat)
  /-- A call `dbsm_wait_for_opening(sm)`. -/
  | dbsm_wait_for_opening (sm : Nat)
  /-- A call `bp_send_from_buf(bufno, port, wait, first_line, last_line)`. -/
  | bp_send_from_buf (bufno port wait first_line last_line : Nat)
  /-- The second busy-wait loop ended after `reads` reads, the last one giving `status`. -/
  | wait_done (reads : Nat) (status : Nat)
  /-- A call `bp_clear_buf(bufno)`. -/
  | bp_clear_buf (bufno : Nat)
  deriving DecidableEq, Repr

/-- The event is a commit (`bp_send_from_buf`). -/
def tx_event.is_commit : tx_event → Bool
  | tx_event.bp_send_from_buf _ _ _ _ _ => true
  | _ => false

/-- A busy-wait `while ((status & mask) == 0) ;` that starts with read number `t`: the
number of the read after the one that ends the loop, or `none` when the loop is still
running after `fuel` reads. -/
def busy_wait (status : Nat → Nat) (mask : Nat) (t : Nat) : Nat → Option Nat
  | 0 => none
  | fuel + 1 =>
    if status t &&& mask = 0 then busy_wait status mask (t + 1) fuel else some (t + 1)

/-- Lines 139-176 of `send_pkt`: the header, the alignment diagnostics and the fragment
copies, with the final value of the write pointer `p` as a word index into the transmit
buffer. `a0`, `a1`, `a2` are the addresses `buf0`, `buf1`, `buf2`; the byte lists are the
memory they point to. -/
def send_pkt_assemble (mac dst : eth_mac_addr_t) (ethertype : Nat)
    (a0 : Nat) (buf0 : List Nat) (len0 : Nat) (a1 : Nat) (buf1 : List Nat) (len1 : Nat)
    (a2 : Nat) (buf2 : List Nat) (len2 : Nat) : List tx_event × Nat :=
  let ehdr : padded_eth_hdr_t :=
    { pad := 0, dst := dst, src := mac, ethertype := ethertype % 65536 }
  let p0 := 0
  let slow := [tx_event.store p0 [0x0]]
  let p1 := p0 + 1
  let hdr := [tx_event.store p1 (memcpy_wa ehdr.bytes 16)]
  let p2 := p1 + 16 / 4
  let d0 := if len0 ≠ 0 ∧ (len0 % 4 ≠ 0 ∨ a0 % 4 ≠ 0) then [tx_event.printf_bad_alignment 0]
    else []
  let d1 := if len1 ≠ 0 ∧ (len1 % 4 ≠ 0 ∨ a1 % 4 ≠ 0) then [tx_event.printf_bad_alignment 1]
    else []
  let d2 := if len2 ≠ 0 ∧ (len2 % 4 ≠ 0 ∨ a2 % 4 ≠ 0) then [tx_event.printf_bad_alignment 2]
    else []
  let c0 := if len0 ≠ 0 then [tx_event.store p2 (memcpy_wa buf0 len0)] else []
  let p3 := if len0 ≠ 0 then p2 + len0 / 4 else p2
  let c1 := if len1 ≠ 0 then [tx_event.store p3 (memcpy_wa buf1 len1)] else []
  let p4 := if len1 ≠ 0 then p3 + len1 / 4 else p3
  let c2 := if len2 ≠ 0 then [tx_event.store p4 (memcpy_wa buf2 len2)] else []
  let p5 := if len2 ≠ 0 then p4 + len2 / 4 else p4
  (slow ++ hdr ++ d0 ++ d1 ++ d2 ++ c0 ++ c1 ++ c2, p5)

/-- Lines 178-180 of `send_pkt`: `total_len` from the final write pointer `p` (a word
index), in `size_t` arithmetic, raised to 60 when smaller. -/
def send_pkt_total_len (p : Nat) : Nat :=
  let total_len := p * 4 % 2 ^ 32
  if total_len < 60 then 60 else total_len

/-- Embedding of `send_pkt(dst, ethertype, buf0, len0, buf1, len1, buf2, len2)`. `mac` is
the value returned by `_get_eth_mac_addr()`. The result is `none` when a busy-wait loop
is still running after `fuel` reads of the status register. `dbsm_wait_for_opening` is an
external blocking call, recorded as one action. -/
def send_pkt (hw : tx_hw) (mac dst : eth_mac_addr_t) (ethertype : Nat)
    (a0 : Nat) (buf0 : List Nat) (len0 : Nat) (a1 : Nat) (buf1 : List Nat) (len1 : Nat)
    (a2 : Nat) (buf2 : List Nat) (len2 : Nat) (fuel : Nat) : Option (List tx_event) :=
  match busy_wait hw.status hw.BPS_IDLE 0 fuel with
  | none => none
  | some t1 =>
    let asm := send_pkt_assemble mac dst ethertype a0 buf0 len0 a1 buf1 len1 a2 buf2 len2
    let total_len := send_pkt_total_len asm.2
    let opening := if hw.ac_could_be_sending_to_eth ≠ 0 then
        [tx_event.dbsm_wait_for_opening hw.ac_could_be_sending_to_eth] else []
    let fire := [tx_event.bp_send_from_buf hw.CPU_TX_BUF hw.cpu_tx_buf_dest_port 1 0
        (total_len / 4)]
    match busy_wait hw.status (hw.BPS_DONE ||| hw.BPS_ERROR) t1 fuel with
    | none => none
    | some t2 =>
      some ([tx_event.wait_idle t1] ++ asm.1 ++ opening ++ fire
        ++ [tx_event.wait_done (t2 - t1) (hw.status (t2 - 1)), tx_event.bp_clear_buf hw.CPU_TX_BUF])

/-- The transmit buffer after one store: `ram` with `words` written from `line` on. -/
def tx_store (ram : Nat → Nat) (line : Nat) (words : List Nat) : Nat → Nat := fun i =>
  if line ≤ i ∧ i < line + words.length then words.getD (i - line) 0 else ram i

/-- The transmit buffer after a sequence of actions, starting from the contents `ram`. -/
def tx_ram (ram : Nat → Nat) : List tx_event → Nat → Nat
  | [] => ram
  | tx_event.store line words :: rest => tx_ram (tx_store ram line words) rest
  | _ :: rest => tx_ram ram rest

/-- The number of bytes committed by a `send_pkt` call with the given fragment lengths:
four times the word count passed to `bp_send_from_buf`. -/
def send_pkt_committed (len0 len1 len2 : Nat) : Nat :=
  send_pkt_total_len (5 + len0 / 4 + len1 / 4 + len2 / 4) / 4 * 4

/-- The number of bytes committed for a recorded `send_pkt` call. -/
def Event.committed : Event → Option Nat
  | Event.send_pkt _ _ _ len0 _ len1 _ len2 => some (send_pkt_committed len0 len1 len2)
  | _ => none

/-- A responsive transmit slot: buffer number 7, idle at the first read of the status
register, done at the second; a streaming state machine is registered. -/
def tx_hw_example : tx_hw :=
  { CPU_TX_BUF := 7
    BPS_IDLE := 0x800000
    BPS_DONE := 0x80
    BPS_ERROR := 0x8000
    status := fun k => if k = 0 then 0x800000 else 0x80
    cpu_tx_buf_dest_port := 2
    ac_could_be_sending_to_eth := 9 }

/-! ## Registry states -/

/-- The table reached from the empty registry by registering the pairs of `cs` in order,
when their ports are pairwise distinct and their callbacks non-null: the `i`-th pair sits
in entry `i`, the remaining entries are still zero. -/
def table_of (cs : List (Int × Nat)) : Nat → listener_entry := fun i =>
  match cs[i]? with
  | some c => ⟨to_u16 c.1, c.2⟩
  | none => ⟨0, 0⟩

/-- Invariant of the listener table: a non-zero port occurs in at most one entry, and an
entry with port 0 and a non-null callback is preceded by no other entry with port 0. -/
def registry_inv (l : Nat → listener_entry) : Prop :=
  (∀ i j, i < MAX_UDP_LISTENERS → j < MAX_UDP_LISTENERS →
      (l i).port = (l j).port → (l i).port ≠ 0 → i = j)
  ∧ (∀ i, i < MAX_UDP_LISTENERS → (l i).port = 0 → (l i).rcvr ≠ 0 →
      ∀ j, j < i → (l j).port ≠ 0)

/-! ## Example frames and configurations -/

/-- The ARP request of the end-to-end example: sender 10.0.0.5 / AA:AA:AA:AA:AA:AA asks
for 10.0.0.1, in an 11-word buffer. -/
def arp_request_example : Nat → Nat := fun i =>
  [0x0000FFFF, 0xFFFFFFFF, 0xAAAAAAAA, 0xAAAA0806, 0x00010800, 0x06040001,
   0xAAAAAAAA, 0xAAAA0A00, 0x00050000, 0x00000000, 0x0A000001].getD i 0

/-- The node of the end-to-end example: IP 10.0.0.1, MAC 00:50:C2:85:3F:FF. -/
def config_example : net_config := ⟨⟨[0x00, 0x50, 0xC2, 0x85, 0x3F, 0xFF]⟩, 0x0A000001⟩

/-- An ARP request for another node: sender 10.0.0.5 asks for 10.0.0.9. -/
def arp_request_other_example : Nat → Nat := fun i =>
  [0x0000FFFF, 0xFFFFFFFF, 0xAAAAAAAA, 0xAAAA0806, 0x00010800, 0x06040001,
   0xAAAAAAAA, 0xAAAA0A00, 0x00050000, 0x00000000, 0x0A000009].getD i 0

/-- A UDP datagram from 10.0.0.5:0x1234 to 10.0.0.1:49153 with four payload bytes, in a
12-word buffer. -/
def udp_example : Nat → Nat := fun i =>
  [0x0000FFFF, 0xFFFFFFFF, 0xAAAAAAAA, 0xAAAA0800, 0x45000020, 0x00004000,
   0x20110000, 0x0A000005, 0x0A000001, 0x1234C001, 0x000C0000, 0xDEADBEEF].getD i 0

/-- A UDP datagram from 10.0.0.5:0x1234 to 10.0.0.1, destination port 0, with four
payload bytes, in a 12-word buffer. -/
def udp_port0_example : Nat → Nat := fun i =>
  [0x0000FFFF, 0xFFFFFFFF, 0xAAAAAAAA, 0xAAAA0800, 0x45000020, 0x00004000,
   0x20110000, 0x0A000005, 0x0A000001, 0x12340000, 0x000C0000, 0xDEADBEEF].getD i 0

/-- The datagram `udp_example` with its UDP length field raised from 12 to 16. -/
def udp_bad_length_example : Nat → Nat := fun i =>
  [0x0000FFFF, 0xFFFFFFFF, 0xAAAAAAAA, 0xAAAA0800, 0x45000020, 0x00004000,
   0x20110000, 0x0A000005, 0x0A000001, 0x1234C001, 0x00100000, 0xDEADBEEF].getD i 0

/-- A truncated datagram: the 11-word buffer (44 bytes) ends right after the UDP header,
while the IP total length says 1028 and the UDP length says 1008. -/
def udp_truncated_example : Nat → Nat := fun i =>
  [0x0000FFFF, 0xFFFFFFFF, 0xAAAAAAAA, 0xAAAA0800, 0x45000404, 0x00004000,
   0x20110000, 0x0A000005, 0x0A000001, 0x1234C001, 0x03F00000].getD i 0

/-- The datagram `udp_example` with the more-fragments flag set. -/
def udp_fragment_example : Nat → Nat := fun i =>
  [0x0000FFFF, 0xFFFFFFFF, 0xAAAAAAAA, 0xAAAA0800, 0x45000020, 0x00002000,
   0x20110000, 0x0A000005, 0x0A000001, 0x1234C001, 0x000C0000, 0xDEADBEEF].getD i 0

/-- A TCP segment (protocol 6, not handled by the stack) from 10.0.0.5 to 10.0.0.1. -/
def tcp_example : Nat → Nat := fun i =>
  [0x0000FFFF, 0xFFFFFFFF, 0xAAAAAAAA, 0xAAAA0800, 0x45000028, 0x00004000,
   0x20060000, 0x0A000005, 0x0A000001, 0x1234C001, 0x00000000, 0x00000000].getD i 0

/-- A frame with ethertype IPv6 (0x86DD), otherwise the bytes of `arp_request_example`. -/
def ipv6_example : Nat → Nat := fun i =>
  [0x0000FFFF, 0xFFFFFFFF, 0xAAAAAAAA, 0xAAAA86DD, 0x00010800, 0x06040001,
   0xAAAAAAAA, 0xAAAA0A00, 0x00050000, 0x00000000, 0x0A000001].getD i 0

/-- An ARP reply body of 28 bytes. -/
def arp_reply_example : List Nat :=
  [0, 1, 8, 0, 6, 4, 0, 2, 0x00, 0x50, 0xC2, 0x85, 0x3F, 0xFF, 10, 0, 0, 1,
   0xAA, 0xAA, 0xAA, 0xAA, 0xAA, 0xAA, 10, 0, 0, 5]

/-- The UDP datagram of the transmit example: the 20 header bytes built by `send_ip_pkt`
for 10.0.0.1 -> 10.0.0.5, protocol 17, 8 + 4 bytes. -/
def ip_hdr_bytes_example : List Nat :=
  [69, 0, 0, 32, 0, 0, 64, 0, 32, 17, 70, 200, 10, 0, 0, 1, 10, 0, 0, 5]

/-- An ARP cache that knows 10.0.0.5 only. -/
def arp_cache_example : Nat → Option eth_mac_addr_t := fun ip =>
  if ip = 0x0A000005 then some ⟨[0xAA, 0xAA, 0xAA, 0xAA, 0xAA, 0xAA]⟩ else none

/-- A datagram whose IP total length is 20 and whose UDP length field is 0: version 4,
header length 5, don't-fragment, protocol UDP, from 10.0.0.5:0x1234 to 10.0.0.1:49153. -/
def udp_short_example : Nat → Nat := fun i =>
  [0x0000FFFF, 0xFFFFFFFF, 0xAAAAAAAA, 0xAAAA0800, 0x45000014, 0x00004000,
   0x20110000, 0x0A000005, 0x0A000001, 0x1234C001, 0x00000000].getD i 0

/-- The datagram `udp_example` addressed to 10.0.0.9 instead of 10.0.0.1. -/
def udp_other_dest_example : Nat → Nat := fun i =>
  [0x0000FFFF, 0xFFFFFFFF, 0xAAAAAAAA, 0xAAAA0800, 0x45000020, 0x00004000,
   0x20110000, 0x0A000005, 0x0A000009, 0x1234C001, 0x000C0000, 0xDEADBEEF].getD i 0

/-- An ICMP echo request (type 8, code 0) from 10.0.0.5 to 10.0.0.1. -/
def icmp_echo_example : Nat → Nat := fun i =>
  [0x0000FFFF, 0xFFFFFFFF, 0xAAAAAAAA, 0xAAAA0800, 0x4500001C, 0x00004000,
   0x20010000, 0x0A000005, 0x0A000001, 0x0800F7FF, 0x00000000].getD i 0

/-- Lines 393-418 of `handle_eth_packet`, the branch taken for ethertype IPv4: header
checks, ARP cache refresh and protocol dispatch on the header at word offset 4. -/
def handle_eth_packet_ipv4_branch (listeners : Nat → listener_entry) (p : Nat → Nat) :
    List Event :=
  if IPH_V p 16 ≠ 4 ∨ IPH_HL p 16 ≠ 5 then []
  else if IPH_OFFSET p 16 &&& (IP_MF ||| IP_OFFMASK) ≠ 0 then []
  else
    Event.arp_cache_update (ip_hdr_src p 16) (bytes_at p 8 6) ::
      (if IPH_PROTO p 16 = IP_PROTO_UDP then
        handle_udp_packet listeners p (ip_hdr_src p 16) (ip_hdr_dest p 16)
          (16 + IP_HLEN) (to_size_t ((IPH_LEN p 16 : Int) - (IP_HLEN : Int)))
      else if IPH_PROTO p 16 = IP_PROTO_ICMP then
        handle_icmp_packet p (ip_hdr_src p 16) (ip_hdr_dest p 16)
          (16 + IP_HLEN) (to_size_t ((IPH_LEN p 16 : Int) - (IP_HLEN : Int)))
      else [])

/-- The event marks the end of a busy-wait loop. -/
def tx_event.is_wait : tx_event → Bool
  | tx_event.wait_idle _ => true
  | tx_event.wait_done _ _ => true
  | _ => false

/-- The event belongs to the assembly phase: a buffer write or an alignment diagnostic. -/
def tx_event.is_write : tx_event → Bool
  | tx_event.store _ _ => true
  | tx_event.printf_bad_alignment _ => true
  | _ => false

/-- A transmit slot that is idle at the first read of the status register and reports an
error (not done) at the second; no streaming state machine is registered. -/
def tx_hw_error_example : tx_hw :=
  { CPU_TX_BUF := 7
    BPS_IDLE := 0x800000
    BPS_DONE := 0x80
    BPS_ERROR := 0x8000
    status := fun k => if k = 0 then 0x800000 else 0x8000
    cpu_tx_buf_dest_port := 2
    ac_could_be_sending_to_eth := 0 }

/-! ## Host side: FPGA compatibility check (`umtrx_impl.cpp`) -/

/-- Line 178 of `umtrx_impl::umtrx_impl`, the initial value of `fpga_major`:
`fpga_compat_num >> 16` converted to `boost::uint16_t`. -/
def fpga_major_init (fpga_compat_num : Nat) : Nat := (fpga_compat_num >>> 16) % 65536

/-- Line 178 of `umtrx_impl::umtrx_impl`, the initial value of `fpga_minor`:
`fpga_compat_num & 0xffff` converted to `boost::uint16_t`. -/
def fpga_minor_init (fpga_compat_num : Nat) : Nat := (fpga_compat_num &&& 0xffff) % 65536

/-- The value of `fpga_major` after lines 179-182: under the old version scheme
(`fpga_major == 0`) it receives `fpga_minor`. -/
def fpga_major (fpga_compat_num : Nat) : Nat :=
  if fpga_major_init fpga_compat_num = 0 then fpga_minor_init fpga_compat_num
  else fpga_major_init fpga_compat_num

/-- The value of `fpga_minor` after lines 179-182: under the old version scheme it is
reset to 0. -/
def fpga_minor (fpga_compat_num : Nat) : Nat :=
  if fpga_major_init fpga_compat_num = 0 then 0 else fpga_minor_init fpga_compat_num

/-- The text of the `uhd::runtime_error` thrown at lines 184-189; the two `%d` fields
receive `int(USRP2_FPGA_COMPAT_NUM)` and `fpga_major`. -/
def fpga_compat_error (expected : Int) (got : Nat) : String :=
  "\nPlease update the firmware and FPGA images for your device.\n"
    ++ "See the application notes for UmTRX for instructions.\n"
    ++ "Expected FPGA compatibility number " ++ toString expected ++ ", but got "
    ++ toString got ++ ":\n"
    ++ "The FPGA build is not compatible with the host code build."

/-- Lines 176-191 of the constructor `umtrx_impl::umtrx_impl`, for the word
`fpga_compat_num` returned by `peek32(U2_REG_COMPAT_NUM_RB)`: either the runtime error is
thrown, or the string stored under `fpga_version` (format `%u.%u`) is returned. The macro
`USRP2_FPGA_COMPAT_NUM` comes from a header that is not among the sources; it is a
parameter. -/
def umtrx_impl_fpga_compat (USRP2_FPGA_COMPAT_NUM : Int) (fpga_compat_num : Nat) :
    Except String String :=
  if (fpga_major fpga_compat_num : Int) ≠ USRP2_FPGA_COMPAT_NUM then
    Except.error (fpga_compat_error USRP2_FPGA_COMPAT_NUM (fpga_major fpga_compat_num))
  else
    Except.ok (toString (fpga_major fpga_compat_num) ++ "."
      ++ toString (fpga_minor fpga_compat_num))

/-! ## Lemmas on the checksum -/

theorem oc_norm_le (s : Nat) : oc_norm s ≤ 65535 := by
  unfold oc_norm
  split_ifs <;> omega

theorem oc_norm_mod (s : Nat) : oc_norm s % 65535 = s % 65535 := by
  unfold oc_norm
  split_ifs <;> omega

theorem oc_norm_eq_zero (s : Nat) : oc_norm s = 0 ↔ s = 0 := by
  by_cases h : s = 0 <;> simp [oc_norm, h]

theorem oc_norm_add (t w : Nat) : oc_norm (oc_norm t + w) = oc_norm (t + w) := by
  unfold oc_norm
  split_ifs <;> omega

/-- Adding the complement of the canonical representative gives `0xFFFF`. -/
theorem oc_norm_compl (s : Nat) : oc_norm (s + (65535 - oc_norm s)) = 65535 := by
  by_cases h : s = 0
  · subst h
    simp [oc_norm]
  · have h1 : oc_norm s = (s - 1) % 65535 + 1 := by simp [oc_norm, h]
    have h2 : s + (65535 - oc_norm s) ≠ 0 := by omega
    rw [oc_norm, if_neg h2, h1]
    omega

/-- Two folds of a 32-bit value give its canonical one's-complement representative. -/
theorem fold_twice (s : Nat) (hs : s < 2 ^ 32) :
    (s % 65536 + s / 65536) % 65536 + (s % 65536 + s / 65536) / 65536 = oc_norm s := by
  unfold oc_norm
  split_ifs <;> omega

theorem CHKSUM_eq (x chksum : Nat) : CHKSUM x chksum = oc_norm ((chksum + x) % 2 ^ 32) := by
  unfold CHKSUM
  exact fold_twice _ (Nat.mod_lt _ (by norm_num))

theorem chksum_buffer_succ (buf : Nat → Nat) (n : Nat) (init : Nat) :
    chksum_buffer buf ((n + 1 : Nat) : Int) init
      = CHKSUM (buf n % 65536) (chksum_buffer buf (n : Int) init) := by
  simp [chksum_buffer, List.range_succ, List.foldl_append]

theorem chksum_buffer_nonpos (buf : Nat → Nat) (nshorts : Int) (init : Nat) (h : nshorts ≤ 0) :
    chksum_buffer buf nshorts init = init := by
  have : nshorts.toNat = 0 := by omega
  simp [chksum_buffer, this]

/-- After at least one word the accumulator fits in 16 bits, whatever the start value. -/
theorem chksum_buffer_le (buf : Nat → Nat) (n : Nat) (init : Nat) :
    chksum_buffer buf ((n + 1 : Nat) : Int) init ≤ 65535 := by
  rw [chksum_buffer_succ, CHKSUM_eq]
  exact oc_norm_le _

/-- Closed form of the checksum when the very first addition does not wrap. -/
theorem chksum_buffer_closed (buf : Nat → Nat) (n : Nat) (init : Nat)
    (h : init + buf 0 % 65536 < 2 ^ 32) :
    chksum_buffer buf ((n + 1 : Nat) : Int) init = oc_norm (init + word_sum buf (n + 1)) := by
  induction n with
  | zero =>
    rw [chksum_buffer_succ, CHKSUM_eq]
    have h0 : chksum_buffer buf ((0 : Nat) : Int) init = init :=
      chksum_buffer_nonpos buf _ init (by simp)
    rw [h0, Nat.mod_eq_of_lt h]
    simp [word_sum]
  | succ k ih =>
    rw [chksum_buffer_succ, CHKSUM_eq, ih]
    have hb := oc_norm_le (init + word_sum buf (k + 1))
    have hlt : oc_norm (init + word_sum buf (k + 1)) + buf (k + 1) % 65536 < 2 ^ 32 := by
      have := Nat.mod_lt (buf (k + 1)) (show 0 < 65536 by norm_num)
      omega
    rw [Nat.mod_eq_of_lt hlt, oc_norm_add]
    simp [word_sum, Nat.add_assoc]

/-- Closed form for a zero start value, any number of words. -/
theorem chksum_buffer_zero (buf : Nat → Nat) (n : Nat) :
    chksum_buffer buf (n : Int) 0 = oc_norm (word_sum buf n) := by
  cases n with
  | zero => simp [chksum_buffer, word_sum, oc_norm]
  | succ k =>
    have h := chksum_buffer_closed buf k 0
      (by have := Nat.mod_lt (buf 0) (show 0 < 65536 by norm_num); omega)
    simpa using h

theorem word_sum_congr (buf buf2 : Nat → Nat) (n : Nat) (h : ∀ i, i < n → buf i = buf2 i) :
    word_sum buf n = word_sum buf2 n := by
  induction n with
  | zero => rfl
  | succ k ih =>
    simp only [word_sum]
    rw [ih (fun i hi => h i (by omega)), h k (by omega)]

theorem word_sum_store (buf : Nat → Nat) (n k v : Nat) (hk : k < n) :
    word_sum (store buf k v) n + buf k % 65536 = word_sum buf n + v % 65536 := by
  induction n with
  | zero => omega
  | succ m ih =>
    simp only [word_sum]
    by_cases hkm : k = m
    · subst hkm
      have hc : word_sum (store buf k v) k = word_sum buf k :=
        word_sum_congr _ _ _ (fun i hi => by simp [store]; omega)
      simp [hc, store]
      omega
    · have hlt : k < m := by omega
      have := ih hlt
      have hm : store buf k v m = buf m := by simp [store]; omega
      rw [hm]
      omega

theorem word_sum_eq_zero (buf : Nat → Nat) (n : Nat) :
    word_sum buf n = 0 ↔ ∀ i, i < n → buf i % 65536 = 0 := by
  induction n with
  | zero => simp [word_sum]
  | succ k ih =>
    simp only [word_sum, Nat.add_eq_zero, ih]
    constructor
    · rintro ⟨h1, h2⟩ i hi
      by_cases hik : i = k
      · subst hik; exact h2
      · exact h1 i (by omega)
    · intro h
      exact ⟨fun i hi => h i (by omega), h k (by omega)⟩

theorem chksum_buffer_congr (buf buf2 : Nat → Nat) (n : Nat) (init : Nat)
    (h : ∀ i, i < n → buf i = buf2 i) :
    chksum_buffer buf (n : Int) init = chksum_buffer buf2 (n : Int) init := by
  induction n with
  | zero => simp [chksum_buffer]
  | succ k ih =>
    rw [chksum_buffer_succ, chksum_buffer_succ, ih (fun i hi => h i (by omega)), h k (by omega)]

/-! ## Claims on the checksum -/

/-- C1: checksum round trip. For every buffer of `n` 16-bit words, with `c` the low 16 bits
of the complement of `chksum_buffer(buf, n, 0)`: summing the `n` words followed by `c` gives
`0xFFFF`; summing the buffer in which a zero (checksum) field at any index `k < n` has been
replaced by `c` gives `0xFFFF` as well; and the complement of `0xFFFF` is zero in 16 bits. -/
theorem chksum_round_trip (buf : Nat → Nat) (n : Nat) :
    chksum_buffer (store buf n (bnot32 (chksum_buffer buf (n : Int) 0) % 65536))
        ((n + 1 : Nat) : Int) 0 = 0xFFFF
    ∧ (∀ k, k < n → buf k % 65536 = 0 →
        chksum_buffer (store buf k (bnot32 (chksum_buffer buf (n : Int) 0) % 65536))
          (n : Int) 0 = 0xFFFF)
    ∧ bnot32 0xFFFF % 65536 = 0 := by
  have hs : chksum_buffer buf (n : Int) 0 = oc_norm (word_sum buf n) := chksum_buffer_zero buf n
  have hle := oc_norm_le (word_sum buf n)
  have hc : bnot32 (chksum_buffer buf (n : Int) 0) % 65536 = 65535 - oc_norm (word_sum buf n) := by
    rw [hs]; unfold bnot32; omega
  rw [hc]
  refine ⟨?_, ?_, by decide⟩
  · rw [chksum_buffer_zero]
    have h1 : word_sum (store buf n (65535 - oc_norm (word_sum buf n))) (n + 1)
        = word_sum buf n + (65535 - oc_norm (word_sum buf n)) := by
      have hcg : word_sum (store buf n (65535 - oc_norm (word_sum buf n))) n = word_sum buf n :=
        word_sum_congr _ _ _ (fun i hi => by simp [store]; omega)
      have hst : store buf n (65535 - oc_norm (word_sum buf n)) n
          = 65535 - oc_norm (word_sum buf n) := by simp [store]
      simp only [word_sum, hcg, hst]
      omega
    rw [h1]
    exact oc_norm_compl _
  · intro k hk hz
    rw [chksum_buffer_zero]
    have h1 := word_sum_store buf n k (65535 - oc_norm (word_sum buf n)) hk
    have h2 : word_sum (store buf k (65535 - oc_norm (word_sum buf n))) n
        = word_sum buf n + (65535 - oc_norm (word_sum buf n)) := by
      rw [hz] at h1
      have h3 : (65535 - oc_norm (word_sum buf n)) % 65536
          = 65535 - oc_norm (word_sum buf n) := Nat.mod_eq_of_lt (by omega)
      rw [h3] at h1
      exact h1
    rw [h2]
    exact oc_norm_compl _

/-- Witness for C1 on the two-word buffer `[0x1234, 0]` whose second word is the
checksum field. -/
theorem chksum_round_trip_witness :
    chksum_buffer (store (fun i => [0x1234, 0].getD i 0) 1
        (bnot32 (chksum_buffer (fun i => [0x1234, 0].getD i 0) 2 0) % 65536)) 2 0 = 0xFFFF :=
  (chksum_round_trip (fun i => [0x1234, 0].getD i 0) 2).2.1 1 (by decide) (by decide)

/-- C2, counterexample: with start value `0xFFFFFFFF` and the single word `1` the 32-bit
addition wraps, the result is `0` although the start value is not `0`, and it is not
congruent to `0xFFFFFFFF + 1` modulo `0xFFFF`. -/
theorem chksum_buffer_wrap_counterexample :
    chksum_buffer (fun _ => 1) 1 0xFFFFFFFF = 0
    ∧ ¬ (chksum_buffer (fun _ => 1) 1 0xFFFFFFFF % 0xFFFF
          = (0xFFFFFFFF + word_sum (fun _ => 1) 1) % 0xFFFF)
    ∧ ¬ (chksum_buffer (fun _ => 1) 1 0xFFFFFFFF = 0 → 0xFFFFFFFF = 0) := by
  decide

/-- C2 (amended): `chksum_buffer(buf, nshorts, init)` returns `init` unchanged for
`nshorts <= 0`; for `nshorts >= 1` the result is at most `0xFFFF`; if moreover the first
addition `init + buf[0]` does not wrap at `2 ^ 32`, the result is congruent to
`init + sum(buf[i])` modulo `0xFFFF` and is `0` exactly when `init` and every word are `0`.
The result depends on no word at index `>= nshorts`. -/
theorem chksum_buffer_spec (buf : Nat → Nat) (nshorts : Int) (init : Nat) :
    (nshorts ≤ 0 → chksum_buffer buf nshorts init = init)
    ∧ (1 ≤ nshorts → chksum_buffer buf nshorts init ≤ 0xFFFF)
    ∧ (1 ≤ nshorts → init + buf 0 % 65536 < 2 ^ 32 →
        chksum_buffer buf nshorts init % 0xFFFF = (init + word_sum buf nshorts.toNat) % 0xFFFF
        ∧ (chksum_buffer buf nshorts init = 0 ↔
            (init = 0 ∧ ∀ i, i < nshorts.toNat → buf i % 65536 = 0)))
    ∧ (∀ buf2 : Nat → Nat, (∀ i : Nat, (i : Int) < nshorts → buf i = buf2 i) →
        chksum_buffer buf nshorts init = chksum_buffer buf2 nshorts init) := by
  refine ⟨chksum_buffer_nonpos buf nshorts init, ?_, ?_, ?_⟩
  · intro h
    obtain ⟨m, rfl⟩ : ∃ m : Nat, nshorts = ((m + 1 : Nat) : Int) := ⟨nshorts.toNat - 1, by omega⟩
    exact chksum_buffer_le buf m init
  · intro h hw
    obtain ⟨m, rfl⟩ : ∃ m : Nat, nshorts = ((m + 1 : Nat) : Int) := ⟨nshorts.toNat - 1, by omega⟩
    rw [chksum_buffer_closed buf m init hw]
    have ht : ((m + 1 : Nat) : Int).toNat = m + 1 := by simp
    rw [ht]
    refine ⟨oc_norm_mod _, ?_⟩
    rw [oc_norm_eq_zero, Nat.add_eq_zero, word_sum_eq_zero]
  · intro buf2 h
    by_cases hn : nshorts ≤ 0
    · rw [chksum_buffer_nonpos buf nshorts init hn, chksum_buffer_nonpos buf2 nshorts init hn]
    · obtain ⟨m, rfl⟩ : ∃ m : Nat, nshorts = (m : Int) := ⟨nshorts.toNat, by omega⟩
      exact chksum_buffer_congr buf buf2 m init (fun i hi => h i (by omega))

/-- Witness for C2 (amended) on the buffer `[0xFFFF, 0x0002]` with start value `5`. -/
theorem chksum_buffer_spec_witness :
    chksum_buffer (fun i => [0xFFFF, 0x0002].getD i 0) 2 5 ≤ 0xFFFF
    ∧ chksum_buffer (fun i => [0xFFFF, 0x0002].getD i 0) 2 5 % 0xFFFF
        = (5 + word_sum (fun i => [0xFFFF, 0x0002].getD i 0) 2) % 0xFFFF
    ∧ chksum_buffer (fun i => [0xFFFF, 0x0002].getD i 0) 0 5 = 5 :=
  ⟨(chksum_buffer_spec (fun i => [0xFFFF, 0x0002].getD i 0) 2 5).2.1 (by decide),
   ((chksum_buffer_spec (fun i => [0xFFFF, 0x0002].getD i 0) 2 5).2.2.1
      (by decide) (by decide)).1,
   (chksum_buffer_spec (fun i => [0xFFFF, 0x0002].getD i 0) 0 5).1 (by decide)⟩

/-! ## Lemmas on the listener registry -/

theorem find_listener_by_port_some (l : Nat → listener_entry) (port i : Nat) :
    find_listener_by_port l port = some i ↔
      (l i).port = port ∧ i < MAX_UDP_LISTENERS ∧ ∀ j, j < i → (l j).port ≠ port := by
  unfold find_listener_by_port
  rw [List.find?_range_eq_some]
  simp only [beq_iff_eq, List.mem_range, Bool.not_eq_true', beq_eq_false_iff_ne, ne_eq]
  constructor
  · rintro ⟨h1, h2, h3⟩
    exact ⟨h1.symm, h2, fun j hj h => h3 j hj h.symm⟩
  · rintro ⟨h1, h2, h3⟩
    exact ⟨h1.symm, h2, fun j hj h => h3 j hj h.symm⟩

theorem find_listener_by_port_none (l : Nat → listener_entry) (port : Nat) :
    find_listener_by_port l port = none ↔
      ∀ i, i < MAX_UDP_LISTENERS → (l i).port ≠ port := by
  unfold find_listener_by_port
  rw [List.find?_range_eq_none]
  simp only [Bool.not_eq_true', beq_eq_false_iff_ne, ne_eq]
  constructor
  · intro h i hi hp
    exact h i hi hp.symm
  · intro h i hi hp
    exact h i hi hp.symm

theorem find_free_listener_some (l : Nat → listener_entry) (i : Nat) :
    find_free_listener l = some i ↔
      (l i).rcvr = 0 ∧ i < MAX_UDP_LISTENERS ∧ ∀ j, j < i → (l j).rcvr ≠ 0 := by
  unfold find_free_listener
  rw [List.find?_range_eq_some]
  simp only [beq_iff_eq, List.mem_range, Bool.not_eq_true', beq_eq_false_iff_ne, ne_eq]

/-- Registering `(port, f)` makes the lookup of `port` resolve to an entry with callback `f`. -/
theorem register_udp_listener_lookup (l l2 : Nat → listener_entry) (port : Int) (f : Nat)
    (h : register_udp_listener l port f = some l2) :
    ∃ i, find_listener_by_port l2 (to_u16 port) = some i ∧ (l2 i).rcvr = f := by
  unfold register_udp_listener at h
  cases h1 : find_listener_by_port l (to_u16 port) with
  | some k =>
    rw [h1] at h
    simp only [Option.some.injEq] at h
    subst h
    rw [find_listener_by_port_some] at h1
    obtain ⟨hp, hk, hj⟩ := h1
    refine ⟨k, ?_, by simp⟩
    rw [find_listener_by_port_some]
    refine ⟨by simp [hp], hk, ?_⟩
    intro j hjk
    have hne : j ≠ k := by omega
    simp only [hne, if_false]
    exact hj j hjk
  | none =>
    rw [h1] at h
    cases h2 : find_free_listener l with
    | none => rw [h2] at h; simp at h
    | some k =>
      rw [h2] at h
      simp only [Option.some.injEq] at h
      subst h
      rw [find_free_listener_some] at h2
      rw [find_listener_by_port_none] at h1
      obtain ⟨_, hk, _⟩ := h2
      refine ⟨k, ?_, by simp⟩
      rw [find_listener_by_port_some]
      refine ⟨by simp, hk, ?_⟩
      intro j hjk
      have hne : j ≠ k := by omega
      simp only [hne, if_false]
      exact h1 j (by omega)

/-- Registering another port leaves the lookup of a port with a non-null callback alone. -/
theorem register_udp_listener_other (l l2 : Nat → listener_entry) (port : Int) (g : Nat)
    (P f i : Nat) (hf : f ≠ 0) (hP : to_u16 port ≠ P)
    (hfind : find_listener_by_port l P = some i) (hrc : (l i).rcvr = f)
    (h : register_udp_listener l port g = some l2) :
    find_listener_by_port l2 P = some i ∧ (l2 i).rcvr = f := by
  rw [find_listener_by_port_some] at hfind
  obtain ⟨hp, hi, hj⟩ := hfind
  unfold register_udp_listener at h
  cases h1 : find_listener_by_port l (to_u16 port) with
  | some k =>
    rw [h1] at h
    simp only [Option.some.injEq] at h
    subst h
    rw [find_listener_by_port_some] at h1
    have hik : i ≠ k := by
      intro hik
      rw [hik] at hp
      exact hP (h1.1.symm.trans hp)
    refine ⟨?_, by simp [hik, hrc]⟩
    rw [find_listener_by_port_some]
    refine ⟨by simp [hik, hp], hi, ?_⟩
    intro j hji
    by_cases hjk : j = k
    · simp only [hjk, if_true]
      rw [h1.1]
      exact hP
    · simp only [hjk, if_false]
      exact hj j hji
  | none =>
    rw [h1] at h
    cases h2 : find_free_listener l with
    | none => rw [h2] at h; simp at h
    | some k =>
      rw [h2] at h
      simp only [Option.some.injEq] at h
      subst h
      rw [find_free_listener_some] at h2
      have hik : i ≠ k := by
        intro hik
        rw [hik] at hrc
        exact hf (hrc.symm.trans h2.1)
      refine ⟨?_, by simp [hik, hrc]⟩
      rw [find_listener_by_port_some]
      refine ⟨by simp [hik, hp], hi, ?_⟩
      intro j hji
      by_cases hjk : j = k
      · simp only [hjk, if_true]
        exact hP
      · simp only [hjk, if_false]
        exact hj j hji

/-- A run of registrations of other ports leaves the lookup of a port with a non-null
callback alone. -/
theorem register_all_other (post : List (Int × Nat)) (l l2 : Nat → listener_entry)
    (P f i : Nat) (hf : f ≠ 0) (hP : ∀ c ∈ post, to_u16 c.1 ≠ P)
    (hfind : find_listener_by_port l P = some i) (hrc : (l i).rcvr = f)
    (h : register_all l post = some l2) :
    find_listener_by_port l2 P = some i ∧ (l2 i).rcvr = f := by
  induction post generalizing l with
  | nil =>
    simp only [register_all, Option.some.injEq] at h
    subst h
    exact ⟨hfind, hrc⟩
  | cons c rest ih =>
    obtain ⟨port, g⟩ := c
    simp only [register_all] at h
    cases h1 : register_udp_listener l port g with
    | none => rw [h1] at h; simp at h
    | some l1 =>
      rw [h1] at h
      have hc := register_udp_listener_other l l1 port g P f i hf
        (hP (port, g) (List.mem_cons_self _ _)) hfind hrc h1
      exact ih l1 (fun c hcm => hP c (List.mem_cons_of_mem _ hcm)) hc.1 hc.2 h

/-- A registration changes the port field of an entry only to the registered port. -/
theorem register_udp_listener_ports (l l2 : Nat → listener_entry) (port : Int) (g : Nat)
    (h : register_udp_listener l port g = some l2) (i : Nat) :
    (l2 i).port = (l i).port ∨ (l2 i).port = to_u16 port := by
  unfold register_udp_listener at h
  cases h1 : find_listener_by_port l (to_u16 port) with
  | some k =>
    rw [h1] at h
    simp only [Option.some.injEq] at h
    subst h
    left
    by_cases hik : i = k <;> simp [hik]
  | none =>
    rw [h1] at h
    cases h2 : find_free_listener l with
    | none => rw [h2] at h; simp at h
    | some k =>
      rw [h2] at h
      simp only [Option.some.injEq] at h
      subst h
      by_cases hik : i = k
      · right; simp [hik]
      · left; simp [hik]

/-- After a run of registrations every port field is an initial one or a registered one. -/
theorem register_all_ports (calls : List (Int × Nat)) (l l2 : Nat → listener_entry)
    (h : register_all l calls = some l2) (i : Nat) :
    (l2 i).port = (l i).port ∨ ∃ c ∈ calls, (l2 i).port = to_u16 c.1 := by
  induction calls generalizing l with
  | nil =>
    simp only [register_all, Option.some.injEq] at h
    subst h
    exact Or.inl rfl
  | cons c rest ih =>
    obtain ⟨port, g⟩ := c
    simp only [register_all] at h
    cases h1 : register_udp_listener l port g with
    | none => rw [h1] at h; simp at h
    | some l1 =>
      rw [h1] at h
      rcases ih l1 h with h2 | ⟨c, hc, h2⟩
      · rcases register_udp_listener_ports l l1 port g h1 i with h3 | h3
        · exact Or.inl (h2.trans h3)
        · exact Or.inr ⟨(port, g), List.mem_cons_self _ _, h2.trans h3⟩
      · exact Or.inr ⟨c, List.mem_cons_of_mem _ hc, h2⟩

theorem table_of_some (cs : List (Int × Nat)) (i : Nat) (c : Int × Nat)
    (h : cs[i]? = some c) : table_of cs i = ⟨to_u16 c.1, c.2⟩ := by
  simp only [table_of, h]

theorem table_of_none (cs : List (Int × Nat)) (i : Nat) (h : cs.length ≤ i) :
    table_of cs i = ⟨0, 0⟩ := by
  simp only [table_of, List.getElem?_eq_none h]

theorem table_of_nil : table_of [] = listeners_init := by
  funext i
  simp [table_of, listeners_init]

/-- On the table of `cs`, registering one more pair with a new port and any callback puts
it into the next entry. -/
theorem register_table_of (cs : List (Int × Nat)) (c : Int × Nat)
    (hlen : cs.length < MAX_UDP_LISTENERS)
    (hnew : ∀ x ∈ cs, to_u16 x.1 ≠ to_u16 c.1) (hnn : ∀ x ∈ cs, x.2 ≠ 0) :
    register_udp_listener (table_of cs) c.1 c.2 = some (table_of (cs ++ [c])) := by
  have hfilled : ∀ j, j < cs.length →
      (table_of cs j).port ≠ to_u16 c.1 ∧ (table_of cs j).rcvr ≠ 0 := by
    intro j hj
    have hs : cs[j]? = some cs[j] := List.getElem?_eq_getElem hj
    have hm : cs[j] ∈ cs := List.mem_iff_getElem?.mpr ⟨j, hs⟩
    rw [table_of_some cs j _ hs]
    exact ⟨hnew _ hm, hnn _ hm⟩
  have hend : table_of cs cs.length = ⟨0, 0⟩ := table_of_none cs _ (Nat.le_refl _)
  have hext : (fun i => if i = cs.length then (⟨to_u16 c.1, c.2⟩ : listener_entry)
      else table_of cs i) = table_of (cs ++ [c]) := by
    funext i
    by_cases hi : i = cs.length
    · subst hi
      rw [if_pos rfl, table_of_some (cs ++ [c]) cs.length c (List.getElem?_concat_length cs c)]
    · rw [if_neg hi]
      by_cases hlt : i < cs.length
      · have hs : cs[i]? = some cs[i] := List.getElem?_eq_getElem hlt
        have hs2 : (cs ++ [c])[i]? = some cs[i] := by
          rw [List.getElem?_append_left hlt]
          exact hs
        rw [table_of_some cs i _ hs, table_of_some (cs ++ [c]) i _ hs2]
      · rw [table_of_none cs i (by omega),
          table_of_none (cs ++ [c]) i (by simp only [List.length_append, List.length_singleton]; omega)]
  unfold register_udp_listener
  by_cases hz : to_u16 c.1 = 0
  · have hfind : find_listener_by_port (table_of cs) (to_u16 c.1) = some cs.length := by
      rw [find_listener_by_port_some]
      exact ⟨by rw [hend, hz], hlen, fun j hj => (hfilled j hj).1⟩
    rw [hfind]
    simp only [Option.some.injEq]
    rw [← hext]
    funext i
    by_cases hi : i = cs.length
    · subst hi
      simp only [if_true, hend, hz]
    · simp only [hi, if_false]
  · have hfind : find_listener_by_port (table_of cs) (to_u16 c.1) = none := by
      rw [find_listener_by_port_none]
      intro j hj
      by_cases hlt : j < cs.length
      · exact (hfilled j hlt).1
      · rw [table_of_none cs j (by omega)]
        exact fun h => hz h.symm
    have hfree : find_free_listener (table_of cs) = some cs.length := by
      rw [find_free_listener_some]
      exact ⟨by rw [hend], hlen, fun j hj => (hfilled j hj).2⟩
    rw [hfind, hfree]
    simp only [Option.some.injEq]
    exact hext

/-- Registering pairs with pairwise distinct ports and non-null callbacks, at most six in
all, fills the table in order. -/
theorem register_all_table_of (rest cs : List (Int × Nat))
    (hlen : cs.length + rest.length ≤ MAX_UDP_LISTENERS)
    (hdist : (cs ++ rest).Pairwise (fun a b => to_u16 a.1 ≠ to_u16 b.1))
    (hnn : ∀ x ∈ cs ++ rest, x.2 ≠ 0) :
    register_all (table_of cs) rest = some (table_of (cs ++ rest)) := by
  induction rest generalizing cs with
  | nil => simp [register_all]
  | cons c rest ih =>
    obtain ⟨port, g⟩ := c
    rw [List.pairwise_append] at hdist
    obtain ⟨hd1, hd2, hd3⟩ := hdist
    rw [List.pairwise_cons] at hd2
    have hstep := register_table_of cs (port, g)
      (by simp only [List.length_cons] at hlen; omega)
      (fun x hx => hd3 x hx (port, g) (List.mem_cons_self _ _))
      (fun x hx => hnn x (List.mem_append_left _ hx))
    simp only [register_all]
    rw [hstep]
    have hcat : cs ++ (port, g) :: rest = (cs ++ [(port, g)]) ++ rest := by simp
    rw [hcat]
    apply ih
    · simp only [List.length_append, List.length_cons, List.length_nil] at hlen ⊢
      omega
    · rw [List.pairwise_append]
      refine ⟨?_, hd2.2, ?_⟩
      · rw [List.pairwise_append]
        refine ⟨hd1, List.pairwise_singleton _ _, ?_⟩
        intro a ha b hb
        rw [List.mem_singleton] at hb
        subst hb
        exact hd3 a ha _ (List.mem_cons_self _ _)
      · intro a ha b hb
        rw [List.mem_append, List.mem_singleton] at ha
        rcases ha with ha | ha
        · exact hd3 a ha b (List.mem_cons_of_mem _ hb)
        · subst ha
          exact hd2.1 b hb
    · intro x hx
      rw [← hcat] at hx
      exact hnn x hx

/-- In the table of pairwise distinct ports each port resolves to its own entry. -/
theorem table_of_lookup (cs : List (Int × Nat)) (i : Nat) (c : Int × Nat)
    (hlen : cs.length ≤ MAX_UDP_LISTENERS)
    (hdist : cs.Pairwise (fun a b => to_u16 a.1 ≠ to_u16 b.1))
    (hi : cs[i]? = some c) :
    find_listener_by_port (table_of cs) (to_u16 c.1) = some i
      ∧ (table_of cs i).rcvr = c.2 := by
  have hil : i < cs.length := by
    rw [List.getElem?_eq_some] at hi
    exact hi.1
  refine ⟨?_, by rw [table_of_some cs i c hi]⟩
  rw [find_listener_by_port_some]
  refine ⟨by rw [table_of_some cs i c hi], by omega, ?_⟩
  intro j hj
  have hs : cs[j]? = some cs[j] := List.getElem?_eq_getElem (by omega)
  rw [table_of_some cs j _ hs]
  have hne := List.pairwise_iff_getElem.mp hdist j i (by omega) hil hj
  have hci : cs[i] = c := by
    rw [List.getElem?_eq_getElem hil] at hi
    exact Option.some.inj hi
  rw [hci] at hne
  exact hne

theorem registry_inv_init : registry_inv listeners_init := by
  constructor
  · intro i j _ _ _ h
    exact absurd rfl h
  · intro i _ _ h
    exact absurd rfl h

/-- A registration preserves the registry invariant. -/
theorem registry_inv_register (l l2 : Nat → listener_entry) (port : Int) (g : Nat)
    (hinv : registry_inv l) (h : register_udp_listener l port g = some l2) :
    registry_inv l2 := by
  obtain ⟨inv1, inv2⟩ := hinv
  unfold register_udp_listener at h
  cases h1 : find_listener_by_port l (to_u16 port) with
  | some k =>
    rw [h1] at h
    simp only [Option.some.injEq] at h
    subst h
    rw [find_listener_by_port_some] at h1
    obtain ⟨hkp, _, hkfirst⟩ := h1
    have hport : ∀ i, (if i = k then ({ l i with rcvr := g } : listener_entry) else l i).port
        = (l i).port := by
      intro i
      by_cases hik : i = k <;> simp [hik]
    constructor
    · intro i j hi hj hpe hnz
      rw [hport i, hport j] at hpe
      rw [hport i] at hnz
      exact inv1 i j hi hj hpe hnz
    · intro i hi hp0 hr j hji
      rw [hport i] at hp0
      rw [hport j]
      by_cases hik : i = k
      · subst hik
        rw [hkp] at hp0
        rw [← hp0]
        exact hkfirst j hji
      · simp only [hik, if_false] at hr
        exact inv2 i hi hp0 hr j hji
  | none =>
    rw [h1] at h
    cases h2 : find_free_listener l with
    | none => rw [h2] at h; simp at h
    | some k =>
      rw [h2] at h
      simp only [Option.some.injEq] at h
      subst h
      rw [find_listener_by_port_none] at h1
      rw [find_free_listener_some] at h2
      obtain ⟨hk0, hk, _⟩ := h2
      constructor
      · intro i j hi hj hpe hnz
        by_cases hik : i = k
        · by_cases hjk : j = k
          · rw [hik, hjk]
          · simp only [hik, hjk, if_true, if_false] at hpe
            exact absurd hpe.symm (h1 j hj)
        · by_cases hjk : j = k
          · simp only [hik, hjk, if_true, if_false] at hpe
            exact absurd hpe (h1 i hi)
          · simp only [hik, hjk, if_false] at hpe hnz
            exact inv1 i j hi hj hpe hnz
      · intro i hi hp0 hr j hji
        by_cases hik : i = k
        · have hjk : j ≠ k := by omega
          simp only [hik, if_true] at hp0
          simp only [hjk, if_false]
          rw [← hp0]
          exact h1 j (by omega)
        · simp only [hik, if_false] at hp0 hr
          by_cases hjk : j = k
          · simp only [hjk, if_true]
            intro hq
            exact h1 i hi (hp0.trans hq.symm)
          · simp only [hjk, if_false]
            exact inv2 i hi hp0 hr j hji

/-- Every registry reached from the empty one satisfies the registry invariant. -/
theorem registry_inv_register_all (calls : List (Int × Nat)) (l l2 : Nat → listener_entry)
    (hinv : registry_inv l) (h : register_all l calls = some l2) : registry_inv l2 := by
  induction calls generalizing l with
  | nil =>
    simp only [register_all, Option.some.injEq] at h
    subst h
    exact hinv
  | cons c rest ih =>
    obtain ⟨port, g⟩ := c
    simp only [register_all] at h
    cases h1 : register_udp_listener l port g with
    | none => rw [h1] at h; simp at h
    | some l1 =>
      rw [h1] at h
      exact ih l1 (registry_inv_register l l1 port g hinv h1) h

/-- Under the registry invariant a port has at most one entry with a non-null callback. -/
theorem registry_inv_unique (l : Nat → listener_entry) (hinv : registry_inv l) (P i j : Nat)
    (hi : i < MAX_UDP_LISTENERS) (hj : j < MAX_UDP_LISTENERS)
    (hpi : (l i).port = P) (hri : (l i).rcvr ≠ 0)
    (hpj : (l j).port = P) (hrj : (l j).rcvr ≠ 0) : i = j := by
  obtain ⟨inv1, inv2⟩ := hinv
  by_cases hz : P = 0
  · subst hz
    have h1 := inv2 i hi hpi hri
    have h2 := inv2 j hj hpj hrj
    rcases Nat.lt_trichotomy i j with hlt | heq | hgt
    · exact absurd hpi (h2 i hlt)
    · exact heq
    · exact absurd hpj (h1 j hgt)
  · exact inv1 i j hi hj (hpi.trans hpj.symm) (by rw [hpi]; exact hz)

theorem find_free_listener_none (l : Nat → listener_entry) :
    find_free_listener l = none ↔ ∀ i, i < MAX_UDP_LISTENERS → (l i).rcvr ≠ 0 := by
  unfold find_free_listener
  rw [List.find?_range_eq_none]
  simp only [Bool.not_eq_true', beq_eq_false_iff_ne, ne_eq]

/-! ## Lemmas on the receive dispatcher -/

theorem byte_at_lt (p : Nat → Nat) (off : Nat) : byte_at p off < 256 :=
  Nat.mod_lt _ (by norm_num)

theorem u16_at_lt (p : Nat → Nat) (off : Nat) : u16_at p off < 65536 := by
  have h1 := byte_at_lt p off
  have h2 := byte_at_lt p (off + 1)
  unfold u16_at
  omega

theorem lor_eq_zero_iff (a b : Nat) : a ||| b = 0 ↔ a = 0 ∧ b = 0 := by
  constructor
  · intro h
    have hb : ∀ i, (a.testBit i || b.testBit i) = false := by
      intro i
      rw [← Nat.testBit_or, h, Nat.zero_testBit]
    constructor
    · apply Nat.eq_of_testBit_eq
      intro i
      have := hb i
      rw [Bool.or_eq_false_iff] at this
      rw [this.1, Nat.zero_testBit]
    · apply Nat.eq_of_testBit_eq
      intro i
      have := hb i
      rw [Bool.or_eq_false_iff] at this
      rw [this.2, Nat.zero_testBit]
  · rintro ⟨rfl, rfl⟩
    rfl

/-- The fragmentation test of `handle_eth_packet` passes exactly when the more-fragments
flag is clear and the fragment offset is zero. -/
theorem not_fragmented_iff (x : Nat) :
    x &&& (IP_MF ||| IP_OFFMASK) = 0 ↔ (x &&& IP_MF = 0 ∧ x &&& IP_OFFMASK = 0) := by
  rw [Nat.and_or_distrib_left, lor_eq_zero_iff]

/-- The body of `handle_arp_packet` as a chain of guards. -/
theorem handle_arp_packet_eq (cfg : net_config) (p : Nat → Nat) (arp size : Nat) :
    handle_arp_packet cfg p arp size =
      if size < 28 then [Event.printf_handle_arp_weird_size (to_int size)]
      else if (arp_at p arp).ar_hrd ≠ ARPHRD_ETHER ∨ (arp_at p arp).ar_pro ≠ ETHERTYPE_IPV4
          ∨ (arp_at p arp).ar_hln ≠ 6 ∨ (arp_at p arp).ar_pln ≠ 4 then []
      else if (arp_at p arp).ar_op ≠ ARPOP_REQUEST then []
      else if get_int32 (arp_at p arp).ar_tip = cfg._get_ip_addr then
        send_arp_reply (arp_at p arp) cfg._get_eth_mac_addr
      else [] := by
  simp only [handle_arp_packet, ip_addr_eq, beq_iff_eq, sizeof_arp_eth_ipv4]

theorem handle_arp_packet_quiet (cfg : net_config) (p : Nat → Nat) (arp size : Nat)
    (e : Event) (he : e ∈ handle_arp_packet cfg p arp size) :
    e.is_rcvr = false ∧ e.is_arp_cache_update = false := by
  rw [handle_arp_packet_eq] at he
  by_cases h1 : size < 28
  · rw [if_pos h1, List.mem_singleton] at he
    subst he
    exact ⟨rfl, rfl⟩
  · rw [if_neg h1] at he
    by_cases h2 : (arp_at p arp).ar_hrd ≠ ARPHRD_ETHER ∨ (arp_at p arp).ar_pro ≠ ETHERTYPE_IPV4
        ∨ (arp_at p arp).ar_hln ≠ 6 ∨ (arp_at p arp).ar_pln ≠ 4
    · rw [if_pos h2] at he
      exact absurd he (List.not_mem_nil _)
    · rw [if_neg h2] at he
      by_cases h3 : (arp_at p arp).ar_op ≠ ARPOP_REQUEST
      · rw [if_pos h3] at he
        exact absurd he (List.not_mem_nil _)
      · rw [if_neg h3] at he
        by_cases h4 : get_int32 (arp_at p arp).ar_tip = cfg._get_ip_addr
        · rw [if_pos h4] at he
          simp only [send_arp_reply, List.mem_singleton] at he
          subst he
          exact ⟨rfl, rfl⟩
        · rw [if_neg h4] at he
          exact absurd he (List.not_mem_nil _)

/-- On an ARP frame `handle_eth_packet` is `handle_arp_packet` at byte offset 16. -/
theorem handle_eth_packet_arp (cfg : net_config) (listeners : Nat → listener_entry)
    (p : Nat → Nat) (nlines : Nat) (heth : p 3 % 65536 = ETHERTYPE_ARP) :
    handle_eth_packet cfg listeners p nlines =
      handle_arp_packet cfg p 16 ((nlines * 4 + (2 ^ 32 - 14)) % 2 ^ 32) := by
  simp only [handle_eth_packet, heth, if_true]

/-- The body of `handle_eth_packet` on a frame with ethertype IPv4. -/
theorem handle_eth_packet_ipv4 (cfg : net_config) (listeners : Nat → listener_entry)
    (p : Nat → Nat) (nlines : Nat) (heth : p 3 % 65536 = ETHERTYPE_IPV4) :
    handle_eth_packet cfg listeners p nlines =
      if IPH_V p 16 ≠ 4 ∨ IPH_HL p 16 ≠ 5 then []
      else if IPH_OFFSET p 16 &&& (IP_MF ||| IP_OFFMASK) ≠ 0 then []
      else
        Event.arp_cache_update (ip_hdr_src p 16) (bytes_at p 8 6) ::
          (if IPH_PROTO p 16 = IP_PROTO_UDP then
            handle_udp_packet listeners p (ip_hdr_src p 16) (ip_hdr_dest p 16)
              (16 + IP_HLEN) (to_size_t ((IPH_LEN p 16 : Int) - (IP_HLEN : Int)))
          else if IPH_PROTO p 16 = IP_PROTO_ICMP then
            handle_icmp_packet p (ip_hdr_src p 16) (ip_hdr_dest p 16)
              (16 + IP_HLEN) (to_size_t ((IPH_LEN p 16 : Int) - (IP_HLEN : Int)))
          else []) := by
  have hne : ¬ (ETHERTYPE_IPV4 = ETHERTYPE_ARP) := by decide
  simp only [handle_eth_packet, heth, hne, if_false, if_true]

/-- The body of `handle_eth_packet` on an accepted IPv4 datagram. -/
theorem handle_eth_packet_accepted (cfg : net_config) (listeners : Nat → listener_entry)
    (p : Nat → Nat) (nlines : Nat) (heth : p 3 % 65536 = ETHERTYPE_IPV4)
    (hv : IPH_V p 16 = 4) (hhl : IPH_HL p 16 = 5)
    (hmf : IPH_OFFSET p 16 &&& IP_MF = 0) (hoff : IPH_OFFSET p 16 &&& IP_OFFMASK = 0) :
    handle_eth_packet cfg listeners p nlines =
      Event.arp_cache_update (ip_hdr_src p 16) (bytes_at p 8 6) ::
        (if IPH_PROTO p 16 = IP_PROTO_UDP then
          handle_udp_packet listeners p (ip_hdr_src p 16) (ip_hdr_dest p 16)
            (16 + IP_HLEN) (to_size_t ((IPH_LEN p 16 : Int) - (IP_HLEN : Int)))
        else if IPH_PROTO p 16 = IP_PROTO_ICMP then
          handle_icmp_packet p (ip_hdr_src p 16) (ip_hdr_dest p 16)
            (16 + IP_HLEN) (to_size_t ((IPH_LEN p 16 : Int) - (IP_HLEN : Int)))
        else []) := by
  have h1 : ¬ (IPH_V p 16 ≠ 4 ∨ IPH_HL p 16 ≠ 5) := by simp [hv, hhl]
  have h2 : ¬ (IPH_OFFSET p 16 &&& (IP_MF ||| IP_OFFMASK) ≠ 0) :=
    not_not.mpr ((not_fragmented_iff _).mpr ⟨hmf, hoff⟩)
  rw [handle_eth_packet_ipv4 cfg listeners p nlines heth, if_neg h1, if_neg h2]

/-- The `size_t` length handed to `handle_udp_packet` equals the 16-bit UDP length field
exactly when that field equals the IP total length minus 20 as integers. -/
theorem udp_len_match_iff (a u : Nat) (ha : a < 65536) (hu : u < 65536) :
    to_size_t ((a : Int) - (IP_HLEN : Int)) = u ↔ (u : Int) = (a : Int) - 20 := by
  unfold to_size_t IP_HLEN
  omega

/-- The `int` payload length computed by `handle_udp_packet` is the UDP length minus 8. -/
theorem udp_payload_len (u : Nat) (hu : u < 65536) :
    to_int ((u + (2 ^ 32 - UDP_HLEN)) % 2 ^ 32) = (u : Int) - 8 := by
  unfold to_int UDP_HLEN
  split_ifs <;> omega

theorem to_int_to_size_t (x : Int) (h1 : -(2 ^ 31) ≤ x) (h2 : x < 2 ^ 31) :
    to_int (to_size_t x) = x := by
  unfold to_int to_size_t
  split_ifs <;> omega

theorem handle_icmp_packet_quiet (p : Nat → Nat) (src dst icmp len : Nat) (e : Event)
    (he : e ∈ handle_icmp_packet p src dst icmp len) :
    e.is_rcvr = false ∧ e.is_send_pkt = false ∧ e.is_arp_cache_update = false := by
  unfold handle_icmp_packet at he
  split_ifs at he <;> simp only [List.mem_singleton, List.not_mem_nil] at he <;>
    (subst he; exact ⟨rfl, rfl, rfl⟩)

theorem handle_udp_packet_quiet (listeners : Nat → listener_entry) (p : Nat → Nat)
    (src dst udp len : Nat) (e : Event)
    (he : e ∈ handle_udp_packet listeners p src dst udp len) :
    e.is_send_pkt = false ∧ e.is_arp_cache_update = false := by
  unfold handle_udp_packet at he
  split_ifs at he
  · simp only [List.mem_singleton] at he
    subst he
    exact ⟨rfl, rfl⟩
  · cases hfind : find_listener_by_port listeners (udp_hdr_dest p udp) with
    | none =>
      simp only [hfind] at he
      exact absurd he (List.not_mem_nil _)
    | some i =>
      simp only [hfind, List.mem_singleton] at he
      subst he
      exact ⟨rfl, rfl⟩

/-- A datagram whose length does not match the UDP length field yields the diagnostic. -/
theorem handle_udp_packet_mismatch (listeners : Nat → listener_entry) (p : Nat → Nat)
    (src dst udp len : Nat) (h : len ≠ udp_hdr_len p udp) :
    handle_udp_packet listeners p src dst udp len =
      [Event.printf_udp_inconsistent_lengths (to_int len) (udp_hdr_len p udp)] := by
  unfold handle_udp_packet
  rw [if_pos h]

/-- A datagram with matching length and a matching table entry yields one callback. -/
theorem handle_udp_packet_hit (listeners : Nat → listener_entry) (p : Nat → Nat)
    (src dst udp len i : Nat) (h : len = udp_hdr_len p udp)
    (hfind : find_listener_by_port listeners (udp_hdr_dest p udp) = some i) :
    handle_udp_packet listeners p src dst udp len =
      [Event.rcvr (listeners i).rcvr ⟨src, udp_hdr_src p udp⟩ ⟨dst, udp_hdr_dest p udp⟩
        (udp + UDP_HLEN) ((udp_hdr_len p udp : Int) - 8)] := by
  have hu : udp_hdr_len p udp < 65536 := u16_at_lt _ _
  unfold handle_udp_packet
  rw [if_neg (not_not.mpr h)]
  simp only [hfind, make_socket_address, h, udp_payload_len _ hu]

/-- A datagram with matching length and no matching table entry has no effect. -/
theorem handle_udp_packet_miss (listeners : Nat → listener_entry) (p : Nat → Nat)
    (src dst udp len : Nat) (h : len = udp_hdr_len p udp)
    (hfind : find_listener_by_port listeners (udp_hdr_dest p udp) = none) :
    handle_udp_packet listeners p src dst udp len = [] := by
  unfold handle_udp_packet
  rw [if_neg (not_not.mpr h)]
  simp only [hfind]

/-! ## Claims on the ARP path -/

/-- C3: for every inbound frame with ethertype ARP that holds a complete ARP message
(`16 + 28 <= 4 * nlines`, the word count not overflowing 32 bits) which is an
Ethernet/IPv4 REQUEST whose target IP equals the configured IP, `handle_eth_packet`
performs exactly one `send_pkt` and nothing else: ethertype ARP, destination MAC = the
request's sender MAC, and a 28-byte ARP body with op = REPLY, sender MAC = configured MAC,
sender IP = the request's target IP, target MAC = the request's sender MAC, target IP =
the request's sender IP, and hrd/pro/hln/pln copied from the request. -/
theorem arp_request_yields_one_reply (cfg : net_config) (listeners : Nat → listener_entry)
    (p : Nat → Nat) (nlines : Nat)
    (heth : p 3 % 65536 = ETHERTYPE_ARP)
    (hsize : 16 + sizeof_arp_eth_ipv4 ≤ 4 * nlines) (hn : 4 * nlines < 2 ^ 32)
    (hhrd : (arp_at p 16).ar_hrd = ARPHRD_ETHER)
    (hpro : (arp_at p 16).ar_pro = ETHERTYPE_IPV4)
    (hhln : (arp_at p 16).ar_hln = 6)
    (hpln : (arp_at p 16).ar_pln = 4)
    (hop : (arp_at p 16).ar_op = ARPOP_REQUEST)
    (htip : get_int32 (arp_at p 16).ar_tip = cfg._get_ip_addr) :
    handle_eth_packet cfg listeners p nlines =
      [Event.send_pkt ⟨(arp_at p 16).ar_sha⟩ ETHERTYPE_ARP
        (arp_eth_ipv4.bytes
          { ar_hrd := (arp_at p 16).ar_hrd
            ar_pro := (arp_at p 16).ar_pro
            ar_hln := (arp_at p 16).ar_hln
            ar_pln := (arp_at p 16).ar_pln
            ar_op := ARPOP_REPLY
            ar_sha := cfg._get_eth_mac_addr.addr
            ar_sip := (arp_at p 16).ar_tip
            ar_tha := (arp_at p 16).ar_sha
            ar_tip := (arp_at p 16).ar_sip })
        28 [] 0 [] 0] := by
  have hsz : ¬ ((nlines * 4 + (2 ^ 32 - 14)) % 2 ^ 32 < 28) := by
    unfold sizeof_arp_eth_ipv4 at hsize
    omega
  have hfmt : ¬ ((arp_at p 16).ar_hrd ≠ ARPHRD_ETHER ∨ (arp_at p 16).ar_pro ≠ ETHERTYPE_IPV4
      ∨ (arp_at p 16).ar_hln ≠ 6 ∨ (arp_at p 16).ar_pln ≠ 4) := by
    simp [hhrd, hpro, hhln, hpln]
  rw [handle_eth_packet_arp cfg listeners p nlines heth, handle_arp_packet_eq, if_neg hsz,
    if_neg hfmt, if_neg (not_not.mpr hop), if_pos htip]
  rfl

/-- Witness for C3, the end-to-end example of the spec: the request
{sender 10.0.0.5 / AA:AA:AA:AA:AA:AA, target 10.0.0.1 = own IP} gives the reply
{op 2, sender 10.0.0.1 / own MAC, target 10.0.0.5 / AA:AA:AA:AA:AA:AA}. -/
theorem arp_request_yields_one_reply_witness :
    handle_eth_packet config_example listeners_init arp_request_example 11 =
      [Event.send_pkt ⟨[0xAA, 0xAA, 0xAA, 0xAA, 0xAA, 0xAA]⟩ 0x0806
        [0, 1, 8, 0, 6, 4, 0, 2,
         0x00, 0x50, 0xC2, 0x85, 0x3F, 0xFF, 10, 0, 0, 1,
         0xAA, 0xAA, 0xAA, 0xAA, 0xAA, 0xAA, 10, 0, 0, 5]
        28 [] 0 [] 0] :=
  (arp_request_yields_one_reply config_example listeners_init arp_request_example 11
    (by decide) (by decide) (by decide) (by decide) (by decide) (by decide) (by decide)
    (by decide) (by decide)).trans (by decide)

/-- C4: for every inbound ARP frame, if the target IP differs from the configured IP, or
the op is not REQUEST, or the hardware type, protocol type or one of the two address
lengths is not the Ethernet/IPv4 one, then nothing is transmitted: the only possible
effect is the size diagnostic of a too-short frame, so there is no `send_pkt`, no ARP
cache update and no listener callback (the registry is only ever touched by callbacks). -/
theorem arp_mismatch_dropped (cfg : net_config) (listeners : Nat → listener_entry)
    (p : Nat → Nat) (nlines : Nat)
    (heth : p 3 % 65536 = ETHERTYPE_ARP)
    (hbad : get_int32 (arp_at p 16).ar_tip ≠ cfg._get_ip_addr
      ∨ (arp_at p 16).ar_op ≠ ARPOP_REQUEST
      ∨ (arp_at p 16).ar_hrd ≠ ARPHRD_ETHER
      ∨ (arp_at p 16).ar_pro ≠ ETHERTYPE_IPV4
      ∨ (arp_at p 16).ar_hln ≠ 6
      ∨ (arp_at p 16).ar_pln ≠ 4) :
    (handle_eth_packet cfg listeners p nlines = []
      ∨ handle_eth_packet cfg listeners p nlines =
          [Event.printf_handle_arp_weird_size
            (to_int ((nlines * 4 + (2 ^ 32 - 14)) % 2 ^ 32))])
    ∧ ∀ e ∈ handle_eth_packet cfg listeners p nlines,
        e.is_send_pkt = false ∧ e.is_arp_cache_update = false ∧ e.is_rcvr = false := by
  have key : handle_eth_packet cfg listeners p nlines = []
      ∨ handle_eth_packet cfg listeners p nlines =
          [Event.printf_handle_arp_weird_size
            (to_int ((nlines * 4 + (2 ^ 32 - 14)) % 2 ^ 32))] := by
    rw [handle_eth_packet_arp cfg listeners p nlines heth, handle_arp_packet_eq]
    by_cases hsz : (nlines * 4 + (2 ^ 32 - 14)) % 2 ^ 32 < 28
    · right
      rw [if_pos hsz]
    · left
      rw [if_neg hsz]
      by_cases hfmt : (arp_at p 16).ar_hrd ≠ ARPHRD_ETHER ∨ (arp_at p 16).ar_pro ≠ ETHERTYPE_IPV4
          ∨ (arp_at p 16).ar_hln ≠ 6 ∨ (arp_at p 16).ar_pln ≠ 4
      · rw [if_pos hfmt]
      · rw [if_neg hfmt]
        by_cases hop : (arp_at p 16).ar_op ≠ ARPOP_REQUEST
        · rw [if_pos hop]
        · rw [if_neg hop]
          have htip : get_int32 (arp_at p 16).ar_tip ≠ cfg._get_ip_addr := by
            rcases hbad with h | h | h | h | h | h
            · exact h
            · exact absurd h hop
            · exact absurd (Or.inl h) hfmt
            · exact absurd (Or.inr (Or.inl h)) hfmt
            · exact absurd (Or.inr (Or.inr (Or.inl h))) hfmt
            · exact absurd (Or.inr (Or.inr (Or.inr h))) hfmt
          rw [if_neg htip]
  refine ⟨key, ?_⟩
  intro e he
  rcases key with h | h
  · rw [h] at he
    simp at he
  · rw [h] at he
    simp only [List.mem_singleton] at he
    subst he
    exact ⟨rfl, rfl, rfl⟩

/-- Witness for C4: a request for 10.0.0.9 received by the node 10.0.0.1 has no effect. -/
theorem arp_mismatch_dropped_witness :
    handle_eth_packet config_example listeners_init arp_request_other_example 11 = [] := by
  have h := arp_mismatch_dropped config_example listeners_init arp_request_other_example 11
    (by decide) (Or.inl (by decide))
  rcases h.1 with h1 | h1
  · exact h1
  · exact absurd h1 (by decide)

/-! ## Claims on the IPv4 and UDP paths -/

/-- C5: let port `P` have the registered callback `f`: `register_udp_listener(P, f)` with
`f` non-null was called on some registry, followed by any registrations of other ports.
Then for every inbound IPv4/UDP frame that is well formed (version 4, header length 5,
more-fragments clear and fragment offset zero, protocol UDP, UDP length field = IP total
length - 20) and whose UDP destination port is `P`, `handle_eth_packet` refreshes the ARP
cache and invokes `f` exactly once and no other callback, with source socket = (IP source
address, UDP source port), destination socket = (IP destination address, UDP destination
port), payload pointer = UDP header + 8 bytes and payload length = UDP length - 8. -/
theorem udp_dispatch_invokes_registered (cfg : net_config)
    (l0 l1 listeners : Nat → listener_entry) (port : Int) (f : Nat)
    (post : List (Int × Nat)) (p : Nat → Nat) (nlines : Nat)
    (hf : f ≠ 0)
    (hreg : register_udp_listener l0 port f = some l1)
    (hpost : register_all l1 post = some listeners)
    (hother : ∀ c ∈ post, to_u16 c.1 ≠ to_u16 port)
    (heth : p 3 % 65536 = ETHERTYPE_IPV4)
    (hv : IPH_V p 16 = 4) (hhl : IPH_HL p 16 = 5)
    (hmf : IPH_OFFSET p 16 &&& IP_MF = 0) (hoff : IPH_OFFSET p 16 &&& IP_OFFMASK = 0)
    (hproto : IPH_PROTO p 16 = IP_PROTO_UDP)
    (hlen : (udp_hdr_len p (16 + IP_HLEN) : Int) = (IPH_LEN p 16 : Int) - 20)
    (hport : udp_hdr_dest p (16 + IP_HLEN) = to_u16 port) :
    handle_eth_packet cfg listeners p nlines =
      [Event.arp_cache_update (ip_hdr_src p 16) (bytes_at p 8 6),
       Event.rcvr f
         ⟨ip_hdr_src p 16, udp_hdr_src p (16 + IP_HLEN)⟩
         ⟨ip_hdr_dest p 16, udp_hdr_dest p (16 + IP_HLEN)⟩
         (16 + IP_HLEN + UDP_HLEN)
         ((udp_hdr_len p (16 + IP_HLEN) : Int) - 8)] := by
  obtain ⟨i, hi, hri⟩ := register_udp_listener_lookup l0 l1 port f hreg
  obtain ⟨hfind, hrc⟩ := register_all_other post l1 listeners (to_u16 port) f i hf hother hi hri
    hpost
  have hsz : to_size_t ((IPH_LEN p 16 : Int) - (IP_HLEN : Int)) = udp_hdr_len p (16 + IP_HLEN) :=
    (udp_len_match_iff _ _ (u16_at_lt _ _) (u16_at_lt _ _)).mpr hlen
  rw [← hport] at hfind
  rw [handle_eth_packet_accepted cfg listeners p nlines heth hv hhl hmf hoff, if_pos hproto,
    handle_udp_packet_hit listeners p _ _ _ _ i hsz hfind, hrc]

/-- Witness for C5: callback 77 registered for port 49153 on the empty registry, then
callback 9 for port 5; the datagram `udp_example` reaches callback 77 once. -/
theorem udp_dispatch_invokes_registered_witness :
    (register_all listeners_init [(49153, 77), (5, 9)]).map
        (fun l => handle_eth_packet config_example l udp_example 12) =
      some [Event.arp_cache_update 0x0A000005 [0xAA, 0xAA, 0xAA, 0xAA, 0xAA, 0xAA],
        Event.rcvr 77 ⟨0x0A000005, 0x1234⟩ ⟨0x0A000001, 49153⟩ 44 4] := by
  cases h1 : register_udp_listener listeners_init 49153 77 with
  | none =>
    have h0 : (register_udp_listener listeners_init 49153 77).isSome = true := by decide
    rw [h1] at h0
    exact absurd h0 (by decide)
  | some l1 =>
    cases h2 : register_all l1 [(5, 9)] with
    | none =>
      have h3 : register_all listeners_init [(49153, 77), (5, 9)] = none := by
        simp only [register_all, h1]
        exact h2
      have h0 : (register_all listeners_init [(49153, 77), (5, 9)]).isSome = true := by decide
      rw [h3] at h0
      exact absurd h0 (by decide)
    | some l2 =>
      have h3 : register_all listeners_init [(49153, 77), (5, 9)] = some l2 := by
        simp only [register_all, h1]
        exact h2
      rw [h3, Option.map_some']
      exact congrArg some
        ((udp_dispatch_invokes_registered config_example listeners_init l1 l2 49153 77
          [(5, 9)] udp_example 12 (by decide) h1 h2 (by decide) (by decide) (by decide)
          (by decide) (by decide) (by decide) (by decide) (by decide) (by decide)).trans
          (by decide))

/-- C6, the code at the failing input: no listener has been registered for port 0, yet a
well-formed datagram to port 0 makes `find_listener_by_port` return an empty table entry
(zero-initialised port 0) and `handle_udp_packet` calls through its null `rcvr`. This
happens on the empty registry (entry 0) and after registering port 49153 only (entry 1). -/
theorem udp_port_zero_calls_null_rcvr :
    handle_eth_packet config_example listeners_init udp_port0_example 12 =
      [Event.arp_cache_update 0x0A000005 [0xAA, 0xAA, 0xAA, 0xAA, 0xAA, 0xAA],
        Event.rcvr 0 ⟨0x0A000005, 0x1234⟩ ⟨0x0A000001, 0⟩ 44 4]
    ∧ (register_all listeners_init [(49153, 77)]).map
        (fun l => (find_listener_by_port l 0,
          handle_eth_packet config_example l udp_port0_example 12)) =
      some (some 1,
        [Event.arp_cache_update 0x0A000005 [0xAA, 0xAA, 0xAA, 0xAA, 0xAA, 0xAA],
          Event.rcvr 0 ⟨0x0A000005, 0x1234⟩ ⟨0x0A000001, 0⟩ 44 4]) := by
  decide

/-- Companion to C6: for a non-zero port that was never registered the lookup fails, so a
well-formed datagram to it only refreshes the ARP cache: no callback, no transmission. -/
theorem udp_unregistered_nonzero_port_silent (cfg : net_config)
    (listeners : Nat → listener_entry) (calls : List (Int × Nat)) (p : Nat → Nat)
    (nlines : Nat)
    (hreg : register_all listeners_init calls = some listeners)
    (hnz : udp_hdr_dest p (16 + IP_HLEN) ≠ 0)
    (hunreg : ∀ c ∈ calls, to_u16 c.1 ≠ udp_hdr_dest p (16 + IP_HLEN))
    (heth : p 3 % 65536 = ETHERTYPE_IPV4)
    (hv : IPH_V p 16 = 4) (hhl : IPH_HL p 16 = 5)
    (hmf : IPH_OFFSET p 16 &&& IP_MF = 0) (hoff : IPH_OFFSET p 16 &&& IP_OFFMASK = 0)
    (hproto : IPH_PROTO p 16 = IP_PROTO_UDP)
    (hlen : (udp_hdr_len p (16 + IP_HLEN) : Int) = (IPH_LEN p 16 : Int) - 20) :
    handle_eth_packet cfg listeners p nlines =
      [Event.arp_cache_update (ip_hdr_src p 16) (bytes_at p 8 6)] := by
  have hsz : to_size_t ((IPH_LEN p 16 : Int) - (IP_HLEN : Int)) = udp_hdr_len p (16 + IP_HLEN) :=
    (udp_len_match_iff _ _ (u16_at_lt _ _) (u16_at_lt _ _)).mpr hlen
  have hfind : find_listener_by_port listeners (udp_hdr_dest p (16 + IP_HLEN)) = none := by
    rw [find_listener_by_port_none]
    intro i _ hp
    rcases register_all_ports calls listeners_init listeners hreg i with h | ⟨c, hc, h⟩
    · rw [hp] at h
      exact hnz h
    · rw [hp] at h
      exact hunreg c hc h.symm
  rw [handle_eth_packet_accepted cfg listeners p nlines heth hv hhl hmf hoff, if_pos hproto,
    handle_udp_packet_miss listeners p _ _ _ _ hsz hfind]

/-- C7: for every inbound frame whose UDP length field differs from the IP total length
minus 20, `handle_eth_packet` invokes no callback, whatever the listener table; when the
frame is an accepted IPv4/UDP datagram the only effects are the ARP cache refresh and the
`UDP inconsistent lengths` diagnostic. -/
theorem udp_length_mismatch_no_callback (cfg : net_config) (listeners : Nat → listener_entry)
    (p : Nat → Nat) (nlines : Nat)
    (hlen : (udp_hdr_len p (16 + IP_HLEN) : Int) ≠ (IPH_LEN p 16 : Int) - 20) :
    (∀ e ∈ handle_eth_packet cfg listeners p nlines, e.is_rcvr = false)
    ∧ (p 3 % 65536 = ETHERTYPE_IPV4 → IPH_V p 16 = 4 → IPH_HL p 16 = 5 →
        IPH_OFFSET p 16 &&& IP_MF = 0 → IPH_OFFSET p 16 &&& IP_OFFMASK = 0 →
        IPH_PROTO p 16 = IP_PROTO_UDP →
        handle_eth_packet cfg listeners p nlines =
          [Event.arp_cache_update (ip_hdr_src p 16) (bytes_at p 8 6),
           Event.printf_udp_inconsistent_lengths
             (to_int (to_size_t ((IPH_LEN p 16 : Int) - (IP_HLEN : Int))))
             (udp_hdr_len p (16 + IP_HLEN))]) := by
  have hsz : to_size_t ((IPH_LEN p 16 : Int) - (IP_HLEN : Int)) ≠ udp_hdr_len p (16 + IP_HLEN) :=
    fun h => hlen ((udp_len_match_iff _ _ (u16_at_lt _ _) (u16_at_lt _ _)).mp h)
  constructor
  · intro e he
    by_cases harp : p 3 % 65536 = ETHERTYPE_ARP
    · rw [handle_eth_packet_arp cfg listeners p nlines harp] at he
      exact (handle_arp_packet_quiet cfg p _ _ e he).1
    · by_cases hip : p 3 % 65536 = ETHERTYPE_IPV4
      · rw [handle_eth_packet_ipv4 cfg listeners p nlines hip] at he
        split_ifs at he with h1 h2 h3 h4
        · exact absurd he (List.not_mem_nil _)
        · exact absurd he (List.not_mem_nil _)
        · rw [handle_udp_packet_mismatch listeners p _ _ _ _ hsz] at he
          simp only [List.mem_cons, List.mem_singleton, List.not_mem_nil, or_false] at he
          rcases he with he | he <;> (subst he; rfl)
        · rw [List.mem_cons] at he
          rcases he with he | he
          · subst he; rfl
          · exact (handle_icmp_packet_quiet p _ _ _ _ e he).1
        · simp only [List.mem_singleton] at he
          subst he
          rfl
      · simp only [handle_eth_packet, harp, hip, if_false] at he
        exact absurd he (List.not_mem_nil _)
  · intro heth hv hhl hmf hoff hproto
    rw [handle_eth_packet_accepted cfg listeners p nlines heth hv hhl hmf hoff, if_pos hproto,
      handle_udp_packet_mismatch listeners p _ _ _ _ hsz]

/-- Witness for C7: with a listener registered for port 49153, the datagram whose UDP
length (16) disagrees with the IP length (32 - 20 = 12) reaches no callback: the trace is
the ARP cache refresh followed by the diagnostic. -/
theorem udp_length_mismatch_no_callback_witness :
    handle_eth_packet config_example
        (fun i => if i = 0 then ⟨49153, 77⟩ else ⟨0, 0⟩) udp_bad_length_example 12 =
      [Event.arp_cache_update 0x0A000005 [0xAA, 0xAA, 0xAA, 0xAA, 0xAA, 0xAA],
       Event.printf_udp_inconsistent_lengths 12 16] :=
  ((udp_length_mismatch_no_callback config_example
    (fun i => if i = 0 then ⟨49153, 77⟩ else ⟨0, 0⟩) udp_bad_length_example 12
    (by decide)).2 (by decide) (by decide) (by decide) (by decide) (by decide)
    (by decide)).trans (by decide)

/-- C8, the code at the failing input: with callback 77 registered for port 49153, the
truncated 11-word datagram is delivered with payload pointer 44 and payload length 1000,
a region that ends at byte 1044 although the received buffer holds only 44 bytes:
`nlines` is never consulted on the IPv4 path. -/
theorem udp_truncated_frame_delivered :
    (register_all listeners_init [(49153, 77)]).map
        (fun l => handle_eth_packet config_example l udp_truncated_example 11) =
      some [Event.arp_cache_update 0x0A000005 [0xAA, 0xAA, 0xAA, 0xAA, 0xAA, 0xAA],
        Event.rcvr 77 ⟨0x0A000005, 0x1234⟩ ⟨0x0A000001, 49153⟩ 44 1000]
    ∧ ¬ ((44 : Int) + 1000 ≤ 4 * 11) := by
  decide

/-- C9: an inbound frame with ethertype IPv4 whose version is not 4, or whose header
length is not 5 words, or which has the more-fragments flag set or a non-zero fragment
offset, has no effect at all (no ARP cache update, no callback, no ICMP handling, no
transmitted frame). A version-4, 5-word datagram whose flags/offset field is exactly the
don't-fragment flag is accepted: its handling starts with the ARP cache update. -/
theorem ipv4_invalid_header_dropped (cfg : net_config) (listeners : Nat → listener_entry)
    (p : Nat → Nat) (nlines : Nat) (heth : p 3 % 65536 = ETHERTYPE_IPV4) :
    ((IPH_V p 16 ≠ 4 ∨ IPH_HL p 16 ≠ 5 ∨ IPH_OFFSET p 16 &&& IP_MF ≠ 0
        ∨ IPH_OFFSET p 16 &&& IP_OFFMASK ≠ 0) →
      handle_eth_packet cfg listeners p nlines = [])
    ∧ (IPH_V p 16 = 4 → IPH_HL p 16 = 5 → IPH_OFFSET p 16 = IP_DF →
        ∃ rest, handle_eth_packet cfg listeners p nlines =
          Event.arp_cache_update (ip_hdr_src p 16) (bytes_at p 8 6) :: rest) := by
  constructor
  · intro hbad
    rw [handle_eth_packet_ipv4 cfg listeners p nlines heth]
    by_cases h1 : IPH_V p 16 ≠ 4 ∨ IPH_HL p 16 ≠ 5
    · rw [if_pos h1]
    · rw [if_neg h1]
      have h2 : IPH_OFFSET p 16 &&& (IP_MF ||| IP_OFFMASK) ≠ 0 := by
        intro h
        rw [not_fragmented_iff] at h
        rcases hbad with hb | hb | hb | hb
        · exact h1 (Or.inl hb)
        · exact h1 (Or.inr hb)
        · exact hb h.1
        · exact hb h.2
      rw [if_pos h2]
  · intro hv hhl hdf
    have hmf : IPH_OFFSET p 16 &&& IP_MF = 0 := by rw [hdf]; decide
    have hoff : IPH_OFFSET p 16 &&& IP_OFFMASK = 0 := by rw [hdf]; decide
    exact ⟨_, handle_eth_packet_accepted cfg listeners p nlines heth hv hhl hmf hoff⟩

/-- Witness for C9: a first fragment is dropped without any effect, while the same
datagram with only don't-fragment set (`udp_example`) is accepted. -/
theorem ipv4_invalid_header_dropped_witness :
    handle_eth_packet config_example listeners_init udp_fragment_example 12 = []
    ∧ ∃ rest, handle_eth_packet config_example listeners_init udp_example 12 =
        Event.arp_cache_update (ip_hdr_src udp_example 16) (bytes_at udp_example 8 6) :: rest :=
  ⟨(ipv4_invalid_header_dropped config_example listeners_init udp_fragment_example 12
      (by decide)).1 (Or.inr (Or.inr (Or.inl (by decide)))),
   (ipv4_invalid_header_dropped config_example listeners_init udp_example 12
      (by decide)).2 (by decide) (by decide) (by decide)⟩

/-- C10: for every accepted inbound IPv4 datagram (version 4, header length 5,
more-fragments clear, fragment offset zero) the first effect of `handle_eth_packet` is
`arp_cache_update` with the datagram's IP source address and the six bytes 8..13 of the
buffer, and no other ARP cache update follows; this holds for every protocol value, every
UDP length field and every listener table. -/
theorem accepted_ipv4_refreshes_arp_cache_first (cfg : net_config)
    (listeners : Nat → listener_entry) (p : Nat → Nat) (nlines : Nat)
    (heth : p 3 % 65536 = ETHERTYPE_IPV4)
    (hv : IPH_V p 16 = 4) (hhl : IPH_HL p 16 = 5)
    (hmf : IPH_OFFSET p 16 &&& IP_MF = 0) (hoff : IPH_OFFSET p 16 &&& IP_OFFMASK = 0) :
    ∃ rest, handle_eth_packet cfg listeners p nlines =
        Event.arp_cache_update (ip_hdr_src p 16)
          [byte_at p 8, byte_at p 9, byte_at p 10, byte_at p 11, byte_at p 12, byte_at p 13]
          :: rest
      ∧ ∀ e ∈ rest, e.is_arp_cache_update = false := by
  refine ⟨_, handle_eth_packet_accepted cfg listeners p nlines heth hv hhl hmf hoff, ?_⟩
  intro e he
  split_ifs at he with h1 h2
  · exact (handle_udp_packet_quiet listeners p _ _ _ _ e he).2
  · exact (handle_icmp_packet_quiet p _ _ _ _ e he).2.2
  · exact absurd he (List.not_mem_nil _)

/-- Witness for C10: a datagram of an unrecognised protocol still refreshes the cache. -/
theorem accepted_ipv4_refreshes_arp_cache_first_witness :
    ∃ rest, handle_eth_packet config_example listeners_init tcp_example 12 =
        Event.arp_cache_update 0x0A000005 [0xAA, 0xAA, 0xAA, 0xAA, 0xAA, 0xAA] :: rest
      ∧ ∀ e ∈ rest, e.is_arp_cache_update = false :=
  accepted_ipv4_refreshes_arp_cache_first config_example listeners_init tcp_example 12
    (by decide) (by decide) (by decide) (by decide) (by decide)

/-! ## Claims on frames of other ethertypes -/

/-- C11: for every inbound frame whose ethertype is neither ARP (0x0806) nor IPv4
(0x0800), `handle_eth_packet` has no effect at all: the trace is empty, so there is no ARP
cache update, no callback (hence no registry change) and no transmitted frame. -/
theorem other_ethertype_ignored (cfg : net_config) (listeners : Nat → listener_entry)
    (p : Nat → Nat) (nlines : Nat)
    (harp : p 3 % 65536 ≠ 0x0806) (hip : p 3 % 65536 ≠ 0x0800) :
    handle_eth_packet cfg listeners p nlines = [] := by
  have h1 : ¬ (p 3 % 65536 = ETHERTYPE_ARP) := harp
  have h2 : ¬ (p 3 % 65536 = ETHERTYPE_IPV4) := hip
  simp only [handle_eth_packet, h1, h2, if_false]

/-- Witness for C11: the ARP request example with its ethertype changed to IPv6 (0x86DD)
has no effect. -/
theorem other_ethertype_ignored_witness :
    handle_eth_packet config_example listeners_init ipv6_example 11 = [] :=
  other_ethertype_ignored config_example listeners_init ipv6_example 11
    (by decide) (by decide)

/-! ## Claims on the listener registry -/

/-- C19: re-registration replaces. In every registry reached from the empty one, after
`register_udp_listener(P, f)` (which returned) the call `register_udp_listener(P, g)` with
a non-null `g` returns as well; it rewrites only the entry `i` that the lookup of `P`
already resolved to, which becomes `(P, g)`; every other entry and every port field is
unchanged (no new slot is taken); `i` is the single entry for `P` with a callback; and a
well-formed UDP datagram to `P` invokes exactly `g`. -/
theorem reregistration_replaces (calls : List (Int × Nat)) (l l1 : Nat → listener_entry)
    (port : Int) (f g : Nat)
    (hreach : register_all listeners_init calls = some l)
    (hg : g ≠ 0)
    (hfirst : register_udp_listener l port f = some l1) :
    ∃ i l2, i < MAX_UDP_LISTENERS
      ∧ register_udp_listener l1 port g = some l2
      ∧ find_listener_by_port l1 (to_u16 port) = some i
      ∧ l2 i = ⟨to_u16 port, g⟩
      ∧ (∀ j, j ≠ i → l2 j = l1 j)
      ∧ (∀ j, (l2 j).port = (l1 j).port)
      ∧ (∀ j, j < MAX_UDP_LISTENERS → (l2 j).port = to_u16 port → (l2 j).rcvr ≠ 0 → j = i)
      ∧ (∀ (cfg : net_config) (p : Nat → Nat) (nlines : Nat),
          p 3 % 65536 = ETHERTYPE_IPV4 → IPH_V p 16 = 4 → IPH_HL p 16 = 5 →
          IPH_OFFSET p 16 &&& IP_MF = 0 → IPH_OFFSET p 16 &&& IP_OFFMASK = 0 →
          IPH_PROTO p 16 = IP_PROTO_UDP →
          (udp_hdr_len p (16 + IP_HLEN) : Int) = (IPH_LEN p 16 : Int) - 20 →
          udp_hdr_dest p (16 + IP_HLEN) = to_u16 port →
          handle_eth_packet cfg l2 p nlines =
            [Event.arp_cache_update (ip_hdr_src p 16) (bytes_at p 8 6),
             Event.rcvr g
               ⟨ip_hdr_src p 16, udp_hdr_src p (16 + IP_HLEN)⟩
               ⟨ip_hdr_dest p 16, udp_hdr_dest p (16 + IP_HLEN)⟩
               (16 + IP_HLEN + UDP_HLEN)
               ((udp_hdr_len p (16 + IP_HLEN) : Int) - 8)]) := by
  obtain ⟨i, hi, _⟩ := register_udp_listener_lookup l l1 port f hfirst
  have hi2 := hi
  rw [find_listener_by_port_some] at hi2
  obtain ⟨hip, hilt, hifirst⟩ := hi2
  obtain ⟨l2, hreg2, hl2⟩ : ∃ l2, register_udp_listener l1 port g = some l2
      ∧ ∀ j, l2 j = if j = i then ⟨(l1 j).port, g⟩ else l1 j := by
    refine ⟨fun j => if j = i then { l1 j with rcvr := g } else l1 j, ?_, fun j => rfl⟩
    unfold register_udp_listener
    rw [hi]
  have hinv2 : registry_inv l2 :=
    registry_inv_register l1 l2 port g
      (registry_inv_register l l1 port f
        (registry_inv_register_all calls listeners_init l registry_inv_init hreach) hfirst)
      hreg2
  have hval : l2 i = ⟨to_u16 port, g⟩ := by
    rw [hl2 i, if_pos rfl, hip]
  have hports : ∀ j, (l2 j).port = (l1 j).port := by
    intro j
    rw [hl2 j]
    by_cases hji : j = i
    · rw [if_pos hji]
    · rw [if_neg hji]
  have hfind2 : find_listener_by_port l2 (to_u16 port) = some i := by
    rw [find_listener_by_port_some]
    refine ⟨by rw [hports i]; exact hip, hilt, ?_⟩
    intro j hj
    rw [hports j]
    exact hifirst j hj
  refine ⟨i, l2, hilt, hreg2, hi, hval, ?_, hports, ?_, ?_⟩
  · intro j hj
    rw [hl2 j, if_neg hj]
  · intro j hj hp hr
    exact registry_inv_unique l2 hinv2 (to_u16 port) j i hj hilt hp hr
      (by rw [hval]) (by rw [hval]; exact hg)
  · intro cfg p nlines heth hv hhl hmf hoff hproto hlen hport
    have hsz : to_size_t ((IPH_LEN p 16 : Int) - (IP_HLEN : Int))
        = udp_hdr_len p (16 + IP_HLEN) :=
      (udp_len_match_iff _ _ (u16_at_lt _ _) (u16_at_lt _ _)).mpr hlen
    rw [← hport] at hfind2
    rw [handle_eth_packet_accepted cfg l2 p nlines heth hv hhl hmf hoff, if_pos hproto,
      handle_udp_packet_hit l2 p _ _ _ _ i hsz hfind2, hval]

/-- Witness for C19: on the empty registry, port 49153 registered with callback 77 and
then with callback 88; the lookup of 49153 keeps resolving to entry 0 and `udp_example`
reaches callback 88. -/
theorem reregistration_replaces_witness :
    ∃ l1 l2, register_udp_listener listeners_init 49153 77 = some l1
      ∧ register_udp_listener l1 49153 88 = some l2
      ∧ find_listener_by_port l1 49153 = some 0
      ∧ handle_eth_packet config_example l2 udp_example 12 =
        [Event.arp_cache_update 0x0A000005 [0xAA, 0xAA, 0xAA, 0xAA, 0xAA, 0xAA],
          Event.rcvr 88 ⟨0x0A000005, 0x1234⟩ ⟨0x0A000001, 49153⟩ 44 4] := by
  cases h1 : register_udp_listener listeners_init 49153 77 with
  | none =>
    have h0 : (register_udp_listener listeners_init 49153 77).isSome = true := by decide
    rw [h1] at h0
    exact absurd h0 (by decide)
  | some l1 =>
    obtain ⟨i, l2, _, h2, h3, _, _, _, _, h8⟩ :=
      reregistration_replaces [] listeners_init l1 49153 77 88 rfl (by decide) h1
    have h4 : (register_udp_listener listeners_init 49153 77).map
        (fun t => find_listener_by_port t 49153) = some (some 0) := by decide
    rw [h1, Option.map_some'] at h4
    exact ⟨l1, l2, rfl, h2, Option.some.inj h4,
      (h8 config_example udp_example 12 (by decide) (by decide) (by decide) (by decide)
        (by decide) (by decide) (by decide) (by decide)).trans (by decide)⟩

/-- C20: capacity. Starting from the empty registry, registering any six pairs with
pairwise distinct (16-bit) ports and non-null callbacks, in any order, returns without
abort and leaves each of the six ports resolvable to its own callback; in the resulting
registry, registering any port distinct from those six aborts, while re-registering any of
the six returns. -/
theorem registry_capacity_six (calls : List (Int × Nat)) (hlen : calls.length = 6)
    (hdist : calls.Pairwise (fun a b => to_u16 a.1 ≠ to_u16 b.1))
    (hnn : ∀ c ∈ calls, c.2 ≠ 0) :
    ∃ l, register_all listeners_init calls = some l
      ∧ (∀ c ∈ calls, ∃ i, find_listener_by_port l (to_u16 c.1) = some i ∧ (l i).rcvr = c.2)
      ∧ (∀ (port : Int) (g : Nat), (∀ c ∈ calls, to_u16 c.1 ≠ to_u16 port) →
          register_udp_listener l port g = none)
      ∧ (∀ c ∈ calls, ∀ g : Nat, (register_udp_listener l c.1 g).isSome = true) := by
  have hall : register_all listeners_init calls = some (table_of calls) := by
    have h := register_all_table_of calls []
      (by simp only [List.length_nil, MAX_UDP_LISTENERS]; omega)
      (by simpa using hdist) (by simpa using hnn)
    rw [table_of_nil] at h
    simpa using h
  have hlook : ∀ c ∈ calls, ∃ i, find_listener_by_port (table_of calls) (to_u16 c.1) = some i
      ∧ (table_of calls i).rcvr = c.2 := by
    intro c hc
    obtain ⟨i, hi⟩ := List.mem_iff_getElem?.mp hc
    exact ⟨i, table_of_lookup calls i c (by simp only [MAX_UDP_LISTENERS]; omega) hdist hi⟩
  have hfull : ∀ i, i < MAX_UDP_LISTENERS →
      ∃ c ∈ calls, table_of calls i = ⟨to_u16 c.1, c.2⟩ := by
    intro i hi
    have hil : i < calls.length := by
      simp only [MAX_UDP_LISTENERS] at hi
      omega
    have hs : calls[i]? = some calls[i] := List.getElem?_eq_getElem hil
    exact ⟨calls[i], List.mem_iff_getElem?.mpr ⟨i, hs⟩, table_of_some calls i _ hs⟩
  refine ⟨table_of calls, hall, hlook, ?_, ?_⟩
  · intro port g hnew
    have hfind : find_listener_by_port (table_of calls) (to_u16 port) = none := by
      rw [find_listener_by_port_none]
      intro i hi
      obtain ⟨c, hc, hv⟩ := hfull i hi
      rw [hv]
      exact hnew c hc
    have hfree : find_free_listener (table_of calls) = none := by
      rw [find_free_listener_none]
      intro i hi
      obtain ⟨c, hc, hv⟩ := hfull i hi
      rw [hv]
      exact hnn c hc
    unfold register_udp_listener
    rw [hfind, hfree]
  · intro c hc g
    obtain ⟨i, hi, _⟩ := hlook c hc
    unfold register_udp_listener
    rw [hi]
    rfl

/-- Witness for C20: ports 1, 2, 0, 4, 5, 6 fill the registry; port 7 then aborts, and
port 0 can still be re-registered. -/
theorem registry_capacity_six_witness :
    ∃ l, register_all listeners_init [(1, 11), (2, 12), (0, 13), (4, 14), (5, 15), (6, 16)]
        = some l
      ∧ register_udp_listener l 7 17 = none
      ∧ (register_udp_listener l 0 99).isSome = true := by
  obtain ⟨l, h1, _, h3, h4⟩ := registry_capacity_six
    [(1, 11), (2, 12), (0, 13), (4, 14), (5, 15), (6, 16)] rfl (by decide) (by decide)
  exact ⟨l, h1, h3 7 17 (by decide), h4 (0, 13) (by decide) 99⟩

/-! ## Lemmas on the transmit path -/

theorem busy_wait_gt (status : Nat → Nat) (mask : Nat) (fuel t r : Nat)
    (h : busy_wait status mask t fuel = some r) : t < r := by
  induction fuel generalizing t with
  | zero => simp [busy_wait] at h
  | succ n ih =>
    unfold busy_wait at h
    split_ifs at h
    · have := ih (t + 1) h
      omega
    · simp only [Option.some.injEq] at h
      omega

/-- A busy-wait returns once the awaited bit shows up in the status register. -/
theorem busy_wait_of_hit (status : Nat → Nat) (mask : Nat) (d t : Nat)
    (hit : status (t + d) &&& mask ≠ 0) :
    ∃ r, r ≤ t + d + 1 ∧ ∀ fuel, d + 1 ≤ fuel → busy_wait status mask t fuel = some r := by
  induction d generalizing t with
  | zero =>
    have hit0 : status t &&& mask ≠ 0 := hit
    refine ⟨t + 1, by omega, ?_⟩
    intro fuel hf
    obtain ⟨n, rfl⟩ : ∃ n, fuel = n + 1 := ⟨fuel - 1, by omega⟩
    unfold busy_wait
    rw [if_neg hit0]
  | succ d ih =>
    by_cases h0 : status t &&& mask = 0
    · have hit2 : status (t + 1 + d) &&& mask ≠ 0 := by
        have he : t + 1 + d = t + (d + 1) := by omega
        rw [he]
        exact hit
      obtain ⟨r, hr, hall⟩ := ih (t + 1) hit2
      refine ⟨r, by omega, ?_⟩
      intro fuel hf
      obtain ⟨n, rfl⟩ : ∃ n, fuel = n + 1 := ⟨fuel - 1, by omega⟩
      unfold busy_wait
      rw [if_pos h0]
      exact hall n (by omega)
    · refine ⟨t + 1, by omega, ?_⟩
      intro fuel hf
      obtain ⟨n, rfl⟩ : ∃ n, fuel = n + 1 := ⟨fuel - 1, by omega⟩
      unfold busy_wait
      rw [if_neg h0]

/-- The trace of a `send_pkt` call that returned. -/
theorem send_pkt_some (hw : tx_hw) (mac dst : eth_mac_addr_t) (ethertype : Nat)
    (a0 : Nat) (buf0 : List Nat) (len0 : Nat) (a1 : Nat) (buf1 : List Nat) (len1 : Nat)
    (a2 : Nat) (buf2 : List Nat) (len2 : Nat) (fuel : Nat) (tr : List tx_event)
    (h : send_pkt hw mac dst ethertype a0 buf0 len0 a1 buf1 len1 a2 buf2 len2 fuel = some tr) :
    ∃ t1 t2, tr = [tx_event.wait_idle t1]
      ++ (send_pkt_assemble mac dst ethertype a0 buf0 len0 a1 buf1 len1 a2 buf2 len2).1
      ++ (if hw.ac_could_be_sending_to_eth ≠ 0 then
          [tx_event.dbsm_wait_for_opening hw.ac_could_be_sending_to_eth] else [])
      ++ [tx_event.bp_send_from_buf hw.CPU_TX_BUF hw.cpu_tx_buf_dest_port 1 0
          (send_pkt_total_len
            (send_pkt_assemble mac dst ethertype a0 buf0 len0 a1 buf1 len1 a2 buf2 len2).2 / 4)]
      ++ [tx_event.wait_done (t2 - t1) (hw.status (t2 - 1)),
          tx_event.bp_clear_buf hw.CPU_TX_BUF] := by
  unfold send_pkt at h
  cases h1 : busy_wait hw.status hw.BPS_IDLE 0 fuel with
  | none => rw [h1] at h; simp at h
  | some t1 =>
    rw [h1] at h
    simp only at h
    cases h2 : busy_wait hw.status (hw.BPS_DONE ||| hw.BPS_ERROR) t1 fuel with
    | none => rw [h2] at h; simp at h
    | some t2 =>
      rw [h2] at h
      simp only [Option.some.injEq] at h
      exact ⟨t1, t2, h.symm⟩

/-- On responsive hardware (the slot reports idle at some read and done or error at a
later one) `send_pkt` returns, given enough fuel. -/
theorem send_pkt_returns (hw : tx_hw) (mac dst : eth_mac_addr_t) (ethertype : Nat)
    (a0 : Nat) (buf0 : List Nat) (len0 : Nat) (a1 : Nat) (buf1 : List Nat) (len1 : Nat)
    (a2 : Nat) (buf2 : List Nat) (len2 : Nat) (k1 k2 : Nat) (hk : k1 < k2)
    (hidle : hw.status k1 &&& hw.BPS_IDLE ≠ 0)
    (hdone : hw.status k2 &&& (hw.BPS_DONE ||| hw.BPS_ERROR) ≠ 0) :
    ∃ tr, ∀ fuel, k2 + 1 ≤ fuel →
      send_pkt hw mac dst ethertype a0 buf0 len0 a1 buf1 len1 a2 buf2 len2 fuel = some tr := by
  obtain ⟨t1, ht1, hw1⟩ := busy_wait_of_hit hw.status hw.BPS_IDLE k1 0
    (by rw [Nat.zero_add]; exact hidle)
  have hd : hw.status (t1 + (k2 - t1)) &&& (hw.BPS_DONE ||| hw.BPS_ERROR) ≠ 0 := by
    have he : t1 + (k2 - t1) = k2 := by omega
    rw [he]
    exact hdone
  obtain ⟨t2, _, hw2⟩ := busy_wait_of_hit hw.status (hw.BPS_DONE ||| hw.BPS_ERROR)
    (k2 - t1) t1 hd
  refine ⟨[tx_event.wait_idle t1]
      ++ (send_pkt_assemble mac dst ethertype a0 buf0 len0 a1 buf1 len1 a2 buf2 len2).1
      ++ (if hw.ac_could_be_sending_to_eth ≠ 0 then
          [tx_event.dbsm_wait_for_opening hw.ac_could_be_sending_to_eth] else [])
      ++ [tx_event.bp_send_from_buf hw.CPU_TX_BUF hw.cpu_tx_buf_dest_port 1 0
          (send_pkt_total_len
            (send_pkt_assemble mac dst ethertype a0 buf0 len0 a1 buf1 len1 a2 buf2 len2).2 / 4)]
      ++ [tx_event.wait_done (t2 - t1) (hw.status (t2 - 1)),
          tx_event.bp_clear_buf hw.CPU_TX_BUF], fun fuel hf => ?_⟩
  unfold send_pkt
  rw [hw1 fuel (by omega)]
  simp only
  rw [hw2 fuel (by omega)]

/-- The final write pointer of the assembly: five words of header, then `len / 4` words
per fragment. -/
theorem send_pkt_assemble_ptr (mac dst : eth_mac_addr_t) (ethertype : Nat)
    (a0 : Nat) (buf0 : List Nat) (len0 : Nat) (a1 : Nat) (buf1 : List Nat) (len1 : Nat)
    (a2 : Nat) (buf2 : List Nat) (len2 : Nat) :
    (send_pkt_assemble mac dst ethertype a0 buf0 len0 a1 buf1 len1 a2 buf2 len2).2
      = 5 + len0 / 4 + len1 / 4 + len2 / 4 := by
  unfold send_pkt_assemble
  by_cases h0 : len0 = 0 <;> by_cases h1 : len1 = 0 <;> by_cases h2 : len2 = 0 <;>
    simp [h0, h1, h2]

theorem send_pkt_assemble_no_commit (mac dst : eth_mac_addr_t) (ethertype : Nat)
    (a0 : Nat) (buf0 : List Nat) (len0 : Nat) (a1 : Nat) (buf1 : List Nat) (len1 : Nat)
    (a2 : Nat) (buf2 : List Nat) (len2 : Nat) :
    ∀ e ∈ (send_pkt_assemble mac dst ethertype a0 buf0 len0 a1 buf1 len1 a2 buf2 len2).1,
      e.is_commit = false := by
  intro e he
  unfold send_pkt_assemble at he
  simp only [List.mem_append, List.mem_singleton] at he
  rcases he with ((((((he | he) | he) | he) | he) | he) | he) | he
  · subst he; rfl
  · subst he; rfl
  all_goals (split_ifs at he <;> simp at he <;> (subst he; rfl))

theorem send_pkt_total_len_ge (p : Nat) : 60 ≤ send_pkt_total_len p := by
  unfold send_pkt_total_len
  simp only
  split_ifs <;> omega

theorem send_pkt_total_len_aligned (p : Nat) :
    send_pkt_total_len p / 4 * 4 = send_pkt_total_len p := by
  unfold send_pkt_total_len
  simp only
  split_ifs <;> omega

theorem send_pkt_total_len_eq (p : Nat) (h : p * 4 < 2 ^ 32) :
    send_pkt_total_len p = max 60 (p * 4) := by
  unfold send_pkt_total_len
  simp only
  rw [Nat.mod_eq_of_lt h]
  split_ifs <;> omega

/-- The trace of a `send_pkt` call that returned holds exactly one commit, and the word
count it passes is the committed length of the fragment lengths divided by four. -/
theorem send_pkt_one_commit (hw : tx_hw) (mac dst : eth_mac_addr_t) (ethertype : Nat)
    (a0 : Nat) (buf0 : List Nat) (len0 : Nat) (a1 : Nat) (buf1 : List Nat) (len1 : Nat)
    (a2 : Nat) (buf2 : List Nat) (len2 : Nat) (fuel : Nat) (tr : List tx_event)
    (h : send_pkt hw mac dst ethertype a0 buf0 len0 a1 buf1 len1 a2 buf2 len2 fuel = some tr) :
    ∃ pre post n, tr = pre
        ++ tx_event.bp_send_from_buf hw.CPU_TX_BUF hw.cpu_tx_buf_dest_port 1 0 n :: post
      ∧ (∀ e ∈ pre, e.is_commit = false) ∧ (∀ e ∈ post, e.is_commit = false)
      ∧ n * 4 = send_pkt_committed len0 len1 len2 := by
  obtain ⟨t1, t2, htr⟩ := send_pkt_some hw mac dst ethertype a0 buf0 len0 a1 buf1 len1
    a2 buf2 len2 fuel tr h
  refine ⟨[tx_event.wait_idle t1]
      ++ (send_pkt_assemble mac dst ethertype a0 buf0 len0 a1 buf1 len1 a2 buf2 len2).1
      ++ (if hw.ac_could_be_sending_to_eth ≠ 0 then
          [tx_event.dbsm_wait_for_opening hw.ac_could_be_sending_to_eth] else []),
    [tx_event.wait_done (t2 - t1) (hw.status (t2 - 1)), tx_event.bp_clear_buf hw.CPU_TX_BUF],
    send_pkt_total_len
      (send_pkt_assemble mac dst ethertype a0 buf0 len0 a1 buf1 len1 a2 buf2 len2).2 / 4,
    ?_, ?_, ?_, ?_⟩
  · rw [htr]
    simp only [List.append_assoc, List.singleton_append, List.cons_append, List.nil_append]
  · intro e he
    simp only [List.mem_append, List.mem_singleton] at he
    rcases he with (he | he) | he
    · subst he; rfl
    · exact send_pkt_assemble_no_commit mac dst ethertype a0 buf0 len0 a1 buf1 len1
        a2 buf2 len2 e he
    · split_ifs at he
      · rw [List.mem_singleton] at he
        subst he
        rfl
      · exact absurd he (List.not_mem_nil _)
  · intro e he
    simp only [List.mem_cons, List.mem_singleton, List.not_mem_nil, or_false] at he
    rcases he with he | he <;> (subst he; rfl)
  · rw [send_pkt_assemble_ptr]
    rfl

theorem send_pkt_committed_eq (len0 len1 len2 : Nat) :
    send_pkt_committed len0 len1 len2
      = send_pkt_total_len (5 + len0 / 4 + len1 / 4 + len2 / 4) := by
  unfold send_pkt_committed
  exact send_pkt_total_len_aligned _

theorem send_pkt_committed_small (len0 len1 len2 : Nat) (h : 20 + len0 + len1 + len2 < 60) :
    send_pkt_committed len0 len1 len2 = 60 := by
  rw [send_pkt_committed_eq]
  unfold send_pkt_total_len
  simp only
  split_ifs <;> omega

/-! ## Claims on the frame assembler -/

/-- C12: minimum frame size. Every `send_pkt` call that returns performs exactly one
commit, and the committed length (word count passed to `bp_send_from_buf` times 4) is at
least 60 bytes, and exactly 60 bytes whenever header plus fragments total fewer than 60
bytes; on responsive hardware the call does return. In particular the `send_pkt` call of
every ARP reply and of every UDP datagram with fewer than 12 payload bytes commits exactly
60 bytes. -/
theorem send_pkt_min_frame (hw : tx_hw) (mac dst : eth_mac_addr_t) (ethertype : Nat)
    (a0 : Nat) (buf0 : List Nat) (len0 : Nat) (a1 : Nat) (buf1 : List Nat) (len1 : Nat)
    (a2 : Nat) (buf2 : List Nat) (len2 : Nat) :
    (∀ fuel tr,
        send_pkt hw mac dst ethertype a0 buf0 len0 a1 buf1 len1 a2 buf2 len2 fuel = some tr →
        ∃ pre post n, tr = pre
            ++ tx_event.bp_send_from_buf hw.CPU_TX_BUF hw.cpu_tx_buf_dest_port 1 0 n :: post
          ∧ (∀ e ∈ pre, e.is_commit = false) ∧ (∀ e ∈ post, e.is_commit = false)
          ∧ 60 ≤ n * 4
          ∧ (20 + len0 + len1 + len2 < 60 → n * 4 = 60))
    ∧ (∀ k1 k2, k1 < k2 → hw.status k1 &&& hw.BPS_IDLE ≠ 0 →
        hw.status k2 &&& (hw.BPS_DONE ||| hw.BPS_ERROR) ≠ 0 →
        ∃ tr, ∀ fuel, k2 + 1 ≤ fuel →
          send_pkt hw mac dst ethertype a0 buf0 len0 a1 buf1 len1 a2 buf2 len2 fuel = some tr)
    ∧ (∀ (req : arp_eth_ipv4) (our_mac : eth_mac_addr_t),
        ∀ e ∈ send_arp_reply req our_mac, e.committed = some 60)
    ∧ (∀ (cfg : net_config) (cache : Nat → Option eth_mac_addr_t) (src_port : Int)
        (sock : socket_address) (buf : List Nat) (len : Nat), len < 12 →
        ∀ e ∈ send_udp_pkt cfg cache src_port sock buf len,
          e.is_send_pkt = true → e.committed = some 60) := by
  refine ⟨?_, ?_, ?_, ?_⟩
  · intro fuel tr h
    obtain ⟨pre, post, n, htr, hpre, hpost, hn⟩ := send_pkt_one_commit hw mac dst ethertype
      a0 buf0 len0 a1 buf1 len1 a2 buf2 len2 fuel tr h
    refine ⟨pre, post, n, htr, hpre, hpost, ?_, ?_⟩
    · rw [hn, send_pkt_committed_eq]
      exact send_pkt_total_len_ge _
    · intro hsmall
      rw [hn]
      exact send_pkt_committed_small len0 len1 len2 hsmall
  · intro k1 k2 hk hidle hdone
    exact send_pkt_returns hw mac dst ethertype a0 buf0 len0 a1 buf1 len1 a2 buf2 len2
      k1 k2 hk hidle hdone
  · intro req our_mac e he
    simp only [send_arp_reply, List.mem_singleton] at he
    subst he
    simp only [Event.committed, sizeof_arp_eth_ipv4]
    rw [send_pkt_committed_small 28 0 0 (by omega)]
  · intro cfg cache src_port sock buf len hlen e he hs
    unfold send_udp_pkt send_ip_pkt at he
    simp only at he
    cases hc : cache (send_ip_pkt_hdr cfg sock.addr (IP_PROTO_UDP : Nat) 8 len).dest with
    | none =>
      rw [hc] at he
      simp only [List.mem_singleton] at he
      subst he
      exact absurd hs (by simp [Event.is_send_pkt])
    | some m =>
      rw [hc] at he
      simp only [List.mem_singleton] at he
      subst he
      simp only [Event.committed]
      rw [send_pkt_committed_small 20 8 len (by omega)]

/-- Witness for C12: the ARP reply of the end-to-end example (20 + 28 = 48 bytes) is
committed as 15 words. -/
theorem send_pkt_min_frame_witness :
    ∃ tr pre post n,
      send_pkt tx_hw_example config_example._get_eth_mac_addr
        ⟨[0xAA, 0xAA, 0xAA, 0xAA, 0xAA, 0xAA]⟩ 0x0806 0 arp_reply_example 28 0 [] 0 0 [] 0 2
        = some tr
      ∧ tr = pre ++ tx_event.bp_send_from_buf 7 2 1 0 n :: post ∧ n * 4 = 60 := by
  cases h : send_pkt tx_hw_example config_example._get_eth_mac_addr
      ⟨[0xAA, 0xAA, 0xAA, 0xAA, 0xAA, 0xAA]⟩ 0x0806 0 arp_reply_example 28 0 [] 0 0 [] 0 2 with
  | none =>
    have h0 : (send_pkt tx_hw_example config_example._get_eth_mac_addr
      ⟨[0xAA, 0xAA, 0xAA, 0xAA, 0xAA, 0xAA]⟩ 0x0806 0 arp_reply_example 28 0 [] 0 0 [] 0
      2).isSome = true := by decide
    rw [h] at h0
    exact absurd h0 (by decide)
  | some tr =>
    obtain ⟨pre, post, n, h1, _, _, _, h5⟩ :=
      (send_pkt_min_frame tx_hw_example config_example._get_eth_mac_addr
        ⟨[0xAA, 0xAA, 0xAA, 0xAA, 0xAA, 0xAA]⟩ 0x0806 0 arp_reply_example 28 0 [] 0 0 [] 0).1
        2 tr h
    exact ⟨tr, pre, post, n, rfl, h1, h5 (by decide)⟩

/-- C13, counterexample: a single fragment of 42 bytes (not a multiple of 4) advances the
write pointer by 10 words only, so 20 + 40 = 60 bytes are committed (15 words), not
`max(60, 20 + 42) = 62`. And two aligned fragments of `2 ^ 31` bytes each give a total of
`20 + 2 ^ 32`, which is 20 in `size_t` arithmetic: 60 bytes are committed, not
`max(60, 20 + 2 ^ 31 + 2 ^ 31)`. -/
theorem send_pkt_misaligned_counterexample :
    (send_pkt tx_hw_example config_example._get_eth_mac_addr
        ⟨[0xAA, 0xAA, 0xAA, 0xAA, 0xAA, 0xAA]⟩ 0x0800 0 (List.replicate 42 0xAB) 42
        0 [] 0 0 [] 0 2).map (fun tr => tr.filter tx_event.is_commit)
      = some [tx_event.bp_send_from_buf 7 2 1 0 15]
    ∧ 15 * 4 ≠ max 60 (20 + 42 + 0 + 0)
    ∧ (send_pkt tx_hw_example config_example._get_eth_mac_addr
        ⟨[0xAA, 0xAA, 0xAA, 0xAA, 0xAA, 0xAA]⟩ 0x0800 0 [] (2 ^ 31)
        0 [] (2 ^ 31) 0 [] 0 2).map (fun tr => tr.filter tx_event.is_commit)
      = some [tx_event.bp_send_from_buf 7 2 1 0 15]
    ∧ 15 * 4 ≠ max 60 (20 + 2 ^ 31 + 2 ^ 31 + 0) := by
  decide

/-- C13 (amended): every `send_pkt` call that returns performs exactly one commit, and the
committed length is `max(60, T mod 2 ^ 32)` with
`T = 20 + 4*(len0/4) + 4*(len1/4) + 4*(len2/4)`: each fragment counts with its whole
32-bit words only, and the total is formed in `size_t` arithmetic; it is `max(60, T)`
whenever `20 + len0 + len1 + len2` is below `2 ^ 32`. When the three fragment lengths are
multiples of 4 this is `max(60, (H + len0 + len1 + len2) mod 2 ^ 32)` with `H = 20`, and
`max(60, H + len0 + len1 + len2)` when that sum is below `2 ^ 32`. On responsive hardware
the call returns. -/
theorem send_pkt_total_length (hw : tx_hw) (mac dst : eth_mac_addr_t) (ethertype : Nat)
    (a0 : Nat) (buf0 : List Nat) (len0 : Nat) (a1 : Nat) (buf1 : List Nat) (len1 : Nat)
    (a2 : Nat) (buf2 : List Nat) (len2 : Nat) :
    (∀ fuel tr,
        send_pkt hw mac dst ethertype a0 buf0 len0 a1 buf1 len1 a2 buf2 len2 fuel = some tr →
        ∃ pre post n, tr = pre
            ++ tx_event.bp_send_from_buf hw.CPU_TX_BUF hw.cpu_tx_buf_dest_port 1 0 n :: post
          ∧ (∀ e ∈ pre, e.is_commit = false) ∧ (∀ e ∈ post, e.is_commit = false)
          ∧ n * 4 = max 60 ((20 + 4 * (len0 / 4) + 4 * (len1 / 4) + 4 * (len2 / 4)) % 2 ^ 32)
          ∧ (20 + len0 + len1 + len2 < 2 ^ 32 →
              n * 4 = max 60 (20 + 4 * (len0 / 4) + 4 * (len1 / 4) + 4 * (len2 / 4)))
          ∧ (len0 % 4 = 0 → len1 % 4 = 0 → len2 % 4 = 0 →
              n * 4 = max 60 ((20 + len0 + len1 + len2) % 2 ^ 32))
          ∧ (20 + len0 + len1 + len2 < 2 ^ 32 → len0 % 4 = 0 → len1 % 4 = 0 → len2 % 4 = 0 →
              n * 4 = max 60 (20 + len0 + len1 + len2)))
    ∧ (∀ k1 k2, k1 < k2 → hw.status k1 &&& hw.BPS_IDLE ≠ 0 →
        hw.status k2 &&& (hw.BPS_DONE ||| hw.BPS_ERROR) ≠ 0 →
        ∃ tr, ∀ fuel, k2 + 1 ≤ fuel →
          send_pkt hw mac dst ethertype a0 buf0 len0 a1 buf1 len1 a2 buf2 len2 fuel = some tr) := by
  refine ⟨?_, fun k1 k2 hk hidle hdone => send_pkt_returns hw mac dst ethertype a0 buf0 len0
    a1 buf1 len1 a2 buf2 len2 k1 k2 hk hidle hdone⟩
  intro fuel tr h
  obtain ⟨pre, post, n, htr, hpre, hpost, hn⟩ := send_pkt_one_commit hw mac dst ethertype
    a0 buf0 len0 a1 buf1 len1 a2 buf2 len2 fuel tr h
  have hw4 : (5 + len0 / 4 + len1 / 4 + len2 / 4) * 4
      = 20 + 4 * (len0 / 4) + 4 * (len1 / 4) + 4 * (len2 / 4) := by omega
  have hval : n * 4
      = max 60 ((20 + 4 * (len0 / 4) + 4 * (len1 / 4) + 4 * (len2 / 4)) % 2 ^ 32) := by
    rw [hn, send_pkt_committed_eq, ← hw4]
    unfold send_pkt_total_len
    simp only
    split_ifs <;> omega
  refine ⟨pre, post, n, htr, hpre, hpost, hval, ?_, ?_, ?_⟩
  · intro hfit
    rw [hval, Nat.mod_eq_of_lt (by omega)]
  · intro h0 h1 h2
    rw [hval]
    congr 2
    omega
  · intro hfit h0 h1 h2
    rw [hval, Nat.mod_eq_of_lt (by omega)]
    congr 1
    omega

/-- Witness for C13 (amended): one aligned fragment of 48 bytes gives 20 + 48 = 68
committed bytes. -/
theorem send_pkt_total_length_witness :
    ∃ tr pre post n,
      send_pkt tx_hw_example config_example._get_eth_mac_addr
        ⟨[0xAA, 0xAA, 0xAA, 0xAA, 0xAA, 0xAA]⟩ 0x0800 0 (List.replicate 48 0xAB) 48
        0 [] 0 0 [] 0 2 = some tr
      ∧ tr = pre ++ tx_event.bp_send_from_buf 7 2 1 0 n :: post ∧ n * 4 = 68 := by
  cases h : send_pkt tx_hw_example config_example._get_eth_mac_addr
      ⟨[0xAA, 0xAA, 0xAA, 0xAA, 0xAA, 0xAA]⟩ 0x0800 0 (List.replicate 48 0xAB) 48
      0 [] 0 0 [] 0 2 with
  | none =>
    have h0 : (send_pkt tx_hw_example config_example._get_eth_mac_addr
      ⟨[0xAA, 0xAA, 0xAA, 0xAA, 0xAA, 0xAA]⟩ 0x0800 0 (List.replicate 48 0xAB) 48
      0 [] 0 0 [] 0 2).isSome = true := by decide
    rw [h] at h0
    exact absurd h0 (by decide)
  | some tr =>
    obtain ⟨pre, post, n, h1, _, _, _, _, _, h7⟩ :=
      (send_pkt_total_length tx_hw_example config_example._get_eth_mac_addr
        ⟨[0xAA, 0xAA, 0xAA, 0xAA, 0xAA, 0xAA]⟩ 0x0800 0 (List.replicate 48 0xAB) 48
        0 [] 0 0 [] 0).1 2 tr h
    exact ⟨tr, pre, post, n, rfl, h1,
      (h7 (by decide) (by decide) (by decide) (by decide)).trans (by decide)⟩

/-! ## Lemmas on the transmit buffer -/

theorem tx_store_nil (ram : Nat → Nat) (line : Nat) : tx_store ram line [] = ram := by
  funext i
  unfold tx_store
  rw [if_neg]
  simp only [List.length_nil]
  omega

theorem tx_store_in (ram : Nat → Nat) (line : Nat) (ws : List Nat) (i : Nat)
    (h1 : line ≤ i) (h2 : i < line + ws.length) :
    tx_store ram line ws i = ws.getD (i - line) 0 := by
  unfold tx_store
  rw [if_pos ⟨h1, h2⟩]

theorem tx_store_out (ram : Nat → Nat) (line : Nat) (ws : List Nat) (i : Nat)
    (h : i < line ∨ line + ws.length ≤ i) : tx_store ram line ws i = ram i := by
  unfold tx_store
  rw [if_neg]
  omega

theorem tx_ram_append (a b : List tx_event) (ram : Nat → Nat) :
    tx_ram ram (a ++ b) = tx_ram (tx_ram ram a) b := by
  induction a generalizing ram with
  | nil => rfl
  | cons e rest ih =>
    cases e <;> exact ih _

theorem tx_ram_diag (ram : Nat → Nat) (c : Prop) [Decidable c] (k : Nat) :
    tx_ram ram (if c then [tx_event.printf_bad_alignment k] else []) = ram := by
  split_ifs <;> rfl

theorem tx_ram_copy (ram : Nat → Nat) (src : List Nat) (len line : Nat) :
    tx_ram ram (if len ≠ 0 then [tx_event.store line (memcpy_wa src len)] else [])
      = tx_store ram line (memcpy_wa src len) := by
  by_cases h : len = 0
  · subst h
    have hm : memcpy_wa src 0 = [] := rfl
    rw [hm, tx_store_nil]
    rfl
  · rw [if_pos h]
    rfl

theorem memcpy_wa_length (src : List Nat) (nbytes : Nat) :
    (memcpy_wa src nbytes).length = nbytes / 4 := by
  simp [memcpy_wa]

theorem memcpy_wa_getD (src : List Nat) (nbytes j : Nat) (h : j < nbytes / 4) :
    (memcpy_wa src nbytes).getD j 0 = word_of_bytes src j := by
  simp [memcpy_wa, List.getElem?_range h]

theorem word_bytes (b0 b1 b2 b3 : Nat) (h0 : b0 < 256) (h1 : b1 < 256) (h2 : b2 < 256)
    (h3 : b3 < 256) :
    (((b0 * 256 + b1) * 256 + b2) * 256 + b3) / 256 ^ 3 % 256 = b0
    ∧ (((b0 * 256 + b1) * 256 + b2) * 256 + b3) / 256 ^ 2 % 256 = b1
    ∧ (((b0 * 256 + b1) * 256 + b2) * 256 + b3) / 256 ^ 1 % 256 = b2
    ∧ (((b0 * 256 + b1) * 256 + b2) * 256 + b3) / 256 ^ 0 % 256 = b3 := by
  norm_num
  omega

theorem byte_of_word_of_bytes (src : List Nat) (j r : Nat) (hr : r < 4) :
    word_of_bytes src j / 256 ^ (3 - r) % 256 = src.getD (4 * j + r) 0 % 256 := by
  have h0 := Nat.mod_lt (src.getD (4 * j) 0) (show 0 < 256 by norm_num)
  have h1 := Nat.mod_lt (src.getD (4 * j + 1) 0) (show 0 < 256 by norm_num)
  have h2 := Nat.mod_lt (src.getD (4 * j + 2) 0) (show 0 < 256 by norm_num)
  have h3 := Nat.mod_lt (src.getD (4 * j + 3) 0) (show 0 < 256 by norm_num)
  have hw := word_bytes _ _ _ _ h0 h1 h2 h3
  unfold word_of_bytes
  interval_cases r
  · exact hw.1
  · exact hw.2.1
  · exact hw.2.2.1
  · exact hw.2.2.2

/-- A byte inside the region written by a word-aligned copy is the source byte. -/
theorem byte_at_tx_store_in (ram : Nat → Nat) (line : Nat) (src : List Nat) (nbytes i : Nat)
    (hi : i < nbytes / 4 * 4) :
    byte_at (tx_store ram line (memcpy_wa src nbytes)) (4 * line + i)
      = src.getD i 0 % 256 := by
  unfold byte_at
  have hq : (4 * line + i) / 4 = line + i / 4 := by omega
  have hr : (4 * line + i) % 4 = i % 4 := by omega
  rw [hq, hr, tx_store_in _ _ _ _ (by omega) (by rw [memcpy_wa_length]; omega)]
  have hj : line + i / 4 - line = i / 4 := by omega
  rw [hj, memcpy_wa_getD src nbytes (i / 4) (by omega),
    byte_of_word_of_bytes src (i / 4) (i % 4) (Nat.mod_lt _ (by norm_num))]
  have hidx : 4 * (i / 4) + i % 4 = i := by omega
  rw [hidx]

/-- A byte outside the region written by a store is unchanged. -/
theorem byte_at_tx_store_out (ram : Nat → Nat) (line : Nat) (ws : List Nat) (off : Nat)
    (h : off < 4 * line ∨ 4 * (line + ws.length) ≤ off) :
    byte_at (tx_store ram line ws) off = byte_at ram off := by
  unfold byte_at
  rw [tx_store_out _ _ _ _ (by omega)]

/-- The transmit buffer after the assembly part of `send_pkt`: five stores in sequence. -/
theorem tx_ram_assemble (mac dst : eth_mac_addr_t) (ethertype : Nat)
    (a0 : Nat) (buf0 : List Nat) (len0 : Nat) (a1 : Nat) (buf1 : List Nat) (len1 : Nat)
    (a2 : Nat) (buf2 : List Nat) (len2 : Nat) (ram : Nat → Nat) :
    tx_ram ram (send_pkt_assemble mac dst ethertype a0 buf0 len0 a1 buf1 len1 a2 buf2 len2).1 =
      tx_store (tx_store (tx_store (tx_store (tx_store ram 0 [0]) 1
        (memcpy_wa (padded_eth_hdr_t.bytes
          { pad := 0, dst := dst, src := mac, ethertype := ethertype % 65536 }) 16))
        5 (memcpy_wa buf0 len0)) (5 + len0 / 4) (memcpy_wa buf1 len1))
        (5 + len0 / 4 + len1 / 4) (memcpy_wa buf2 len2) := by
  have hp3 : (if len0 ≠ 0 then 0 + 1 + 16 / 4 + len0 / 4 else 0 + 1 + 16 / 4)
      = 5 + len0 / 4 := by
    by_cases h0 : len0 = 0 <;> simp [h0]
  have hp4 : (if len1 ≠ 0 then 5 + len0 / 4 + len1 / 4 else 5 + len0 / 4)
      = 5 + len0 / 4 + len1 / 4 := by
    by_cases h1 : len1 = 0 <;> simp [h1]
  have e1 : ∀ (r : Nat → Nat) (line : Nat) (ws : List Nat),
      tx_ram r [tx_event.store line ws] = tx_store r line ws := fun _ _ _ => rfl
  unfold send_pkt_assemble
  simp only [tx_ram_append, hp3, hp4, tx_ram_diag, tx_ram_copy, e1]

/-- The transmit buffer after a `send_pkt` call that returned. -/
theorem tx_ram_send_pkt (hw : tx_hw) (mac dst : eth_mac_addr_t) (ethertype : Nat)
    (a0 : Nat) (buf0 : List Nat) (len0 : Nat) (a1 : Nat) (buf1 : List Nat) (len1 : Nat)
    (a2 : Nat) (buf2 : List Nat) (len2 : Nat) (fuel : Nat) (tr : List tx_event)
    (h : send_pkt hw mac dst ethertype a0 buf0 len0 a1 buf1 len1 a2 buf2 len2 fuel = some tr)
    (ram : Nat → Nat) :
    tx_ram ram tr =
      tx_store (tx_store (tx_store (tx_store (tx_store ram 0 [0]) 1
        (memcpy_wa (padded_eth_hdr_t.bytes
          { pad := 0, dst := dst, src := mac, ethertype := ethertype % 65536 }) 16))
        5 (memcpy_wa buf0 len0)) (5 + len0 / 4) (memcpy_wa buf1 len1))
        (5 + len0 / 4 + len1 / 4) (memcpy_wa buf2 len2) := by
  obtain ⟨t1, t2, htr⟩ := send_pkt_some hw mac dst ethertype a0 buf0 len0 a1 buf1 len1
    a2 buf2 len2 fuel tr h
  have hopen : ∀ r : Nat → Nat, tx_ram r
      (if hw.ac_could_be_sending_to_eth ≠ 0 then
        [tx_event.dbsm_wait_for_opening hw.ac_could_be_sending_to_eth] else []) = r := by
    intro r
    split_ifs <;> rfl
  have e0 : ∀ r : Nat → Nat, tx_ram r [tx_event.wait_idle t1] = r := fun _ => rfl
  have e2 : ∀ (r : Nat → Nat) (n : Nat),
      tx_ram r [tx_event.bp_send_from_buf hw.CPU_TX_BUF hw.cpu_tx_buf_dest_port 1 0 n] = r :=
    fun _ _ => rfl
  have e3 : ∀ r : Nat → Nat, tx_ram r [tx_event.wait_done (t2 - t1) (hw.status (t2 - 1)),
      tx_event.bp_clear_buf hw.CPU_TX_BUF] = r := fun _ => rfl
  rw [htr]
  simp only [tx_ram_append, e0, hopen, e2, e3]
  exact tx_ram_assemble mac dst ethertype a0 buf0 len0 a1 buf1 len1 a2 buf2 len2 ram

theorem length_six (l : List Nat) (h : l.length = 6) :
    ∃ a b c d e f, l = [a, b, c, d, e, f] := by
  rcases l with _ | ⟨a, _ | ⟨b, _ | ⟨c, _ | ⟨d, _ | ⟨e, _ | ⟨f, _ | ⟨g, l⟩⟩⟩⟩⟩⟩⟩ <;>
    simp at h
  exact ⟨a, b, c, d, e, f, rfl⟩

theorem byte_at_tx_store_at (ram : Nat → Nat) (line : Nat) (src : List Nat)
    (nbytes off i : Nat) (hoff : off = 4 * line + i) (hi : i < nbytes / 4 * 4) :
    byte_at (tx_store ram line (memcpy_wa src nbytes)) off = src.getD i 0 % 256 := by
  rw [hoff]
  exact byte_at_tx_store_in ram line src nbytes i hi

/-- The bytes of the padded Ethernet header built by `send_pkt`. -/
theorem padded_eth_hdr_bytes (mac dst : eth_mac_addr_t) (et : Nat)
    (hmac : mac.addr.length = 6) (hdst : dst.addr.length = 6) :
    ∀ k, k < 16 →
      (padded_eth_hdr_t.bytes { pad := 0, dst := dst, src := mac, ethertype := et }).getD k 0
        = if k < 2 then 0 else if k < 8 then dst.addr.getD (k - 2) 0
          else if k < 14 then mac.addr.getD (k - 8) 0
          else if k = 14 then et / 256 % 256 else et % 256 := by
  obtain ⟨d0, d1, d2, d3, d4, d5, hd⟩ := length_six dst.addr hdst
  obtain ⟨m0, m1, m2, m3, m4, m5, hm⟩ := length_six mac.addr hmac
  intro k hk
  simp only [padded_eth_hdr_t.bytes, hd, hm]
  interval_cases k <;> rfl

/-! ## Claim on the frame layout -/

/-- C14: frame layout. For every `send_pkt` call that returns, with 4-byte-aligned
fragment lengths and 6-byte MAC addresses, the transmit buffer afterwards holds word 0 = 0,
then the 16-byte padded header (two zero pad bytes, the destination `dst`, the source MAC
of the address provider, the ethertype), then the bytes of `buf0`, `buf1` and `buf2` in
that order without gap or overlap, and nothing is written behind them. A fragment of
length zero contributes nothing and the call does not depend on its pointer or on the
memory behind it. On responsive hardware the call returns. -/
theorem send_pkt_frame_layout (hw : tx_hw) (mac dst : eth_mac_addr_t) (ethertype : Nat)
    (a0 : Nat) (buf0 : List Nat) (len0 : Nat) (a1 : Nat) (buf1 : List Nat) (len1 : Nat)
    (a2 : Nat) (buf2 : List Nat) (len2 : Nat)
    (hmac : mac.addr.length = 6) (hdst : dst.addr.length = 6)
    (h0 : len0 % 4 = 0) (h1 : len1 % 4 = 0) (h2 : len2 % 4 = 0) :
    (∀ (fuel : Nat) (tr : List tx_event) (ram : Nat → Nat),
      send_pkt hw mac dst ethertype a0 buf0 len0 a1 buf1 len1 a2 buf2 len2 fuel = some tr →
      tx_ram ram tr 0 = 0
      ∧ byte_at (tx_ram ram tr) 4 = 0 ∧ byte_at (tx_ram ram tr) 5 = 0
      ∧ (∀ i, i < 6 → byte_at (tx_ram ram tr) (6 + i) = dst.addr.getD i 0 % 256)
      ∧ (∀ i, i < 6 → byte_at (tx_ram ram tr) (12 + i) = mac.addr.getD i 0 % 256)
      ∧ u16_at (tx_ram ram tr) 18 = ethertype % 65536
      ∧ (∀ i, i < len0 → byte_at (tx_ram ram tr) (20 + i) = buf0.getD i 0 % 256)
      ∧ (∀ i, i < len1 → byte_at (tx_ram ram tr) (20 + len0 + i) = buf1.getD i 0 % 256)
      ∧ (∀ i, i < len2 →
          byte_at (tx_ram ram tr) (20 + len0 + len1 + i) = buf2.getD i 0 % 256)
      ∧ (∀ w, 5 + (len0 + len1 + len2) / 4 ≤ w → tx_ram ram tr w = ram w)
      ∧ (len0 = 0 → ∀ (a : Nat) (b : List Nat),
          send_pkt hw mac dst ethertype a b len0 a1 buf1 len1 a2 buf2 len2 fuel = some tr)
      ∧ (len1 = 0 → ∀ (a : Nat) (b : List Nat),
          send_pkt hw mac dst ethertype a0 buf0 len0 a b len1 a2 buf2 len2 fuel = some tr)
      ∧ (len2 = 0 → ∀ (a : Nat) (b : List Nat),
          send_pkt hw mac dst ethertype a0 buf0 len0 a1 buf1 len1 a b len2 fuel = some tr))
    ∧ (∀ k1 k2, k1 < k2 → hw.status k1 &&& hw.BPS_IDLE ≠ 0 →
        hw.status k2 &&& (hw.BPS_DONE ||| hw.BPS_ERROR) ≠ 0 →
        ∃ tr, ∀ fuel, k2 + 1 ≤ fuel →
          send_pkt hw mac dst ethertype a0 buf0 len0 a1 buf1 len1 a2 buf2 len2 fuel = some tr) := by
  refine ⟨?_, fun k1 k2 hk hidle hdone => send_pkt_returns hw mac dst ethertype a0 buf0 len0
    a1 buf1 len1 a2 buf2 len2 k1 k2 hk hidle hdone⟩
  intro fuel tr ram h
  have hram := tx_ram_send_pkt hw mac dst ethertype a0 buf0 len0 a1 buf1 len1 a2 buf2 len2
    fuel tr h ram
  have hb := padded_eth_hdr_bytes mac dst (ethertype % 65536) hmac hdst
  have hL0 := memcpy_wa_length buf0 len0
  have hL1 := memcpy_wa_length buf1 len1
  have hL2 := memcpy_wa_length buf2 len2
  have hLH := memcpy_wa_length (padded_eth_hdr_t.bytes
    { pad := 0, dst := dst, src := mac, ethertype := ethertype % 65536 }) 16
  have hhdr : ∀ k, k < 16 → byte_at (tx_ram ram tr) (4 + k)
      = (padded_eth_hdr_t.bytes
          { pad := 0, dst := dst, src := mac, ethertype := ethertype % 65536 }).getD k 0
        % 256 := by
    intro k hk
    rw [hram, byte_at_tx_store_out _ _ _ _ (Or.inl (by omega)),
      byte_at_tx_store_out _ _ _ _ (Or.inl (by omega)),
      byte_at_tx_store_out _ _ _ _ (Or.inl (by omega)),
      byte_at_tx_store_at _ 1 _ 16 (4 + k) k (by omega) (by omega)]
  refine ⟨?_, ?_, ?_, ?_, ?_, ?_, ?_, ?_, ?_, ?_, ?_, ?_, ?_⟩
  · rw [hram, tx_store_out _ _ _ _ (Or.inl (by omega)), tx_store_out _ _ _ _ (Or.inl (by omega)),
      tx_store_out _ _ _ _ (Or.inl (by omega)), tx_store_out _ _ _ _ (Or.inl (by omega)),
      tx_store_in _ _ _ _ (by omega) (by simp)]
    rfl
  · have := hhdr 0 (by omega)
    rw [hb 0 (by omega)] at this
    exact this
  · have := hhdr 1 (by omega)
    rw [hb 1 (by omega)] at this
    exact this
  · intro i hi
    have h6 : 6 + i = 4 + (2 + i) := by omega
    rw [h6, hhdr (2 + i) (by omega), hb (2 + i) (by omega), if_neg (by omega),
      if_pos (by omega)]
    have hidx : 2 + i - 2 = i := by omega
    rw [hidx]
  · intro i hi
    have h12 : 12 + i = 4 + (8 + i) := by omega
    rw [h12, hhdr (8 + i) (by omega), hb (8 + i) (by omega), if_neg (by omega),
      if_neg (by omega), if_pos (by omega)]
    have hidx : 8 + i - 8 = i := by omega
    rw [hidx]
  · unfold u16_at
    have e14 := hhdr 14 (by omega)
    have e15 := hhdr 15 (by omega)
    rw [hb 14 (by omega)] at e14
    rw [hb 15 (by omega)] at e15
    simp only [show ¬ (14 < 2) by omega, show ¬ (14 < 8) by omega, show ¬ (14 < 14) by omega,
      show ¬ (15 < 2) by omega, show ¬ (15 < 8) by omega, show ¬ (15 < 14) by omega,
      show ¬ (15 = 14) by omega, if_false, if_true] at e14 e15
    have h18 : (18 : Nat) = 4 + 14 := rfl
    have h19 : (18 : Nat) + 1 = 4 + 15 := rfl
    rw [h19, h18, e14, e15]
    omega
  · intro i hi
    rw [hram, byte_at_tx_store_out _ _ _ _ (Or.inl (by omega)),
      byte_at_tx_store_out _ _ _ _ (Or.inl (by omega)),
      byte_at_tx_store_at _ 5 _ len0 (20 + i) i (by omega) (by omega)]
  · intro i hi
    rw [hram, byte_at_tx_store_out _ _ _ _ (Or.inl (by omega)),
      byte_at_tx_store_at _ (5 + len0 / 4) _ len1 (20 + len0 + i) i (by omega) (by omega)]
  · intro i hi
    rw [hram, byte_at_tx_store_at _ (5 + len0 / 4 + len1 / 4) _ len2 (20 + len0 + len1 + i) i
      (by omega) (by omega)]
  · intro w hw5
    rw [hram, tx_store_out _ _ _ _ (Or.inr (by omega)), tx_store_out _ _ _ _ (Or.inr (by omega)),
      tx_store_out _ _ _ _ (Or.inr (by omega)), tx_store_out _ _ _ _ (Or.inr (by omega)),
      tx_store_out _ _ _ _ (Or.inr (by simp only [List.length_singleton]; omega))]
  · intro hz a b
    rw [← h]
    subst hz
    simp [send_pkt, send_pkt_assemble]
  · intro hz a b
    rw [← h]
    subst hz
    simp [send_pkt, send_pkt_assemble]
  · intro hz a b
    rw [← h]
    subst hz
    simp [send_pkt, send_pkt_assemble]

/-- Witness for C14: the frame of a UDP datagram with four payload bytes; the IP header
starts at byte 20, the UDP header at byte 40, the payload at byte 48. -/
theorem send_pkt_frame_layout_witness :
    ∃ tr, send_pkt tx_hw_example config_example._get_eth_mac_addr
        ⟨[0xAA, 0xAA, 0xAA, 0xAA, 0xAA, 0xAA]⟩ 0x0800 0 ip_hdr_bytes_example 20
        0 [0x12, 0x34, 0xC0, 0x01, 0, 12, 0, 0] 8 0 [0xDE, 0xAD, 0xBE, 0xEF] 4 2 = some tr
      ∧ tx_ram (fun _ => 0) tr 0 = 0
      ∧ u16_at (tx_ram (fun _ => 0) tr) 18 = 0x0800
      ∧ byte_at (tx_ram (fun _ => 0) tr) (20 + 0) = 69
      ∧ byte_at (tx_ram (fun _ => 0) tr) (20 + 20 + 1) = 0x34
      ∧ byte_at (tx_ram (fun _ => 0) tr) (20 + 20 + 8 + 3) = 0xEF := by
  cases h : send_pkt tx_hw_example config_example._get_eth_mac_addr
      ⟨[0xAA, 0xAA, 0xAA, 0xAA, 0xAA, 0xAA]⟩ 0x0800 0 ip_hdr_bytes_example 20
      0 [0x12, 0x34, 0xC0, 0x01, 0, 12, 0, 0] 8 0 [0xDE, 0xAD, 0xBE, 0xEF] 4 2 with
  | none =>
    have h0 : (send_pkt tx_hw_example config_example._get_eth_mac_addr
      ⟨[0xAA, 0xAA, 0xAA, 0xAA, 0xAA, 0xAA]⟩ 0x0800 0 ip_hdr_bytes_example 20
      0 [0x12, 0x34, 0xC0, 0x01, 0, 12, 0, 0] 8 0 [0xDE, 0xAD, 0xBE, 0xEF] 4 2).isSome
        = true := by decide
    rw [h] at h0
    exact absurd h0 (by decide)
  | some tr =>
    obtain ⟨c1, _, _, _, _, c6, c7, c8, c9, _⟩ :=
      (send_pkt_frame_layout tx_hw_example config_example._get_eth_mac_addr
        ⟨[0xAA, 0xAA, 0xAA, 0xAA, 0xAA, 0xAA]⟩ 0x0800 0 ip_hdr_bytes_example 20
        0 [0x12, 0x34, 0xC0, 0x01, 0, 12, 0, 0] 8 0 [0xDE, 0xAD, 0xBE, 0xEF] 4
        (by decide) (by decide) (by decide) (by decide) (by decide)).1 2 tr (fun _ => 0) h
    exact ⟨tr, rfl, c1, c6, (c7 0 (by decide)).trans (by decide),
      (c8 1 (by decide)).trans (by decide), (c9 3 (by decide)).trans (by decide)⟩

/-! ## Lemmas on the IP and UDP senders -/

theorem to_u8_lt (x : Int) : to_u8 x < 256 := by
  unfold to_u8
  omega

theorem ttl_proto_or (x : Nat) (hx : x < 256) : (32 <<< 8) ||| x = 8192 + x := by
  have h := Nat.mul_add_lt_is_or (show x < 2 ^ 8 from hx) 32
  rw [Nat.shiftLeft_eq]
  exact h.symm

/-- Writing the truncated complement of the sum over a zero field of the buffer makes the
sum over the buffer `0xFFFF`. -/
theorem chksum_store_field (buf : Nat → Nat) (n k : Nat) (hk : k < n)
    (hz : buf k % 65536 = 0) :
    chksum_buffer (store buf k (bnot32 (chksum_buffer buf (n : Int) 0) % 65536)) (n : Int) 0
      = 0xFFFF := by
  have hle := oc_norm_le (word_sum buf n)
  have hc : bnot32 (chksum_buffer buf (n : Int) 0) % 65536 = 65535 - oc_norm (word_sum buf n) := by
    rw [chksum_buffer_zero]
    unfold bnot32
    omega
  rw [hc, chksum_buffer_zero]
  have h1 := word_sum_store buf n k (65535 - oc_norm (word_sum buf n)) hk
  rw [hz] at h1
  have h3 : (65535 - oc_norm (word_sum buf n)) % 65536 = 65535 - oc_norm (word_sum buf n) :=
    Nat.mod_eq_of_lt (by omega)
  rw [h3] at h1
  have h2 : word_sum (store buf k (65535 - oc_norm (word_sum buf n))) n
      = word_sum buf n + (65535 - oc_norm (word_sum buf n)) := h1
  rw [h2]
  exact oc_norm_compl _

theorem bytes_of_shorts_length (l : List Nat) : (bytes_of_shorts l).length = 2 * l.length := by
  induction l with
  | nil => rfl
  | cons a rest ih =>
    simp only [bytes_of_shorts, List.length_cons, ih]
    omega

/-! ## Claims on the IP and UDP senders -/

/-- C15, counterexample: with fragment lengths 8 and 65536 the 16-bit total-length field
holds 28, not `20 + 8 + 65536`. -/
theorem send_ip_pkt_len_counterexample :
    (send_ip_pkt_hdr config_example 0x0A000005 17 8 65536)._len = 28
    ∧ (send_ip_pkt_hdr config_example 0x0A000005 17 8 65536)._len ≠ 20 + 8 + 65536 := by
  decide

/-- C15 (amended): for every destination, protocol and fragment lengths the header built
by `send_ip_pkt` has version 4, header length 5, TOS 0, total length
`(20 + len0 + len1) mod 2^16` (which is `20 + len0 + len1` whenever that fits in 16 bits),
identification 0, flags/offset = don't-fragment only (more-fragments clear, offset 0),
TTL 32, protocol = the low 8 bits of the protocol argument, source = the configured IP and
destination = the destination argument. -/
theorem send_ip_pkt_header_fields (cfg : net_config) (dst : Nat) (protocol : Int)
    (len0 len1 : Nat) :
    (send_ip_pkt_hdr cfg dst protocol len0 len1)._v_hl_tos / 4096 = 4
    ∧ (send_ip_pkt_hdr cfg dst protocol len0 len1)._v_hl_tos / 256 % 16 = 5
    ∧ (send_ip_pkt_hdr cfg dst protocol len0 len1)._v_hl_tos % 256 = 0
    ∧ (send_ip_pkt_hdr cfg dst protocol len0 len1)._len = (20 + len0 + len1) % 65536
    ∧ (20 + len0 + len1 ≤ 65535 →
        (send_ip_pkt_hdr cfg dst protocol len0 len1)._len = 20 + len0 + len1)
    ∧ (send_ip_pkt_hdr cfg dst protocol len0 len1)._id = 0
    ∧ (send_ip_pkt_hdr cfg dst protocol len0 len1)._offset = IP_DF
    ∧ (send_ip_pkt_hdr cfg dst protocol len0 len1)._offset &&& IP_MF = 0
    ∧ (send_ip_pkt_hdr cfg dst protocol len0 len1)._offset &&& IP_OFFMASK = 0
    ∧ (send_ip_pkt_hdr cfg dst protocol len0 len1)._ttl_proto / 256 = 32
    ∧ (send_ip_pkt_hdr cfg dst protocol len0 len1)._ttl_proto % 256 = to_u8 protocol
    ∧ (send_ip_pkt_hdr cfg dst protocol len0 len1).src = cfg._get_ip_addr
    ∧ (send_ip_pkt_hdr cfg dst protocol len0 len1).dest = dst := by
  have hp := to_u8_lt protocol
  have htp := ttl_proto_or (to_u8 protocol) hp
  have hv : IPH_VHLTOS_SET 4 5 0 = 0x4500 := by decide
  have hmf : IP_DF &&& IP_MF = 0 := by decide
  have hoff : IP_DF &&& IP_OFFMASK = 0 := by decide
  refine ⟨?_, ?_, ?_, rfl, ?_, rfl, rfl, hmf, hoff, ?_, ?_, rfl, rfl⟩
  · show IPH_VHLTOS_SET 4 5 0 / 4096 = 4
    rw [hv]
  · show IPH_VHLTOS_SET 4 5 0 / 256 % 16 = 5
    rw [hv]
  · show IPH_VHLTOS_SET 4 5 0 % 256 = 0
    rw [hv]
  · intro hfit
    show (IP_HLEN + len0 + len1) % 65536 = 20 + len0 + len1
    unfold IP_HLEN
    omega
  · show ((32 <<< 8) ||| to_u8 protocol) / 256 = 32
    rw [htp]
    omega
  · show ((32 <<< 8) ||| to_u8 protocol) % 256 = to_u8 protocol
    rw [htp]
    omega

/-- Witness for C15 (amended): the header of a UDP datagram with 8 + 4 bytes has total
length 32. -/
theorem send_ip_pkt_header_fields_witness :
    (send_ip_pkt_hdr config_example 0x0A000005 17 8 4)._len = 32 :=
  ((send_ip_pkt_header_fields config_example 0x0A000005 17 8 4).2.2.2.2.1 (by decide)).trans
    (by decide)

/-- C16: in `send_ip_pkt` the checksum field is zero while the sum is computed and is then
set to the 16-bit complement of `chksum_buffer` over the ten header half-words; the
finished header verifies: the one's-complement sum of its ten half-words, checksum
included, is `0xFFFF`. -/
theorem send_ip_pkt_checksum (cfg : net_config) (dst : Nat) (protocol : Int)
    (len0 len1 : Nat) :
    (send_ip_pkt_hdr cfg dst protocol len0 len1)._chksum
      = bnot32 (chksum_buffer
          (fun i => (ip_hdr.shorts
            { send_ip_pkt_hdr cfg dst protocol len0 len1 with _chksum := 0 }).getD i 0)
          10 0) % 65536
    ∧ chksum_buffer (fun i => (send_ip_pkt_hdr cfg dst protocol len0 len1).shorts.getD i 0)
        10 0 = 0xFFFF := by
  constructor
  · rfl
  · have hfield := chksum_store_field
      (fun i => (ip_hdr.shorts
        { send_ip_pkt_hdr cfg dst protocol len0 len1 with _chksum := 0 }).getD i 0)
      10 5 (by omega) (by simp [ip_hdr.shorts])
    have hcongr := chksum_buffer_congr
      (fun i => (send_ip_pkt_hdr cfg dst protocol len0 len1).shorts.getD i 0)
      (store (fun i => (ip_hdr.shorts
          { send_ip_pkt_hdr cfg dst protocol len0 len1 with _chksum := 0 }).getD i 0) 5
        (bnot32 (chksum_buffer (fun i => (ip_hdr.shorts
          { send_ip_pkt_hdr cfg dst protocol len0 len1 with _chksum := 0 }).getD i 0)
          ((10 : Nat) : Int) 0) % 65536))
      10 0
      (by
        intro i hi
        interval_cases i <;> rfl)
    exact hcongr.trans hfield

/-- C17: `send_ip_pkt` looks the destination up in the ARP cache. On a miss its only
effect is the diagnostic: no `send_pkt` call, so the transmit buffer is not touched and
nothing is committed, queued or requested. On a hit it makes exactly one `send_pkt` call,
to the cached MAC, with ethertype IPv4 and the fragments (20-byte IP header, `buf0`,
`buf1`) in that order. A frame is sent if and only if the lookup succeeds, and in both
cases no ARP cache update occurs. -/
theorem send_ip_pkt_arp_lookup (cfg : net_config) (cache : Nat → Option eth_mac_addr_t)
    (dst : Nat) (protocol : Int) (buf0 : List Nat) (len0 : Nat) (buf1 : List Nat)
    (len1 : Nat) :
    (cache dst = none →
      send_ip_pkt cfg cache dst protocol buf0 len0 buf1 len1
        = [Event.printf_failed_to_hit_cache dst])
    ∧ (∀ mac, cache dst = some mac →
      send_ip_pkt cfg cache dst protocol buf0 len0 buf1 len1
        = [Event.send_pkt mac ETHERTYPE_IPV4
            (send_ip_pkt_hdr cfg dst protocol len0 len1).bytes 20 buf0 len0 buf1 len1])
    ∧ (send_ip_pkt_hdr cfg dst protocol len0 len1).bytes.length = 20
    ∧ ((∃ e ∈ send_ip_pkt cfg cache dst protocol buf0 len0 buf1 len1, e.is_send_pkt = true)
        ↔ (cache dst).isSome = true)
    ∧ (∀ e ∈ send_ip_pkt cfg cache dst protocol buf0 len0 buf1 len1,
        e.is_arp_cache_update = false) := by
  have hdest : (send_ip_pkt_hdr cfg dst protocol len0 len1).dest = dst := rfl
  have hmiss : cache dst = none →
      send_ip_pkt cfg cache dst protocol buf0 len0 buf1 len1
        = [Event.printf_failed_to_hit_cache dst] := by
    intro hc
    unfold send_ip_pkt
    simp only [hdest, hc]
  have hhit : ∀ mac, cache dst = some mac →
      send_ip_pkt cfg cache dst protocol buf0 len0 buf1 len1
        = [Event.send_pkt mac ETHERTYPE_IPV4
            (send_ip_pkt_hdr cfg dst protocol len0 len1).bytes 20 buf0 len0 buf1 len1] := by
    intro mac hc
    unfold send_ip_pkt
    simp only [hdest, hc]
  refine ⟨hmiss, hhit, ?_, ?_, ?_⟩
  · unfold ip_hdr.bytes
    rw [bytes_of_shorts_length]
    rfl
  · cases hc : cache dst with
    | none =>
      rw [hmiss hc]
      simp [Event.is_send_pkt]
    | some mac =>
      rw [hhit mac hc]
      simp [Event.is_send_pkt]
  · intro e he
    cases hc : cache dst with
    | none =>
      rw [hmiss hc, List.mem_singleton] at he
      subst he
      rfl
    | some mac =>
      rw [hhit mac hc, List.mem_singleton] at he
      subst he
      rfl

/-- Witness for C17: a datagram for the unknown address 10.0.0.6 is not sent. -/
theorem send_ip_pkt_arp_lookup_witness :
    send_ip_pkt config_example arp_cache_example 0x0A000006 17
        [0x12, 0x34, 0xC0, 0x01, 0, 12, 0, 0] 8 [0xDE, 0xAD, 0xBE, 0xEF] 4
      = [Event.printf_failed_to_hit_cache 0x0A000006] :=
  (send_ip_pkt_arp_lookup config_example arp_cache_example 0x0A000006 17
    [0x12, 0x34, 0xC0, 0x01, 0, 12, 0, 0] 8 [0xDE, 0xAD, 0xBE, 0xEF] 4).1 (by decide)

/-- C18, counterexample: for a payload of 65536 bytes the 16-bit UDP length field holds 8,
not `8 + 65536`, and the IP total length field holds 28, not `28 + 65536`. -/
theorem send_udp_pkt_len_counterexample :
    (send_udp_pkt_hdr 0x1234 ⟨0x0A000005, 49153⟩ 65536).len = 8
    ∧ (send_udp_pkt_hdr 0x1234 ⟨0x0A000005, 49153⟩ 65536).len ≠ 8 + 65536
    ∧ (send_ip_pkt_hdr config_example 0x0A000005 17 8 65536)._len ≠ 28 + 65536 := by
  decide

/-- C18 (amended): for every source port (a 16-bit value), destination socket and payload
of length `len`, `send_udp_pkt` is exactly one call of `send_ip_pkt` with destination
`dst.addr`, protocol UDP (17), the 8-byte UDP header as first fragment and the payload as
second; the header has source port = `src_port`, destination port = `dst.port`, length
`(8 + len) mod 2^16` and checksum 0, and the IP total length is `(28 + len) mod 2^16`;
these are `8 + len` and `28 + len` whenever `28 + len` fits in 16 bits. -/
theorem send_udp_pkt_delegates (cfg : net_config) (cache : Nat → Option eth_mac_addr_t)
    (src_port : Int) (dst : socket_address) (buf : List Nat) (len : Nat)
    (hsp : 0 ≤ src_port ∧ src_port < 65536) :
    send_udp_pkt cfg cache src_port dst buf len
      = send_ip_pkt cfg cache dst.addr 17
          (udp_hdr.bytes
            { src := src_port.toNat, dest := dst.port, len := (8 + len) % 65536, chksum := 0 })
          8 buf len
    ∧ (udp_hdr.bytes
        { src := src_port.toNat, dest := dst.port, len := (8 + len) % 65536,
          chksum := 0 }).length = 8
    ∧ (send_ip_pkt_hdr cfg dst.addr 17 8 len)._len = (28 + len) % 65536
    ∧ (28 + len ≤ 65535 →
        (8 + len) % 65536 = 8 + len
        ∧ (send_ip_pkt_hdr cfg dst.addr 17 8 len)._len = 28 + len) := by
  have hsrc : to_u16 src_port = src_port.toNat := by
    unfold to_u16
    omega
  have hlen : (send_ip_pkt_hdr cfg dst.addr 17 8 len)._len = (28 + len) % 65536 := by
    show (IP_HLEN + 8 + len) % 65536 = (28 + len) % 65536
    rfl
  refine ⟨?_, rfl, hlen, ?_⟩
  · unfold send_udp_pkt send_udp_pkt_hdr
    rw [hsrc]
    rfl
  · intro hfit
    rw [hlen]
    omega

/-- Witness for C18 (amended): source port 0x1234, four payload bytes, destination
10.0.0.5:49153 known to the ARP cache: one IPv4 frame with a 12-byte UDP datagram. -/
theorem send_udp_pkt_delegates_witness :
    send_udp_pkt config_example arp_cache_example 0x1234 ⟨0x0A000005, 49153⟩
        [0xDE, 0xAD, 0xBE, 0xEF] 4
      = [Event.send_pkt ⟨[0xAA, 0xAA, 0xAA, 0xAA, 0xAA, 0xAA]⟩ 0x0800
          [69, 0, 0, 32, 0, 0, 64, 0, 32, 17, 70, 200, 10, 0, 0, 1, 10, 0, 0, 5] 20
          [0x12, 0x34, 0xC0, 0x01, 0, 12, 0, 0] 8 [0xDE, 0xAD, 0xBE, 0xEF] 4] :=
  ((send_udp_pkt_delegates config_example arp_cache_example 0x1234 ⟨0x0A000005, 49153⟩
    [0xDE, 0xAD, 0xBE, 0xEF] 4 (by decide)).1).trans (by decide)

/-! ## Claims on the registry invariant and on insertion -/

/-- C21, counterexample: in the initial (zero-initialised) registry entries 0 and 1 carry
the same port, namely 0; after registering port 5 alone, entries 1 and 2 still do. -/
theorem initial_registry_shares_port_zero :
    (listeners_init 0).port = (listeners_init 1).port
    ∧ (register_all listeners_init [(5, 77)]).map
        (fun l => ((l 0).port, (l 1).port, (l 2).port)) = some (5, 0, 0) := by
  decide

/-- C21 (amended): in the initial registry and after every sequence of
`register_udp_listener` calls, no two entries of the listener table carry the same
non-zero port, and no two entries that hold a callback carry the same port (zero
included); entries without a callback all carry the port they were initialised with or
last given. -/
theorem registry_ports_unique (calls : List (Int × Nat)) (l : Nat → listener_entry)
    (h : register_all listeners_init calls = some l) :
    (∀ i j, i < MAX_UDP_LISTENERS → j < MAX_UDP_LISTENERS →
        (l i).port = (l j).port → (l i).port ≠ 0 → i = j)
    ∧ (∀ i j, i < MAX_UDP_LISTENERS → j < MAX_UDP_LISTENERS →
        (l i).port = (l j).port → (l i).rcvr ≠ 0 → (l j).rcvr ≠ 0 → i = j) := by
  have hinv := registry_inv_register_all calls listeners_init l registry_inv_init h
  refine ⟨hinv.1, ?_⟩
  intro i j hi hj hp hri hrj
  exact registry_inv_unique l hinv (l j).port i j hi hj hp hri rfl hrj

/-- Witness for C21 (amended): after registering ports 5 and 0 the two entries that hold
a callback carry different ports. -/
theorem registry_ports_unique_witness :
    ∃ l, register_all listeners_init [(5, 77), (0, 88)] = some l
      ∧ (∀ i j, i < MAX_UDP_LISTENERS → j < MAX_UDP_LISTENERS →
          (l i).port = (l j).port → (l i).rcvr ≠ 0 → (l j).rcvr ≠ 0 → i = j) := by
  cases h : register_all listeners_init [(5, 77), (0, 88)] with
  | none =>
    have h0 : (register_all listeners_init [(5, 77), (0, 88)]).isSome = true := by decide
    rw [h] at h0
    exact absurd h0 (by decide)
  | some l => exact ⟨l, rfl, (registry_ports_unique [(5, 77), (0, 88)] l h).2⟩

/-- C22: insertion into the first free slot. For every table: when no entry has port `P`
and `k` is the lowest-index entry whose callback is null, `register_udp_listener(P, f)`
returns, entry `k` becomes `(P, f)` and every other entry is unchanged. When `i` is the
first entry with port `P`, the call returns, only the callback of entry `i` changes (to
`f`) and no port field changes. -/
theorem register_first_free_slot (l : Nat → listener_entry) (port : Int) (f : Nat) :
    (∀ k, (∀ i, i < MAX_UDP_LISTENERS → (l i).port ≠ to_u16 port) →
        k < MAX_UDP_LISTENERS → (l k).rcvr = 0 → (∀ j, j < k → (l j).rcvr ≠ 0) →
        ∃ l2, register_udp_listener l port f = some l2
          ∧ l2 k = ⟨to_u16 port, f⟩ ∧ ∀ j, j ≠ k → l2 j = l j)
    ∧ (∀ i, i < MAX_UDP_LISTENERS → (l i).port = to_u16 port →
        (∀ j, j < i → (l j).port ≠ to_u16 port) →
        ∃ l2, register_udp_listener l port f = some l2
          ∧ (l2 i).rcvr = f ∧ (∀ j, (l2 j).port = (l j).port) ∧ ∀ j, j ≠ i → l2 j = l j) := by
  constructor
  · intro k hnone hk hk0 hfirst
    have hfind : find_listener_by_port l (to_u16 port) = none :=
      (find_listener_by_port_none l _).mpr hnone
    have hfree : find_free_listener l = some k :=
      (find_free_listener_some l k).mpr ⟨hk0, hk, hfirst⟩
    refine ⟨fun i => if i = k then ⟨to_u16 port, f⟩ else l i, ?_, ?_, ?_⟩
    · unfold register_udp_listener
      rw [hfind, hfree]
    · simp only [if_true]
    · intro j hj
      simp only [hj, if_false]
  · intro i hi hp hfirst
    have hfind : find_listener_by_port l (to_u16 port) = some i :=
      (find_listener_by_port_some l _ i).mpr ⟨hp, hi, hfirst⟩
    refine ⟨fun j => if j = i then { l j with rcvr := f } else l j, ?_, ?_, ?_, ?_⟩
    · unfold register_udp_listener
      rw [hfind]
    · simp only [if_true]
    · intro j
      by_cases hj : j = i <;> simp [hj]
    · intro j hj
      simp only [hj, if_false]

/-- Witness for C22: on the table whose entry 0 holds port 5, registering the new port 9
writes entry 1. -/
theorem register_first_free_slot_witness :
    ∃ l2, register_udp_listener (fun i => if i = 0 then ⟨5, 77⟩ else ⟨0, 0⟩) 9 88 = some l2
      ∧ l2 1 = ⟨9, 88⟩ ∧ ∀ j, j ≠ 1 → l2 j = (fun i => if i = 0 then ⟨5, 77⟩ else ⟨0, 0⟩) j :=
  (register_first_free_slot (fun i => if i = 0 then ⟨5, 77⟩ else ⟨0, 0⟩) 9 88).1 1
    (by
      intro i _
      by_cases hi : i = 0
      · subst hi
        decide
      · simp only [hi, if_false]
        decide)
    (by decide) (by decide)
    (by
      intro j hj
      have hj0 : j = 0 := by omega
      subst hj0
      decide)

/-! ## Claims on ICMP, short datagrams, short ARP frames and the destination address -/

/-- C23: for every accepted inbound IPv4 datagram whose protocol is not UDP (ICMP of any
type and code, echo request included, or any other protocol), `handle_eth_packet`
refreshes the ARP cache and does nothing else except, for ICMP destination-unreachable,
print the marker character: no frame is transmitted, no callback is invoked; for a
protocol other than UDP and ICMP the ARP cache refresh is the only effect. -/
theorem non_udp_datagram_silent (cfg : net_config) (listeners : Nat → listener_entry)
    (p : Nat → Nat) (nlines : Nat)
    (heth : p 3 % 65536 = ETHERTYPE_IPV4)
    (hv : IPH_V p 16 = 4) (hhl : IPH_HL p 16 = 5)
    (hmf : IPH_OFFSET p 16 &&& IP_MF = 0) (hoff : IPH_OFFSET p 16 &&& IP_OFFMASK = 0)
    (hproto : IPH_PROTO p 16 ≠ IP_PROTO_UDP) :
    (handle_eth_packet cfg listeners p nlines
        = [Event.arp_cache_update (ip_hdr_src p 16) (bytes_at p 8 6)]
      ∨ handle_eth_packet cfg listeners p nlines
        = [Event.arp_cache_update (ip_hdr_src p 16) (bytes_at p 8 6), Event.putchar 0x69])
    ∧ (IPH_PROTO p 16 ≠ IP_PROTO_ICMP →
        handle_eth_packet cfg listeners p nlines
          = [Event.arp_cache_update (ip_hdr_src p 16) (bytes_at p 8 6)])
    ∧ (icmp_hdr_type p (16 + IP_HLEN) ≠ ICMP_DUR →
        handle_eth_packet cfg listeners p nlines
          = [Event.arp_cache_update (ip_hdr_src p 16) (bytes_at p 8 6)])
    ∧ (∀ e ∈ handle_eth_packet cfg listeners p nlines,
        e.is_send_pkt = false ∧ e.is_rcvr = false) := by
  have hacc := handle_eth_packet_accepted cfg listeners p nlines heth hv hhl hmf hoff
  rw [if_neg hproto] at hacc
  have hicmp : ∀ (a b len : Nat),
      handle_icmp_packet p a b (16 + IP_HLEN) len = []
      ∨ handle_icmp_packet p a b (16 + IP_HLEN) len = [Event.putchar 0x69] := by
    intro a b len
    unfold handle_icmp_packet
    split_ifs
    · exact Or.inr rfl
    · exact Or.inr rfl
    · exact Or.inl rfl
  have hkey : handle_eth_packet cfg listeners p nlines
        = [Event.arp_cache_update (ip_hdr_src p 16) (bytes_at p 8 6)]
      ∨ handle_eth_packet cfg listeners p nlines
        = [Event.arp_cache_update (ip_hdr_src p 16) (bytes_at p 8 6), Event.putchar 0x69] := by
    rw [hacc]
    by_cases hi : IPH_PROTO p 16 = IP_PROTO_ICMP
    · rw [if_pos hi]
      rcases hicmp (ip_hdr_src p 16) (ip_hdr_dest p 16)
        (to_size_t ((IPH_LEN p 16 : Int) - (IP_HLEN : Int))) with h | h
      · rw [h]
        exact Or.inl rfl
      · rw [h]
        exact Or.inr rfl
    · rw [if_neg hi]
      exact Or.inl rfl
  refine ⟨hkey, ?_, ?_, ?_⟩
  · intro hi
    rw [hacc, if_neg hi]
  · intro ht
    rw [hacc]
    by_cases hi : IPH_PROTO p 16 = IP_PROTO_ICMP
    · rw [if_pos hi]
      unfold handle_icmp_packet
      rw [if_neg ht]
    · rw [if_neg hi]
  · intro e he
    rcases hkey with h | h
    · rw [h, List.mem_singleton] at he
      subst he
      exact ⟨rfl, rfl⟩
    · rw [h] at he
      simp only [List.mem_cons, List.mem_singleton, List.not_mem_nil, or_false] at he
      rcases he with he | he <;> (subst he; exact ⟨rfl, rfl⟩)

/-- Witness for C23: an ICMP echo request only refreshes the ARP cache; no echo reply. -/
theorem non_udp_datagram_silent_witness :
    handle_eth_packet config_example listeners_init icmp_echo_example 11
      = [Event.arp_cache_update 0x0A000005 [0xAA, 0xAA, 0xAA, 0xAA, 0xAA, 0xAA]] :=
  ((non_udp_datagram_silent config_example listeners_init icmp_echo_example 11
    (by decide) (by decide) (by decide) (by decide) (by decide) (by decide)).2.2.1
    (by decide)).trans (by decide)

/-- C28, the code at the failing input: with callback 77 registered for port 49153, a
datagram whose IP total length is 20 and whose UDP length field is 0 passes the length
comparison (0 = 20 - 20) and is delivered with payload length `0 - 8 = -8`. -/
theorem udp_short_datagram_negative_length :
    (register_all listeners_init [(49153, 77)]).map
        (fun l => handle_eth_packet config_example l udp_short_example 11) =
      some [Event.arp_cache_update 0x0A000005 [0xAA, 0xAA, 0xAA, 0xAA, 0xAA, 0xAA],
        Event.rcvr 77 ⟨0x0A000005, 0x1234⟩ ⟨0x0A000001, 49153⟩ 44 (-8)]
    ∧ ¬ ((0 : Int) ≤ -8) := by
  decide

/-- C29, the code at the failing input: for `nlines = 3` (and for `nlines = 0`) the size
handed to `handle_arp_packet`, `4 * nlines - 14` in `size_t` arithmetic, wraps around to
`2 ^ 32 - 2` (resp. `2 ^ 32 - 14`), passes the size check, and the ARP request found in
the words behind the 12-byte frame is answered, although `16 + 28 <= 4 * 3` is false. -/
theorem arp_short_frame_answered :
    (3 * 4 + (2 ^ 32 - 14)) % 2 ^ 32 = 2 ^ 32 - 2
    ∧ handle_eth_packet config_example listeners_init arp_request_example 3 =
      [Event.send_pkt ⟨[0xAA, 0xAA, 0xAA, 0xAA, 0xAA, 0xAA]⟩ 0x0806
        [0, 1, 8, 0, 6, 4, 0, 2,
         0x00, 0x50, 0xC2, 0x85, 0x3F, 0xFF, 10, 0, 0, 1,
         0xAA, 0xAA, 0xAA, 0xAA, 0xAA, 0xAA, 10, 0, 0, 5]
        28 [] 0 [] 0]
    ∧ handle_eth_packet config_example listeners_init arp_request_example 0 =
      handle_eth_packet config_example listeners_init arp_request_example 3
    ∧ ¬ (16 + 28 ≤ 4 * 3) := by
  decide

/-- Companion to C29: from four words on (and without 32-bit overflow of `4 * nlines`)
the size check is exact: a reply is emitted only if the complete ARP message lies inside
the received frame. -/
theorem arp_reply_needs_full_frame (cfg : net_config) (listeners : Nat → listener_entry)
    (p : Nat → Nat) (nlines : Nat) (heth : p 3 % 65536 = ETHERTYPE_ARP)
    (h4 : 4 ≤ nlines) (hn : 4 * nlines < 2 ^ 32) (e : Event)
    (he : e ∈ handle_eth_packet cfg listeners p nlines) (hs : e.is_send_pkt = true) :
    16 + 28 ≤ 4 * nlines := by
  rw [handle_eth_packet_arp cfg listeners p nlines heth, handle_arp_packet_eq] at he
  by_cases hsz : (nlines * 4 + (2 ^ 32 - 14)) % 2 ^ 32 < 28
  · rw [if_pos hsz, List.mem_singleton] at he
    subst he
    exact absurd hs (by simp [Event.is_send_pkt])
  · omega

/-- C30: no filter on the IP destination address. On every frame that is not ARP the
effects of `handle_eth_packet` do not depend on the configured addresses at all; and for
every accepted IPv4/UDP datagram with consistent length whose port has a table entry, the
ARP cache refresh and the callback happen with the destination socket carrying the
datagram's own destination address, whatever the configured IP is. -/
theorem ipv4_path_ignores_configured_ip (cfg cfg2 : net_config)
    (listeners : Nat → listener_entry) (p : Nat → Nat) (nlines : Nat)
    (hnarp : p 3 % 65536 ≠ ETHERTYPE_ARP) :
    handle_eth_packet cfg listeners p nlines = handle_eth_packet cfg2 listeners p nlines
    ∧ (∀ i, p 3 % 65536 = ETHERTYPE_IPV4 → IPH_V p 16 = 4 → IPH_HL p 16 = 5 →
        IPH_OFFSET p 16 &&& IP_MF = 0 → IPH_OFFSET p 16 &&& IP_OFFMASK = 0 →
        IPH_PROTO p 16 = IP_PROTO_UDP →
        (udp_hdr_len p (16 + IP_HLEN) : Int) = (IPH_LEN p 16 : Int) - 20 →
        find_listener_by_port listeners (udp_hdr_dest p (16 + IP_HLEN)) = some i →
        handle_eth_packet cfg listeners p nlines =
          [Event.arp_cache_update (ip_hdr_src p 16) (bytes_at p 8 6),
           Event.rcvr (listeners i).rcvr
             ⟨ip_hdr_src p 16, udp_hdr_src p (16 + IP_HLEN)⟩
             ⟨ip_hdr_dest p 16, udp_hdr_dest p (16 + IP_HLEN)⟩
             (16 + IP_HLEN + UDP_HLEN)
             ((udp_hdr_len p (16 + IP_HLEN) : Int) - 8)]) := by
  constructor
  · simp only [handle_eth_packet, hnarp, if_false]
  · intro i heth hv hhl hmf hoff hproto hlen hfind
    have hsz : to_size_t ((IPH_LEN p 16 : Int) - (IP_HLEN : Int))
        = udp_hdr_len p (16 + IP_HLEN) :=
      (udp_len_match_iff _ _ (u16_at_lt _ _) (u16_at_lt _ _)).mpr hlen
    rw [handle_eth_packet_accepted cfg listeners p nlines heth hv hhl hmf hoff, if_pos hproto,
      handle_udp_packet_hit listeners p _ _ _ _ i hsz hfind]

/-- Witness for C30: the node 10.0.0.1 delivers a datagram addressed to 10.0.0.9, and the
destination socket carries 10.0.0.9. -/
theorem ipv4_path_ignores_configured_ip_witness :
    handle_eth_packet config_example (fun i => if i = 0 then ⟨49153, 77⟩ else ⟨0, 0⟩)
        udp_other_dest_example 12 =
      [Event.arp_cache_update 0x0A000005 [0xAA, 0xAA, 0xAA, 0xAA, 0xAA, 0xAA],
        Event.rcvr 77 ⟨0x0A000005, 0x1234⟩ ⟨0x0A000009, 49153⟩ 44 4] :=
  ((ipv4_path_ignores_configured_ip config_example config_example
    (fun i => if i = 0 then ⟨49153, 77⟩ else ⟨0, 0⟩) udp_other_dest_example 12
    (by decide)).2 0 (by decide) (by decide) (by decide) (by decide) (by decide) (by decide)
    (by decide) (by decide)).trans (by decide)

/-! ## Lemmas on the words read by the dispatcher -/

theorem byte_at_congr (p q : Nat → Nat) (h : ∀ i, 2 ≤ i → p i = q i) (off : Nat)
    (hoff : 8 ≤ off) : byte_at p off = byte_at q off := by
  unfold byte_at
  rw [h (off / 4) (by omega)]

theorem u16_at_congr (p q : Nat → Nat) (h : ∀ i, 2 ≤ i → p i = q i) (off : Nat)
    (hoff : 8 ≤ off) : u16_at p off = u16_at q off := by
  unfold u16_at
  rw [byte_at_congr p q h off hoff, byte_at_congr p q h (off + 1) (by omega)]

theorem u32_at_congr (p q : Nat → Nat) (h : ∀ i, 2 ≤ i → p i = q i) (off : Nat)
    (hoff : 8 ≤ off) : u32_at p off = u32_at q off := by
  unfold u32_at
  rw [u16_at_congr p q h off hoff, u16_at_congr p q h (off + 2) (by omega)]

theorem bytes_at_congr (p q : Nat → Nat) (h : ∀ i, 2 ≤ i → p i = q i) (off n : Nat)
    (hoff : 8 ≤ off) : bytes_at p off n = bytes_at q off n := by
  unfold bytes_at
  apply List.map_congr_left
  intro i _
  exact byte_at_congr p q h (off + i) (by omega)

theorem arp_at_congr (p q : Nat → Nat) (h : ∀ i, 2 ≤ i → p i = q i) (off : Nat)
    (hoff : 8 ≤ off) : arp_at p off = arp_at q off := by
  unfold arp_at
  rw [u16_at_congr p q h off hoff, u16_at_congr p q h (off + 2) (by omega),
    byte_at_congr p q h (off + 4) (by omega), byte_at_congr p q h (off + 5) (by omega),
    u16_at_congr p q h (off + 6) (by omega), bytes_at_congr p q h (off + 8) 6 (by omega),
    bytes_at_congr p q h (off + 14) 4 (by omega), bytes_at_congr p q h (off + 18) 6 (by omega),
    bytes_at_congr p q h (off + 24) 4 (by omega)]

theorem handle_arp_packet_congr (cfg : net_config) (p q : Nat → Nat)
    (h : ∀ i, 2 ≤ i → p i = q i) (arp size : Nat) (harp : 8 ≤ arp) :
    handle_arp_packet cfg p arp size = handle_arp_packet cfg q arp size := by
  rw [handle_arp_packet_eq, handle_arp_packet_eq, arp_at_congr p q h arp harp]

theorem handle_udp_packet_congr (listeners : Nat → listener_entry) (p q : Nat → Nat)
    (h : ∀ i, 2 ≤ i → p i = q i) (src dst udp len : Nat) (hudp : 8 ≤ udp) :
    handle_udp_packet listeners p src dst udp len
      = handle_udp_packet listeners q src dst udp len := by
  unfold handle_udp_packet udp_hdr_len udp_hdr_dest udp_hdr_src
  rw [u16_at_congr p q h (udp + 4) (by omega), u16_at_congr p q h (udp + 2) (by omega),
    u16_at_congr p q h udp hudp]

theorem handle_icmp_packet_congr (p q : Nat → Nat) (h : ∀ i, 2 ≤ i → p i = q i)
    (src dst icmp len : Nat) (hicmp : 8 ≤ icmp) :
    handle_icmp_packet p src dst icmp len = handle_icmp_packet q src dst icmp len := by
  unfold handle_icmp_packet icmp_hdr_type icmp_hdr_code
  rw [byte_at_congr p q h icmp hicmp, byte_at_congr p q h (icmp + 1) (by omega)]

theorem handle_eth_packet_ipv4_branch_eq (cfg : net_config)
    (listeners : Nat → listener_entry) (p : Nat → Nat) (nlines : Nat)
    (heth : p 3 % 65536 = ETHERTYPE_IPV4) :
    handle_eth_packet cfg listeners p nlines = handle_eth_packet_ipv4_branch listeners p := by
  rw [handle_eth_packet_ipv4 cfg listeners p nlines heth]
  rfl

theorem handle_eth_packet_ipv4_branch_congr (listeners : Nat → listener_entry)
    (p q : Nat → Nat) (h : ∀ i, 2 ≤ i → p i = q i) :
    handle_eth_packet_ipv4_branch listeners p = handle_eth_packet_ipv4_branch listeners q := by
  have e16 := u16_at_congr p q h 16 (by omega)
  have e18 := u16_at_congr p q h (16 + 2) (by omega)
  have e22 := u16_at_congr p q h (16 + 6) (by omega)
  have e24 := u16_at_congr p q h (16 + 8) (by omega)
  have e28 := u32_at_congr p q h (16 + 12) (by omega)
  have e32 := u32_at_congr p q h (16 + 16) (by omega)
  have emac := bytes_at_congr p q h 8 6 (by omega)
  have hIP : (8 : Nat) ≤ 16 + IP_HLEN := by
    unfold IP_HLEN
    omega
  unfold handle_eth_packet_ipv4_branch IPH_V IPH_HL IPH_LEN IPH_OFFSET IPH_PROTO ip_hdr_src
    ip_hdr_dest
  rw [e16, e18, e22, e24, e28, e32, emac]
  simp only [handle_udp_packet_congr listeners p q h _ _ _ _ hIP,
    handle_icmp_packet_congr p q h _ _ _ _ hIP]

/-! ## Claim on the inbound frame boundary -/

/-- C24, counterexample: the buffers `arp_request_example` and `ipv6_example` agree on the
third word (index 2) and on every word other than index 3, yet the first is routed to the
ARP handler (a reply is sent) and the second is dropped: the route is read from the fourth
word, `p[3]`. -/
theorem third_word_does_not_route :
    arp_request_example 2 = ipv6_example 2
    ∧ arp_request_example 2 % 65536 = ipv6_example 2 % 65536
    ∧ handle_eth_packet config_example listeners_init ipv6_example 11 = []
    ∧ handle_eth_packet config_example listeners_init arp_request_example 11
        ≠ handle_eth_packet config_example listeners_init ipv6_example 11 := by
  decide

/-- C24 (amended): `handle_eth_packet` decides the route from the low 16 bits of the word
at index 3 (`p[3]`, the fourth word of the buffer) and from nothing else: two buffers that
agree on those 16 bits are both handed to `handle_arp_packet`, or both to the IPv4 branch,
or both dropped; the ARP message and the IP header are taken at word offset 4 (byte 16);
and the words at index 0 and 1 are never read. -/
theorem route_by_ethertype_word (cfg : net_config) (listeners : Nat → listener_entry)
    (p q : Nat → Nat) (nlines : Nat) (hpq : p 3 % 65536 = q 3 % 65536) :
    ((p 3 % 65536 = 0x0806
        ∧ handle_eth_packet cfg listeners p nlines
            = handle_arp_packet cfg p (4 * 4) ((nlines * 4 + (2 ^ 32 - 14)) % 2 ^ 32)
        ∧ handle_eth_packet cfg listeners q nlines
            = handle_arp_packet cfg q (4 * 4) ((nlines * 4 + (2 ^ 32 - 14)) % 2 ^ 32))
      ∨ (p 3 % 65536 = 0x0800
        ∧ handle_eth_packet cfg listeners p nlines = handle_eth_packet_ipv4_branch listeners p
        ∧ handle_eth_packet cfg listeners q nlines = handle_eth_packet_ipv4_branch listeners q)
      ∨ (p 3 % 65536 ≠ 0x0806 ∧ p 3 % 65536 ≠ 0x0800
        ∧ handle_eth_packet cfg listeners p nlines = []
        ∧ handle_eth_packet cfg listeners q nlines = []))
    ∧ ((∀ i, 2 ≤ i → p i = q i) →
        handle_eth_packet cfg listeners p nlines = handle_eth_packet cfg listeners q nlines) := by
  constructor
  · by_cases harp : p 3 % 65536 = ETHERTYPE_ARP
    · exact Or.inl ⟨harp, handle_eth_packet_arp cfg listeners p nlines harp,
        handle_eth_packet_arp cfg listeners q nlines (hpq ▸ harp)⟩
    · by_cases hip : p 3 % 65536 = ETHERTYPE_IPV4
      · exact Or.inr (Or.inl ⟨hip, handle_eth_packet_ipv4_branch_eq cfg listeners p nlines hip,
          handle_eth_packet_ipv4_branch_eq cfg listeners q nlines (hpq ▸ hip)⟩)
      · have harq : ¬ (q 3 % 65536 = ETHERTYPE_ARP) := hpq ▸ harp
        have hipq : ¬ (q 3 % 65536 = ETHERTYPE_IPV4) := hpq ▸ hip
        refine Or.inr (Or.inr ⟨harp, hip, ?_, ?_⟩)
        · simp only [handle_eth_packet, harp, hip, if_false]
        · simp only [handle_eth_packet, harq, hipq, if_false]
  · intro h
    have h3 : p 3 = q 3 := h 3 (by omega)
    by_cases harp : p 3 % 65536 = ETHERTYPE_ARP
    · rw [handle_eth_packet_arp cfg listeners p nlines harp,
        handle_eth_packet_arp cfg listeners q nlines (h3 ▸ harp)]
      exact handle_arp_packet_congr cfg p q h 16 _ (by omega)
    · by_cases hip : p 3 % 65536 = ETHERTYPE_IPV4
      · rw [handle_eth_packet_ipv4_branch_eq cfg listeners p nlines hip,
          handle_eth_packet_ipv4_branch_eq cfg listeners q nlines (h3 ▸ hip)]
        exact handle_eth_packet_ipv4_branch_congr listeners p q h
      · have harq : ¬ (q 3 % 65536 = ETHERTYPE_ARP) := h3 ▸ harp
        have hipq : ¬ (q 3 % 65536 = ETHERTYPE_IPV4) := h3 ▸ hip
        simp only [handle_eth_packet, harp, hip, harq, hipq, if_false]

/-- Witness for C24 (amended): `udp_example` and `tcp_example` agree on `p[3]` and are
both handled by the IPv4 branch. -/
theorem route_by_ethertype_word_witness :
    handle_eth_packet config_example listeners_init udp_example 12
        = handle_eth_packet_ipv4_branch listeners_init udp_example
    ∧ handle_eth_packet config_example listeners_init tcp_example 12
        = handle_eth_packet_ipv4_branch listeners_init tcp_example := by
  rcases (route_by_ethertype_word config_example listeners_init udp_example tcp_example 12
    (by decide)).1 with h | h | h
  · exact absurd h.1 (by decide)
  · exact ⟨h.2.1, h.2.2⟩
  · exact absurd h.2.1 (by decide)

/-! ## Lemmas on the order of the transmit actions -/

/-- A busy-wait ends on the first read that shows the awaited bit. -/
theorem busy_wait_exit (status : Nat → Nat) (mask : Nat) (fuel t r : Nat)
    (h : busy_wait status mask t fuel = some r) :
    status (r - 1) &&& mask ≠ 0 ∧ ∀ k, t ≤ k → k < r - 1 → status k &&& mask = 0 := by
  induction fuel generalizing t with
  | zero => simp [busy_wait] at h
  | succ n ih =>
    unfold busy_wait at h
    split_ifs at h with h0
    · obtain ⟨h1, h2⟩ := ih (t + 1) h
      refine ⟨h1, ?_⟩
      intro k hk1 hk2
      by_cases hkt : k = t
      · rw [hkt]
        exact h0
      · exact h2 k (by omega) hk2
    · simp only [Option.some.injEq] at h
      subst h
      refine ⟨by simpa using h0, ?_⟩
      intro k hk1 hk2
      omega

theorem send_pkt_assemble_writes (mac dst : eth_mac_addr_t) (ethertype : Nat)
    (a0 : Nat) (buf0 : List Nat) (len0 : Nat) (a1 : Nat) (buf1 : List Nat) (len1 : Nat)
    (a2 : Nat) (buf2 : List Nat) (len2 : Nat) :
    ∀ e ∈ (send_pkt_assemble mac dst ethertype a0 buf0 len0 a1 buf1 len1 a2 buf2 len2).1,
      e.is_write = true := by
  intro e he
  unfold send_pkt_assemble at he
  simp only [List.mem_append, List.mem_singleton] at he
  rcases he with ((((((he | he) | he) | he) | he) | he) | he) | he
  · subst he; rfl
  · subst he; rfl
  all_goals (split_ifs at he <;> simp at he <;> (subst he; rfl))

/-- The trace of a returning `send_pkt` call with the two loop exits made explicit. -/
theorem send_pkt_some_exits (hw : tx_hw) (mac dst : eth_mac_addr_t) (ethertype : Nat)
    (a0 : Nat) (buf0 : List Nat) (len0 : Nat) (a1 : Nat) (buf1 : List Nat) (len1 : Nat)
    (a2 : Nat) (buf2 : List Nat) (len2 : Nat) (fuel : Nat) (tr : List tx_event)
    (h : send_pkt hw mac dst ethertype a0 buf0 len0 a1 buf1 len1 a2 buf2 len2 fuel = some tr) :
    ∃ t1 t2, tr = [tx_event.wait_idle t1]
        ++ (send_pkt_assemble mac dst ethertype a0 buf0 len0 a1 buf1 len1 a2 buf2 len2).1
        ++ (if hw.ac_could_be_sending_to_eth ≠ 0 then
            [tx_event.dbsm_wait_for_opening hw.ac_could_be_sending_to_eth] else [])
        ++ [tx_event.bp_send_from_buf hw.CPU_TX_BUF hw.cpu_tx_buf_dest_port 1 0
            (send_pkt_total_len
              (send_pkt_assemble mac dst ethertype a0 buf0 len0 a1 buf1 len1 a2 buf2 len2).2
              / 4)]
        ++ [tx_event.wait_done (t2 - t1) (hw.status (t2 - 1)),
            tx_event.bp_clear_buf hw.CPU_TX_BUF]
      ∧ 0 < t1 ∧ hw.status (t1 - 1) &&& hw.BPS_IDLE ≠ 0
      ∧ t1 < t2 ∧ hw.status (t2 - 1) &&& (hw.BPS_DONE ||| hw.BPS_ERROR) ≠ 0 := by
  unfold send_pkt at h
  cases h1 : busy_wait hw.status hw.BPS_IDLE 0 fuel with
  | none => rw [h1] at h; simp at h
  | some t1 =>
    rw [h1] at h
    simp only at h
    cases h2 : busy_wait hw.status (hw.BPS_DONE ||| hw.BPS_ERROR) t1 fuel with
    | none => rw [h2] at h; simp at h
    | some t2 =>
      rw [h2] at h
      simp only [Option.some.injEq] at h
      exact ⟨t1, t2, h.symm, busy_wait_gt _ _ _ _ _ h1, (busy_wait_exit _ _ _ _ _ h1).1,
        busy_wait_gt _ _ _ _ _ h2, (busy_wait_exit _ _ _ _ _ h2).1⟩

/-! ## Claims on transmit sequencing and alignment diagnostics -/

/-- C25: transmit sequencing. The trace of every `send_pkt` call that returns is, in this
order: the end of the wait for the idle slot (the last status read shows the idle bit),
the buffer writes (with the alignment diagnostics), the blocking wait for a transmit
opening exactly once if a streaming state machine is registered and not at all
otherwise, exactly one commit, the end of the wait for completion (the last status read
shows done or error), and exactly one clear. On responsive hardware the call returns.
Whatever the status register shows (done or error, after any number of reads), the trace
without the loop exits is the same: no retry, no second commit, no failure report. -/
theorem send_pkt_sequence (hw : tx_hw) (mac dst : eth_mac_addr_t) (ethertype : Nat)
    (a0 : Nat) (buf0 : List Nat) (len0 : Nat) (a1 : Nat) (buf1 : List Nat) (len1 : Nat)
    (a2 : Nat) (buf2 : List Nat) (len2 : Nat) :
    (∀ fuel tr,
        send_pkt hw mac dst ethertype a0 buf0 len0 a1 buf1 len1 a2 buf2 len2 fuel = some tr →
        ∃ t1 t2 writes n,
          tr = [tx_event.wait_idle t1] ++ writes
            ++ (if hw.ac_could_be_sending_to_eth ≠ 0 then
                [tx_event.dbsm_wait_for_opening hw.ac_could_be_sending_to_eth] else [])
            ++ [tx_event.bp_send_from_buf hw.CPU_TX_BUF hw.cpu_tx_buf_dest_port 1 0 n]
            ++ [tx_event.wait_done (t2 - t1) (hw.status (t2 - 1)),
                tx_event.bp_clear_buf hw.CPU_TX_BUF]
          ∧ (∀ e ∈ writes, e.is_write = true)
          ∧ 0 < t1 ∧ hw.status (t1 - 1) &&& hw.BPS_IDLE ≠ 0
          ∧ t1 < t2 ∧ hw.status (t2 - 1) &&& (hw.BPS_DONE ||| hw.BPS_ERROR) ≠ 0)
    ∧ (∀ k1 k2, k1 < k2 → hw.status k1 &&& hw.BPS_IDLE ≠ 0 →
        hw.status k2 &&& (hw.BPS_DONE ||| hw.BPS_ERROR) ≠ 0 →
        ∃ tr, ∀ fuel, k2 + 1 ≤ fuel →
          send_pkt hw mac dst ethertype a0 buf0 len0 a1 buf1 len1 a2 buf2 len2 fuel = some tr)
    ∧ (∀ (status2 : Nat → Nat) (fuel fuel2 : Nat) (tr tr2 : List tx_event),
        send_pkt hw mac dst ethertype a0 buf0 len0 a1 buf1 len1 a2 buf2 len2 fuel = some tr →
        send_pkt { hw with status := status2 } mac dst ethertype a0 buf0 len0 a1 buf1 len1
          a2 buf2 len2 fuel2 = some tr2 →
        tr.filter (fun e => !e.is_wait) = tr2.filter (fun e => !e.is_wait)) := by
  refine ⟨?_, ?_, ?_⟩
  · intro fuel tr h
    obtain ⟨t1, t2, htr, e1, e2, e3, e4⟩ := send_pkt_some_exits hw mac dst ethertype
      a0 buf0 len0 a1 buf1 len1 a2 buf2 len2 fuel tr h
    exact ⟨t1, t2, _, _, htr,
      send_pkt_assemble_writes mac dst ethertype a0 buf0 len0 a1 buf1 len1 a2 buf2 len2,
      e1, e2, e3, e4⟩
  · intro k1 k2 hk hidle hdone
    exact send_pkt_returns hw mac dst ethertype a0 buf0 len0 a1 buf1 len1 a2 buf2 len2
      k1 k2 hk hidle hdone
  · intro status2 fuel fuel2 tr tr2 h h2
    obtain ⟨t1, t2, htr⟩ := send_pkt_some hw mac dst ethertype a0 buf0 len0 a1 buf1 len1
      a2 buf2 len2 fuel tr h
    obtain ⟨s1, s2, htr2⟩ := send_pkt_some { hw with status := status2 } mac dst ethertype
      a0 buf0 len0 a1 buf1 len1 a2 buf2 len2 fuel2 tr2 h2
    rw [htr, htr2]
    simp [List.filter_append, List.filter_cons, tx_event.is_wait]

/-- Witness for C25: an ARP reply on a slot that ends in error, with no streaming state
machine: wait, six words written, commit of 15 words, wait ending on the error bit,
clear. -/
theorem send_pkt_sequence_witness :
    ∃ tr t1 t2 writes n,
      send_pkt tx_hw_error_example config_example._get_eth_mac_addr
        ⟨[0xAA, 0xAA, 0xAA, 0xAA, 0xAA, 0xAA]⟩ 0x0806 0 arp_reply_example 28 0 [] 0 0 [] 0 2
        = some tr
      ∧ tr = [tx_event.wait_idle t1] ++ writes ++ []
          ++ [tx_event.bp_send_from_buf 7 2 1 0 n]
          ++ [tx_event.wait_done (t2 - t1) (tx_hw_error_example.status (t2 - 1)),
              tx_event.bp_clear_buf 7]
      ∧ tx_hw_error_example.status (t2 - 1) &&& (0x80 ||| 0x8000) ≠ 0 := by
  cases h : send_pkt tx_hw_error_example config_example._get_eth_mac_addr
      ⟨[0xAA, 0xAA, 0xAA, 0xAA, 0xAA, 0xAA]⟩ 0x0806 0 arp_reply_example 28 0 [] 0 0 [] 0 2 with
  | none =>
    have h0 : (send_pkt tx_hw_error_example config_example._get_eth_mac_addr
      ⟨[0xAA, 0xAA, 0xAA, 0xAA, 0xAA, 0xAA]⟩ 0x0806 0 arp_reply_example 28 0 [] 0 0 [] 0
      2).isSome = true := by decide
    rw [h] at h0
    exact absurd h0 (by decide)
  | some tr =>
    obtain ⟨t1, t2, writes, n, h1, _, _, _, _, h6⟩ :=
      (send_pkt_sequence tx_hw_error_example config_example._get_eth_mac_addr
        ⟨[0xAA, 0xAA, 0xAA, 0xAA, 0xAA, 0xAA]⟩ 0x0806 0 arp_reply_example 28 0 [] 0 0 [] 0).1
        2 tr h
    exact ⟨tr, t1, t2, writes, n, rfl, h1, h6⟩

/-- The whole 32-bit words of each fragment in the transmit buffer after a `send_pkt` call
that returned, for any fragment lengths: fragment `k` occupies `4 * (len_k / 4)` bytes,
the next one follows directly, and nothing is written behind the last whole word. -/
theorem send_pkt_whole_words (hw : tx_hw) (mac dst : eth_mac_addr_t) (ethertype : Nat)
    (a0 : Nat) (buf0 : List Nat) (len0 : Nat) (a1 : Nat) (buf1 : List Nat) (len1 : Nat)
    (a2 : Nat) (buf2 : List Nat) (len2 : Nat) (fuel : Nat) (tr : List tx_event)
    (ram : Nat → Nat)
    (h : send_pkt hw mac dst ethertype a0 buf0 len0 a1 buf1 len1 a2 buf2 len2 fuel = some tr) :
    (∀ i, i < 4 * (len0 / 4) → byte_at (tx_ram ram tr) (20 + i) = buf0.getD i 0 % 256)
    ∧ (∀ i, i < 4 * (len1 / 4) →
        byte_at (tx_ram ram tr) (20 + 4 * (len0 / 4) + i) = buf1.getD i 0 % 256)
    ∧ (∀ i, i < 4 * (len2 / 4) →
        byte_at (tx_ram ram tr) (20 + 4 * (len0 / 4) + 4 * (len1 / 4) + i)
          = buf2.getD i 0 % 256)
    ∧ (∀ w, 5 + len0 / 4 + len1 / 4 + len2 / 4 ≤ w → tx_ram ram tr w = ram w) := by
  have hram := tx_ram_send_pkt hw mac dst ethertype a0 buf0 len0 a1 buf1 len1 a2 buf2 len2
    fuel tr h ram
  have hL0 := memcpy_wa_length buf0 len0
  have hL1 := memcpy_wa_length buf1 len1
  have hL2 := memcpy_wa_length buf2 len2
  have hLH := memcpy_wa_length (padded_eth_hdr_t.bytes
    { pad := 0, dst := dst, src := mac, ethertype := ethertype % 65536 }) 16
  refine ⟨?_, ?_, ?_, ?_⟩
  · intro i hi
    rw [hram, byte_at_tx_store_out _ _ _ _ (Or.inl (by omega)),
      byte_at_tx_store_out _ _ _ _ (Or.inl (by omega)),
      byte_at_tx_store_at _ 5 _ len0 (20 + i) i (by omega) (by omega)]
  · intro i hi
    rw [hram, byte_at_tx_store_out _ _ _ _ (Or.inl (by omega)),
      byte_at_tx_store_at _ (5 + len0 / 4) _ len1 (20 + 4 * (len0 / 4) + i) i (by omega)
        (by omega)]
  · intro i hi
    rw [hram, byte_at_tx_store_at _ (5 + len0 / 4 + len1 / 4) _ len2
      (20 + 4 * (len0 / 4) + 4 * (len1 / 4) + i) i (by omega) (by omega)]
  · intro w hw5
    rw [hram, tx_store_out _ _ _ _ (Or.inr (by omega)), tx_store_out _ _ _ _ (Or.inr (by omega)),
      tx_store_out _ _ _ _ (Or.inr (by omega)), tx_store_out _ _ _ _ (Or.inr (by omega)),
      tx_store_out _ _ _ _ (Or.inr (by simp only [List.length_singleton]; omega))]

/-- C26, counterexample: a first fragment of 6 bytes (11 22 33 44 55 66) followed by a
fragment of 4 bytes (77 88 99 AB). The diagnostic for fragment 0 is printed and one frame
of 15 words is committed, but the write pointer advances by one word only, so the second
fragment follows at byte 24: the 60 committed bytes (28 bytes written, then 32 bytes of
the zeroed buffer) hold the first four bytes of the first fragment and not its bytes
55 66. -/
theorem send_pkt_ragged_fragment_truncated :
    (send_pkt tx_hw_example config_example._get_eth_mac_addr
        ⟨[0xAA, 0xAA, 0xAA, 0xAA, 0xAA, 0xAA]⟩ 0x0800 0 [0x11, 0x22, 0x33, 0x44, 0x55, 0x66] 6
        0 [0x77, 0x88, 0x99, 0xAB] 4 0 [] 0 2).map
        (fun tr => (bytes_at (tx_ram (fun _ => 0) tr) 0 28,
          bytes_at (tx_ram (fun _ => 0) tr) 28 32,
          tr.filter tx_event.is_commit, decide (tx_event.printf_bad_alignment 0 ∈ tr)))
      = some ([0, 0, 0, 0, 0, 0, 0xAA, 0xAA, 0xAA, 0xAA, 0xAA, 0xAA,
               0x00, 0x50, 0xC2, 0x85, 0x3F, 0xFF, 0x08, 0x00,
               0x11, 0x22, 0x33, 0x44, 0x77, 0x88, 0x99, 0xAB],
              List.replicate 32 0,
              [tx_event.bp_send_from_buf 7 2 1 0 15], true) := by
  decide

/-- C26 (amended): alignment violations are soft errors. In the trace of every `send_pkt`
call that returns, the diagnostic for fragment `k` occurs if and only if its length is
non-zero and the length or the buffer address is not a multiple of 4 (so never for a
zero-length fragment, whatever its pointer); every fragment of non-zero length, aligned
or not, is passed to `memcpy_wa` at the current write pointer; afterwards the buffer holds
the whole 32-bit words of each fragment (its first `4 * (len / 4)` bytes, all of it when
the length is a multiple of 4), one fragment directly behind the other from byte 20 on,
and nothing is written behind the last whole word, so the trailing `len mod 4` bytes of a
fragment of misaligned length are not in the frame; and the trace holds exactly one
commit. On responsive hardware the call returns. -/
theorem send_pkt_alignment_diagnostics (hw : tx_hw) (mac dst : eth_mac_addr_t)
    (ethertype : Nat)
    (a0 : Nat) (buf0 : List Nat) (len0 : Nat) (a1 : Nat) (buf1 : List Nat) (len1 : Nat)
    (a2 : Nat) (buf2 : List Nat) (len2 : Nat) :
    (∀ fuel tr,
      send_pkt hw mac dst ethertype a0 buf0 len0 a1 buf1 len1 a2 buf2 len2 fuel = some tr →
      (tx_event.printf_bad_alignment 0 ∈ tr ↔ (len0 ≠ 0 ∧ (len0 % 4 ≠ 0 ∨ a0 % 4 ≠ 0)))
      ∧ (tx_event.printf_bad_alignment 1 ∈ tr ↔ (len1 ≠ 0 ∧ (len1 % 4 ≠ 0 ∨ a1 % 4 ≠ 0)))
      ∧ (tx_event.printf_bad_alignment 2 ∈ tr ↔ (len2 ≠ 0 ∧ (len2 % 4 ≠ 0 ∨ a2 % 4 ≠ 0)))
      ∧ (∀ k, tx_event.printf_bad_alignment k ∈ tr → k < 3)
      ∧ (len0 ≠ 0 → tx_event.store 5 (memcpy_wa buf0 len0) ∈ tr)
      ∧ (len1 ≠ 0 → tx_event.store (5 + len0 / 4) (memcpy_wa buf1 len1) ∈ tr)
      ∧ (len2 ≠ 0 → tx_event.store (5 + len0 / 4 + len1 / 4) (memcpy_wa buf2 len2) ∈ tr)
      ∧ (∀ ram : Nat → Nat,
          (∀ i, i < 4 * (len0 / 4) →
            byte_at (tx_ram ram tr) (20 + i) = buf0.getD i 0 % 256)
          ∧ (∀ i, i < 4 * (len1 / 4) →
            byte_at (tx_ram ram tr) (20 + 4 * (len0 / 4) + i) = buf1.getD i 0 % 256)
          ∧ (∀ i, i < 4 * (len2 / 4) →
            byte_at (tx_ram ram tr) (20 + 4 * (len0 / 4) + 4 * (len1 / 4) + i)
              = buf2.getD i 0 % 256)
          ∧ (∀ w, 5 + len0 / 4 + len1 / 4 + len2 / 4 ≤ w → tx_ram ram tr w = ram w))
      ∧ (tr.filter tx_event.is_commit).length = 1)
    ∧ (∀ k1 k2, k1 < k2 → hw.status k1 &&& hw.BPS_IDLE ≠ 0 →
        hw.status k2 &&& (hw.BPS_DONE ||| hw.BPS_ERROR) ≠ 0 →
        ∃ tr, ∀ fuel, k2 + 1 ≤ fuel →
          send_pkt hw mac dst ethertype a0 buf0 len0 a1 buf1 len1 a2 buf2 len2 fuel = some tr) := by
  refine ⟨?_, fun k1 k2 hk hidle hdone => send_pkt_returns hw mac dst ethertype a0 buf0 len0
    a1 buf1 len1 a2 buf2 len2 k1 k2 hk hidle hdone⟩
  intro fuel tr h
  obtain ⟨t1, t2, htr⟩ := send_pkt_some hw mac dst ethertype a0 buf0 len0 a1 buf1 len1
    a2 buf2 len2 fuel tr h
  have hp3 : (if len0 ≠ 0 then 0 + 1 + 16 / 4 + len0 / 4 else 0 + 1 + 16 / 4)
      = 5 + len0 / 4 := by
    by_cases h0 : len0 = 0 <;> simp [h0]
  have hp4 : (if len1 ≠ 0 then 5 + len0 / 4 + len1 / 4 else 5 + len0 / 4)
      = 5 + len0 / 4 + len1 / 4 := by
    by_cases h1 : len1 = 0 <;> simp [h1]
  have hcommit : (tr.filter tx_event.is_commit).length = 1 := by
    obtain ⟨pre, post, n, hsplit, hpre, hpost, _⟩ := send_pkt_one_commit hw mac dst ethertype
      a0 buf0 len0 a1 buf1 len1 a2 buf2 len2 fuel tr h
    have e1 : pre.filter tx_event.is_commit = [] :=
      List.filter_eq_nil_iff.mpr (fun a ha => by simp [hpre a ha])
    have e2 : post.filter tx_event.is_commit = [] :=
      List.filter_eq_nil_iff.mpr (fun a ha => by simp [hpost a ha])
    rw [hsplit, List.filter_append, e1, List.filter_cons_of_pos (by rfl), e2]
    rfl
  have hwords := fun ram => send_pkt_whole_words hw mac dst ethertype a0 buf0 len0 a1 buf1
    len1 a2 buf2 len2 fuel tr ram h
  refine ⟨?_, ?_, ?_, ?_, ?_, ?_, ?_, hwords, hcommit⟩ <;> rw [htr] <;>
    unfold send_pkt_assemble <;> simp only [hp3, hp4]
  · by_cases hopen : hw.ac_could_be_sending_to_eth = 0 <;> simp [hopen]
  · by_cases hopen : hw.ac_could_be_sending_to_eth = 0 <;> simp [hopen]
  · by_cases hopen : hw.ac_could_be_sending_to_eth = 0 <;> simp [hopen]
  · intro k hk
    by_cases hopen : hw.ac_could_be_sending_to_eth = 0 <;> simp [hopen] at hk <;> omega
  · intro hl
    simp [hl]
  · intro hl
    simp [hl]
  · intro hl
    simp [hl]

/-- Witness for C26 (amended): a fragment of 6 bytes at an aligned address produces the
diagnostic for fragment 0, its first whole word is copied to byte 20 and one frame is
committed. -/
theorem send_pkt_alignment_diagnostics_witness :
    ∃ tr, send_pkt tx_hw_example config_example._get_eth_mac_addr
        ⟨[0xAA, 0xAA, 0xAA, 0xAA, 0xAA, 0xAA]⟩ 0x0800 0 [1, 2, 3, 4, 5, 6] 6 0 [] 0 3 [] 0 2
        = some tr
      ∧ tx_event.printf_bad_alignment 0 ∈ tr
      ∧ ¬ (tx_event.printf_bad_alignment 2 ∈ tr)
      ∧ tx_event.store 5 (memcpy_wa [1, 2, 3, 4, 5, 6] 6) ∈ tr
      ∧ byte_at (tx_ram (fun _ => 0) tr) (20 + 3) = 4
      ∧ tx_ram (fun _ => 0) tr 6 = 0
      ∧ (tr.filter tx_event.is_commit).length = 1 := by
  cases h : send_pkt tx_hw_example config_example._get_eth_mac_addr
      ⟨[0xAA, 0xAA, 0xAA, 0xAA, 0xAA, 0xAA]⟩ 0x0800 0 [1, 2, 3, 4, 5, 6] 6 0 [] 0 3 [] 0 2 with
  | none =>
    have h0 : (send_pkt tx_hw_example config_example._get_eth_mac_addr
      ⟨[0xAA, 0xAA, 0xAA, 0xAA, 0xAA, 0xAA]⟩ 0x0800 0 [1, 2, 3, 4, 5, 6] 6 0 [] 0 3 [] 0
      2).isSome = true := by decide
    rw [h] at h0
    exact absurd h0 (by decide)
  | some tr =>
    obtain ⟨c0, _, c2, _, c4, _, _, c7, c8⟩ :=
      (send_pkt_alignment_diagnostics tx_hw_example config_example._get_eth_mac_addr
        ⟨[0xAA, 0xAA, 0xAA, 0xAA, 0xAA, 0xAA]⟩ 0x0800 0 [1, 2, 3, 4, 5, 6] 6 0 [] 0 3 [] 0).1
        2 tr h
    exact ⟨tr, rfl, c0.mpr (by decide), fun hm => absurd (c2.mp hm) (by decide),
      c4 (by decide), ((c7 (fun _ => 0)).1 3 (by decide)).trans (by decide),
      (c7 (fun _ => 0)).2.2.2 6 (by decide), c8⟩

/-! ## Lemmas on the transmitted frame as a received buffer -/

/-- Dropping the leading control word shifts every byte offset by four. -/
theorem byte_at_shift (r : Nat → Nat) (off : Nat) :
    byte_at (fun i => r (i + 1)) off = byte_at r (off + 4) := by
  unfold byte_at
  have hq : (off + 4) / 4 = off / 4 + 1 := by omega
  have hr : (off + 4) % 4 = off % 4 := by omega
  rw [hq, hr]

theorem word_three_low16 (p : Nat → Nat) : p 3 % 65536 = byte_at p 14 * 256 + byte_at p 15 := by
  unfold byte_at
  norm_num
  omega

theorem bytes_of_shorts_getD (l : List Nat) (j : Nat) :
    (bytes_of_shorts l).getD (2 * j) 0 = l.getD j 0 / 256 % 256
    ∧ (bytes_of_shorts l).getD (2 * j + 1) 0 = l.getD j 0 % 256 := by
  induction l generalizing j with
  | nil => simp [bytes_of_shorts]
  | cons a rest ih =>
    cases j with
    | zero => simp [bytes_of_shorts]
    | succ k =>
      have h1 : 2 * (k + 1) = (2 * k + 1) + 1 := by omega
      rw [h1]
      simp only [bytes_of_shorts, List.getD_cons_succ]
      exact ih k

/-- A half-word of a buffer region that holds the bytes of a sequence of half-words. -/
theorem u16_at_of_shorts (p : Nat → Nat) (base : Nat) (s : List Nat)
    (hb : ∀ i, i < 2 * s.length → byte_at p (base + i) = (bytes_of_shorts s).getD i 0 % 256)
    (j : Nat) (hj : j < s.length) :
    u16_at p (base + 2 * j) = s.getD j 0 % 65536 := by
  unfold u16_at
  have h1 := hb (2 * j) (by omega)
  have h2 := hb (2 * j + 1) (by omega)
  have h3 : base + 2 * j + 1 = base + (2 * j + 1) := by omega
  rw [h3, h1, h2, (bytes_of_shorts_getD s j).1, (bytes_of_shorts_getD s j).2]
  omega

theorem getD_lt_of_all (l : List Nat) (i b : Nat) (h : ∀ x ∈ l, x < b) (hb : 0 < b) :
    l.getD i 0 < b := by
  by_cases hi : i < l.length
  · rw [List.getD_eq_getElem l 0 hi]
    exact h _ (List.getElem_mem _)
  · rw [List.getD_eq_default l 0 (by omega)]
    exact hb

/-- The bytes of the transmit buffer after a returning `send_pkt` call with aligned
fragment lengths: header, then the three fragments. -/
theorem send_pkt_frame_bytes (hw : tx_hw) (mac dst : eth_mac_addr_t) (ethertype : Nat)
    (a0 : Nat) (buf0 : List Nat) (len0 : Nat) (a1 : Nat) (buf1 : List Nat) (len1 : Nat)
    (a2 : Nat) (buf2 : List Nat) (len2 : Nat) (fuel : Nat) (tr : List tx_event)
    (ram : Nat → Nat)
    (h : send_pkt hw mac dst ethertype a0 buf0 len0 a1 buf1 len1 a2 buf2 len2 fuel = some tr)
    (h0 : len0 % 4 = 0) (h1 : len1 % 4 = 0) (h2 : len2 % 4 = 0) :
    (∀ k, k < 16 → byte_at (tx_ram ram tr) (4 + k)
        = (padded_eth_hdr_t.bytes
            { pad := 0, dst := dst, src := mac, ethertype := ethertype % 65536 }).getD k 0
          % 256)
    ∧ (∀ i, i < len0 → byte_at (tx_ram ram tr) (20 + i) = buf0.getD i 0 % 256)
    ∧ (∀ i, i < len1 → byte_at (tx_ram ram tr) (20 + len0 + i) = buf1.getD i 0 % 256)
    ∧ (∀ i, i < len2 → byte_at (tx_ram ram tr) (20 + len0 + len1 + i) = buf2.getD i 0 % 256) := by
  have hram := tx_ram_send_pkt hw mac dst ethertype a0 buf0 len0 a1 buf1 len1 a2 buf2 len2
    fuel tr h ram
  have hL0 := memcpy_wa_length buf0 len0
  have hL1 := memcpy_wa_length buf1 len1
  have hL2 := memcpy_wa_length buf2 len2
  refine ⟨?_, ?_, ?_, ?_⟩
  · intro k hk
    rw [hram, byte_at_tx_store_out _ _ _ _ (Or.inl (by omega)),
      byte_at_tx_store_out _ _ _ _ (Or.inl (by omega)),
      byte_at_tx_store_out _ _ _ _ (Or.inl (by omega)),
      byte_at_tx_store_at _ 1 _ 16 (4 + k) k (by omega) (by omega)]
  · intro i hi
    rw [hram, byte_at_tx_store_out _ _ _ _ (Or.inl (by omega)),
      byte_at_tx_store_out _ _ _ _ (Or.inl (by omega)),
      byte_at_tx_store_at _ 5 _ len0 (20 + i) i (by omega) (by omega)]
  · intro i hi
    rw [hram, byte_at_tx_store_out _ _ _ _ (Or.inl (by omega)),
      byte_at_tx_store_at _ (5 + len0 / 4) _ len1 (20 + len0 + i) i (by omega) (by omega)]
  · intro i hi
    rw [hram, byte_at_tx_store_at _ (5 + len0 / 4 + len1 / 4) _ len2 (20 + len0 + len1 + i) i
      (by omega) (by omega)]


/-- The call made by `send_udp_pkt` when the destination address hits the ARP cache. -/
theorem send_udp_pkt_hit (cfg : net_config) (cache : Nat → Option eth_mac_addr_t)
    (src_port : Int) (dst : socket_address) (buf : List Nat) (len : Nat)
    (dmac : eth_mac_addr_t) (hcache : cache dst.addr = some dmac) :
    send_udp_pkt cfg cache src_port dst buf len
      = [Event.send_pkt dmac ETHERTYPE_IPV4 (send_ip_pkt_hdr cfg dst.addr 17 8 len).bytes 20
          (send_udp_pkt_hdr src_port dst len).bytes 8 buf len] := by
  have hdest : (send_ip_pkt_hdr cfg dst.addr 17 8 len).dest = dst.addr := rfl
  show send_ip_pkt cfg cache dst.addr 17 (send_udp_pkt_hdr src_port dst len).bytes 8 buf len = _
  unfold send_ip_pkt
  simp only [hdest, hcache]

/-- The header fields read back from a buffer that holds the padded Ethernet header, the
IP header and the UDP header built by the senders. -/
theorem udp_frame_fields (p : Nat → Nat) (cfg : net_config) (dmac : eth_mac_addr_t)
    (src_port : Int) (dst : socket_address) (len : Nat)
    (hfit : 28 + len ≤ 65535) (hsp : 0 ≤ src_port ∧ src_port < 65536)
    (hdport : dst.port < 65536) (hdaddr : dst.addr < 2 ^ 32)
    (hip : cfg._get_ip_addr < 2 ^ 32)
    (hmac : cfg._get_eth_mac_addr.addr.length = 6)
    (hmacb : ∀ b ∈ cfg._get_eth_mac_addr.addr, b < 256)
    (hdmac : dmac.addr.length = 6)
    (hhdr : ∀ k, k < 16 → byte_at p k
        = (padded_eth_hdr_t.bytes
            { pad := 0, dst := dmac, src := cfg._get_eth_mac_addr,
              ethertype := ETHERTYPE_IPV4 % 65536 }).getD k 0 % 256)
    (hipb : ∀ i, i < 20 → byte_at p (16 + i)
        = (send_ip_pkt_hdr cfg dst.addr 17 8 len).bytes.getD i 0 % 256)
    (hudpb : ∀ i, i < 8 → byte_at p (36 + i)
        = (send_udp_pkt_hdr src_port dst len).bytes.getD i 0 % 256) :
    p 3 % 65536 = ETHERTYPE_IPV4
    ∧ IPH_V p 16 = 4 ∧ IPH_HL p 16 = 5
    ∧ IPH_OFFSET p 16 = IP_DF
    ∧ IPH_PROTO p 16 = IP_PROTO_UDP
    ∧ IPH_LEN p 16 = 28 + len
    ∧ ip_hdr_src p 16 = cfg._get_ip_addr
    ∧ ip_hdr_dest p 16 = dst.addr
    ∧ udp_hdr_src p (16 + IP_HLEN) = src_port.toNat
    ∧ udp_hdr_dest p (16 + IP_HLEN) = dst.port
    ∧ udp_hdr_len p (16 + IP_HLEN) = 8 + len
    ∧ bytes_at p 8 6 = cfg._get_eth_mac_addr.addr := by
  have hl : (send_ip_pkt_hdr cfg dst.addr 17 8 len).shorts.length = 10 := rfl
  have hS := u16_at_of_shorts p 16 (send_ip_pkt_hdr cfg dst.addr 17 8 len).shorts
    (fun i hi => hipb i (by rw [hl] at hi; omega))
  have hU := u16_at_of_shorts p 36
    [(send_udp_pkt_hdr src_port dst len).src, (send_udp_pkt_hdr src_port dst len).dest,
     (send_udp_pkt_hdr src_port dst len).len, (send_udp_pkt_hdr src_port dst len).chksum]
    (fun i hi => hudpb i (by simp only [List.length_cons, List.length_nil] at hi; omega))
  have f0 : u16_at p 16 = 0x4500 := by
    have h : u16_at p 16 = IPH_VHLTOS_SET 4 5 0 % 65536 := hS 0 (by rw [hl]; omega)
    rw [h]
    decide
  have f1 : u16_at p 18 = 28 + len := by
    have h : u16_at p 18 = (20 + 8 + len) % 65536 % 65536 := hS 1 (by rw [hl]; omega)
    omega
  have f3 : u16_at p 22 = IP_DF := by
    have h : u16_at p 22 = IP_DF % 65536 := hS 3 (by rw [hl]; omega)
    rw [h]
    decide
  have f4 : u16_at p 24 = 8209 := by
    have h := hS 4 (by rw [hl]; omega)
    have e4 : ∀ pr : Int, (send_ip_pkt_hdr cfg dst.addr pr 8 len).shorts.getD 4 0
        = (32 <<< 8) ||| to_u8 pr := fun _ => rfl
    have t : to_u8 17 = 17 := by decide
    rw [e4 17, ttl_proto_or _ (to_u8_lt _), t] at h
    exact h
  have f6 : u16_at p 28 = cfg._get_ip_addr / 65536 % 65536 % 65536 := hS 6 (by rw [hl]; omega)
  have f7 : u16_at p 30 = cfg._get_ip_addr % 65536 % 65536 := hS 7 (by rw [hl]; omega)
  have f8 : u16_at p 32 = dst.addr / 65536 % 65536 % 65536 := hS 8 (by rw [hl]; omega)
  have f9 : u16_at p 34 = dst.addr % 65536 % 65536 := hS 9 (by rw [hl]; omega)
  have g0 : u16_at p 36 = to_u16 src_port % 65536 := hU 0 (by simp only [List.length_cons, List.length_nil]; omega)
  have g1 : u16_at p 38 = dst.port % 65536 := hU 1 (by simp only [List.length_cons, List.length_nil]; omega)
  have g2 : u16_at p 40 = (8 + len) % 65536 % 65536 := hU 2 (by simp only [List.length_cons, List.length_nil]; omega)
  have e14 := hhdr 14 (by decide)
  have e15 := hhdr 15 (by decide)
  rw [padded_eth_hdr_bytes _ _ _ hmac hdmac 14 (by decide), if_neg (by decide),
    if_neg (by decide), if_neg (by decide), if_pos rfl] at e14
  rw [padded_eth_hdr_bytes _ _ _ hmac hdmac 15 (by decide), if_neg (by decide),
    if_neg (by decide), if_neg (by decide), if_neg (by decide)] at e15
  have hb : ∀ i, i < 6 → byte_at p (8 + i) = cfg._get_eth_mac_addr.addr.getD i 0 := by
    intro i hi
    rw [hhdr (8 + i) (by omega), padded_eth_hdr_bytes _ _ _ hmac hdmac (8 + i) (by omega),
      if_neg (by omega), if_neg (by omega), if_pos (by omega)]
    have h8 : 8 + i - 8 = i := by omega
    rw [h8]
    exact Nat.mod_eq_of_lt (getD_lt_of_all _ _ _ hmacb (by decide))
  refine ⟨?_, ?_, ?_, ?_, ?_, ?_, ?_, ?_, ?_, ?_, ?_, ?_⟩
  · rw [word_three_low16, e14, e15]
    decide
  · show u16_at p 16 / 4096 = 4
    rw [f0]
  · show u16_at p 16 / 256 % 16 = 5
    rw [f0]
  · exact f3
  · show u16_at p 24 % 256 = 17
    rw [f4]
  · exact f1
  · show u16_at p 28 * 65536 + u16_at p 30 = cfg._get_ip_addr
    rw [f6, f7]
    omega
  · show u16_at p 32 * 65536 + u16_at p 34 = dst.addr
    rw [f8, f9]
    omega
  · show u16_at p 36 = src_port.toNat
    rw [g0]
    unfold to_u16
    omega
  · show u16_at p 38 = dst.port
    rw [g1]
    omega
  · show u16_at p 40 = 8 + len
    rw [g2]
    omega
  · obtain ⟨m0, m1, m2, m3, m4, m5, hm⟩ := length_six _ hmac
    have e : bytes_at p 8 6 = [byte_at p (8 + 0), byte_at p (8 + 1), byte_at p (8 + 2),
        byte_at p (8 + 3), byte_at p (8 + 4), byte_at p (8 + 5)] := rfl
    rw [e, hb 0 (by decide), hb 1 (by decide), hb 2 (by decide), hb 3 (by decide),
      hb 4 (by decide), hb 5 (by decide), hm]
    rfl


/-! ## Claim on the encode/decode round trip -/

/-- C27: encode/decode round trip. Let a node with a 32-bit IP address and a 6-byte MAC
send a payload `buf` of 4-byte-aligned length `len` with `28 + len <= 65535` from a 16-bit
source port to a destination socket whose address hits the ARP cache (with a 6-byte MAC),
on hardware whose slot reports idle at some read and done or error at a later one. Then
the `send_pkt` call made by `send_udp_pkt` returns, and the transmit buffer, read from its
second word onward, is accepted by `handle_eth_packet` on every node that has a callback
`f` registered for `dst.port`: it passes the version, header-length,
fragmentation and UDP-length checks, refreshes the ARP cache with the sender's IP and MAC,
and invokes `f` exactly once, with source socket = (sender's configured IP, `src_port`),
destination socket = `dst`, payload offset 44 and payload length `len`; the `len` bytes at
that offset are the bytes of `buf`. -/
theorem udp_round_trip (cfg cfg2 : net_config) (cache : Nat → Option eth_mac_addr_t)
    (hw : tx_hw) (src_port : Int) (dst : socket_address) (buf : List Nat) (len : Nat)
    (dmac d : eth_mac_addr_t) (et : Nat) (b0 : List Nat) (n0 : Nat) (b1 : List Nat) (n1 : Nat)
    (b2 : List Nat) (n2 : Nat) (a0 a1 a2 k1 k2 : Nat) (ram : Nat → Nat)
    (t0 t1 listeners : Nat → listener_entry) (port : Int) (f : Nat)
    (post : List (Int × Nat)) (nlines : Nat)
    (hlen4 : len % 4 = 0) (hfit : 28 + len ≤ 65535)
    (hsp : 0 ≤ src_port ∧ src_port < 65536)
    (hdaddr : dst.addr < 2 ^ 32) (hip : cfg._get_ip_addr < 2 ^ 32)
    (hmac : cfg._get_eth_mac_addr.addr.length = 6)
    (hmacb : ∀ b ∈ cfg._get_eth_mac_addr.addr, b < 256)
    (hbuf : ∀ b ∈ buf, b < 256)
    (hcache : cache dst.addr = some dmac) (hdmac : dmac.addr.length = 6)
    (hsend : send_udp_pkt cfg cache src_port dst buf len
      = [Event.send_pkt d et b0 n0 b1 n1 b2 n2])
    (hk : k1 < k2) (hidle : hw.status k1 &&& hw.BPS_IDLE ≠ 0)
    (hdone : hw.status k2 &&& (hw.BPS_DONE ||| hw.BPS_ERROR) ≠ 0)
    (hf : f ≠ 0)
    (hreg : register_udp_listener t0 port f = some t1)
    (hpost : register_all t1 post = some listeners)
    (hother : ∀ c ∈ post, to_u16 c.1 ≠ to_u16 port)
    (hport : to_u16 port = dst.port) :
    ∃ tr, (∀ fuel, k2 + 1 ≤ fuel →
      send_pkt hw cfg._get_eth_mac_addr d et a0 b0 n0 a1 b1 n1 a2 b2 n2 fuel = some tr)
    ∧ handle_eth_packet cfg2 listeners (fun i => tx_ram ram tr (i + 1)) nlines
      = [Event.arp_cache_update cfg._get_ip_addr cfg._get_eth_mac_addr.addr,
         Event.rcvr f ⟨cfg._get_ip_addr, src_port.toNat⟩ dst (16 + IP_HLEN + UDP_HLEN)
           (len : Int)]
    ∧ IPH_V (fun i => tx_ram ram tr (i + 1)) 16 = 4
    ∧ IPH_HL (fun i => tx_ram ram tr (i + 1)) 16 = 5
    ∧ IPH_OFFSET (fun i => tx_ram ram tr (i + 1)) 16 &&& (IP_MF ||| IP_OFFMASK) = 0
    ∧ udp_hdr_len (fun i => tx_ram ram tr (i + 1)) (16 + IP_HLEN) + 20
        = IPH_LEN (fun i => tx_ram ram tr (i + 1)) 16
    ∧ (∀ i, i < len →
        byte_at (fun i => tx_ram ram tr (i + 1)) (16 + IP_HLEN + UDP_HLEN + i)
          = buf.getD i 0) := by
  have hdport : dst.port < 65536 := by
    rw [← hport]
    unfold to_u16
    omega
  rw [send_udp_pkt_hit cfg cache src_port dst buf len dmac hcache] at hsend
  simp only [List.cons.injEq, Event.send_pkt.injEq, and_true] at hsend
  obtain ⟨hd, het, hb0, hn0, hb1, hn1, hb2, hn2⟩ := hsend
  subst hd het hb0 hn0 hb1 hn1 hb2 hn2
  obtain ⟨tr, hret⟩ := send_pkt_returns hw cfg._get_eth_mac_addr dmac ETHERTYPE_IPV4
    a0 (send_ip_pkt_hdr cfg dst.addr 17 8 len).bytes 20
    a1 (send_udp_pkt_hdr src_port dst len).bytes 8 a2 buf len k1 k2 hk hidle hdone
  have htx := hret (k2 + 1) (Nat.le_refl _)
  refine ⟨tr, hret, ?_⟩
  obtain ⟨F0, F1, F2, F3⟩ := send_pkt_frame_bytes hw cfg._get_eth_mac_addr dmac ETHERTYPE_IPV4
    a0 _ 20 a1 _ 8 a2 buf len (k2 + 1) tr ram htx (by decide) (by decide) hlen4
  have hhdr : ∀ k, k < 16 → byte_at (fun i => tx_ram ram tr (i + 1)) k
      = (padded_eth_hdr_t.bytes
          { pad := 0, dst := dmac, src := cfg._get_eth_mac_addr,
            ethertype := ETHERTYPE_IPV4 % 65536 }).getD k 0 % 256 := by
    intro k hk
    rw [byte_at_shift (tx_ram ram tr), show k + 4 = 4 + k by omega]
    exact F0 k hk
  have hipb : ∀ i, i < 20 → byte_at (fun i => tx_ram ram tr (i + 1)) (16 + i)
      = (send_ip_pkt_hdr cfg dst.addr 17 8 len).bytes.getD i 0 % 256 := by
    intro i hi
    rw [byte_at_shift (tx_ram ram tr), show 16 + i + 4 = 20 + i by omega]
    exact F1 i hi
  have hudpb : ∀ i, i < 8 → byte_at (fun i => tx_ram ram tr (i + 1)) (36 + i)
      = (send_udp_pkt_hdr src_port dst len).bytes.getD i 0 % 256 := by
    intro i hi
    rw [byte_at_shift (tx_ram ram tr), show 36 + i + 4 = 20 + 20 + i by omega]
    exact F2 i hi
  have hpay : ∀ i, i < len →
      byte_at (fun i => tx_ram ram tr (i + 1)) (16 + IP_HLEN + UDP_HLEN + i)
        = buf.getD i 0 := by
    intro i hi
    unfold IP_HLEN UDP_HLEN
    rw [byte_at_shift (tx_ram ram tr), show 16 + 20 + 8 + i + 4 = 20 + 20 + 8 + i by omega,
      F3 i hi]
    exact Nat.mod_eq_of_lt (getD_lt_of_all _ _ _ hbuf (by decide))
  obtain ⟨heth, hv, hhl, hoffset, hproto, hiplen, hsrcip, hdestip, husrc, hudest, hulen,
    hsha⟩ := udp_frame_fields (fun i => tx_ram ram tr (i + 1)) cfg dmac src_port dst len hfit
      hsp hdport hdaddr hip hmac hmacb hdmac hhdr hipb hudpb
  have hmf : IPH_OFFSET (fun i => tx_ram ram tr (i + 1)) 16 &&& IP_MF = 0 := by
    rw [hoffset]
    decide
  have hoff : IPH_OFFSET (fun i => tx_ram ram tr (i + 1)) 16 &&& IP_OFFMASK = 0 := by
    rw [hoffset]
    decide
  obtain ⟨i, hi, hri⟩ := register_udp_listener_lookup t0 t1 port f hreg
  obtain ⟨hfind, hrc⟩ := register_all_other post t1 listeners (to_u16 port) f i hf hother hi
    hri hpost
  rw [hport, ← hudest] at hfind
  have hsz : to_size_t ((IPH_LEN (fun i => tx_ram ram tr (i + 1)) 16 : Int) - (IP_HLEN : Int))
      = udp_hdr_len (fun i => tx_ram ram tr (i + 1)) (16 + IP_HLEN) := by
    refine (udp_len_match_iff (IPH_LEN (fun i => tx_ram ram tr (i + 1)) 16)
      (udp_hdr_len (fun i => tx_ram ram tr (i + 1)) (16 + IP_HLEN)) (u16_at_lt _ _)
      (u16_at_lt _ _)).mpr ?_
    rw [hulen, hiplen]
    push_cast
    omega
  have hpl : (((8 + len : Nat) : Int)) - 8 = (len : Int) := by
    push_cast
    omega
  refine ⟨?_, hv, hhl, (not_fragmented_iff _).mpr ⟨hmf, hoff⟩, ?_, hpay⟩
  · rw [handle_eth_packet_accepted cfg2 listeners _ nlines heth hv hhl hmf hoff, if_pos hproto,
      handle_udp_packet_hit listeners _ _ _ _ _ i hsz hfind, hrc, hsrcip, hdestip, husrc,
      hudest, hulen, hsha, hpl]
  · rw [hulen, hiplen]
    omega

/-- Witness for C27: the node 10.0.0.1 sends four payload bytes from port 0x1234 to
10.0.0.5:49153; the node 10.0.0.5, with callback 77 registered for port 49153 and
callback 9 for port 5, receives them through callback 77. -/
theorem udp_round_trip_witness :
    ∃ tr, send_pkt tx_hw_example config_example._get_eth_mac_addr
        ⟨[0xAA, 0xAA, 0xAA, 0xAA, 0xAA, 0xAA]⟩ 0x0800 0 ip_hdr_bytes_example 20
        0 [0x12, 0x34, 0xC0, 0x01, 0, 12, 0, 0] 8 0 [0xDE, 0xAD, 0xBE, 0xEF] 4 2 = some tr
      ∧ (register_all listeners_init [(49153, 77), (5, 9)]).map
          (fun l => handle_eth_packet ⟨⟨[0xAA, 0xAA, 0xAA, 0xAA, 0xAA, 0xAA]⟩, 0x0A000005⟩ l
            (fun i => tx_ram (fun _ => 0) tr (i + 1)) 12)
        = some [Event.arp_cache_update 0x0A000001 [0x00, 0x50, 0xC2, 0x85, 0x3F, 0xFF],
            Event.rcvr 77 ⟨0x0A000001, 0x1234⟩ ⟨0x0A000005, 49153⟩ 44 4]
      ∧ byte_at (fun i => tx_ram (fun _ => 0) tr (i + 1)) (44 + 3) = 0xEF := by
  cases h1 : register_udp_listener listeners_init 49153 77 with
  | none =>
    have h0 : (register_udp_listener listeners_init 49153 77).isSome = true := by decide
    rw [h1] at h0
    exact absurd h0 (by decide)
  | some l1 =>
    cases h2 : register_all l1 [(5, 9)] with
    | none =>
      have h3 : register_all listeners_init [(49153, 77), (5, 9)] = none := by
        simp only [register_all, h1]
        exact h2
      have h0 : (register_all listeners_init [(49153, 77), (5, 9)]).isSome = true := by
        decide
      rw [h3] at h0
      exact absurd h0 (by decide)
    | some l2 =>
      have h3 : register_all listeners_init [(49153, 77), (5, 9)] = some l2 := by
        simp only [register_all, h1]
        exact h2
      obtain ⟨tr, hret, c1, _, _, _, _, c6⟩ :=
        udp_round_trip config_example ⟨⟨[0xAA, 0xAA, 0xAA, 0xAA, 0xAA, 0xAA]⟩, 0x0A000005⟩
          arp_cache_example tx_hw_example 0x1234 ⟨0x0A000005, 49153⟩
          [0xDE, 0xAD, 0xBE, 0xEF] 4 ⟨[0xAA, 0xAA, 0xAA, 0xAA, 0xAA, 0xAA]⟩
          ⟨[0xAA, 0xAA, 0xAA, 0xAA, 0xAA, 0xAA]⟩ 0x0800 ip_hdr_bytes_example 20
          [0x12, 0x34, 0xC0, 0x01, 0, 12, 0, 0] 8 [0xDE, 0xAD, 0xBE, 0xEF] 4 0 0 0 0 1
          (fun _ => 0) listeners_init l1 l2 49153 77 [(5, 9)] 12
          (by decide) (by decide) (by decide) (by decide) (by decide) (by decide)
          (by decide) (by decide) (by decide) (by decide) (by decide) (by decide)
          (by decide) (by decide) (by decide) h1 h2 (by decide) (by decide)
      refine ⟨tr, hret 2 (by decide), ?_, (c6 3 (by decide)).trans (by decide)⟩
      rw [h3, Option.map_some']
      exact congrArg some (c1.trans (by decide))

/-! ## Claim on the host-side FPGA compatibility check -/

theorem fpga_major_init_eq (c : Nat) (h : c < 2 ^ 32) : fpga_major_init c = c / 65536 := by
  unfold fpga_major_init
  rw [Nat.shiftRight_eq_div_pow]
  have h2 : c / 2 ^ 16 < 65536 := by omega
  exact Nat.mod_eq_of_lt h2

theorem fpga_minor_init_eq (c : Nat) : fpga_minor_init c = c % 65536 := by
  unfold fpga_minor_init
  have h : c &&& 0xffff = c % 2 ^ 16 := Nat.and_pow_two_sub_one_eq_mod c 16
  rw [h]
  omega

/-- C31: host-side FPGA compatibility check. For every 32-bit compatibility word the
major number is its high 16 bits and the minor number its low 16 bits, except that when
the high 16 bits are 0 the major number is the low 16 bits and the minor number is 0; the
check throws the runtime error (naming the expected and the found number) if and only if
this major number differs from `USRP2_FPGA_COMPAT_NUM`, and otherwise the published
`fpga_version` is the decimal major number, a dot, and the decimal minor number. -/
theorem fpga_compat_check (USRP2_FPGA_COMPAT_NUM : Int) (fpga_compat_num : Nat)
    (h : fpga_compat_num < 2 ^ 32) :
    (fpga_compat_num / 65536 ≠ 0 →
        fpga_major fpga_compat_num = fpga_compat_num / 65536
        ∧ fpga_minor fpga_compat_num = fpga_compat_num % 65536)
    ∧ (fpga_compat_num / 65536 = 0 →
        fpga_major fpga_compat_num = fpga_compat_num % 65536
        ∧ fpga_minor fpga_compat_num = 0)
    ∧ ((∃ msg, umtrx_impl_fpga_compat USRP2_FPGA_COMPAT_NUM fpga_compat_num
          = Except.error msg)
        ↔ (fpga_major fpga_compat_num : Int) ≠ USRP2_FPGA_COMPAT_NUM)
    ∧ ((fpga_major fpga_compat_num : Int) ≠ USRP2_FPGA_COMPAT_NUM →
        umtrx_impl_fpga_compat USRP2_FPGA_COMPAT_NUM fpga_compat_num
          = Except.error
              (fpga_compat_error USRP2_FPGA_COMPAT_NUM (fpga_major fpga_compat_num)))
    ∧ ((fpga_major fpga_compat_num : Int) = USRP2_FPGA_COMPAT_NUM →
        umtrx_impl_fpga_compat USRP2_FPGA_COMPAT_NUM fpga_compat_num
          = Except.ok (toString (fpga_major fpga_compat_num) ++ "."
              ++ toString (fpga_minor fpga_compat_num))) := by
  have hmaj := fpga_major_init_eq fpga_compat_num h
  have hmin := fpga_minor_init_eq fpga_compat_num
  refine ⟨?_, ?_, ?_, ?_, ?_⟩
  · intro hne
    unfold fpga_major fpga_minor
    rw [hmaj, hmin, if_neg hne, if_neg hne]
    exact ⟨rfl, rfl⟩
  · intro heq
    unfold fpga_major fpga_minor
    rw [hmaj, hmin, if_pos heq, if_pos heq]
    exact ⟨rfl, rfl⟩
  · constructor
    · rintro ⟨msg, hmsg⟩ heq
      unfold umtrx_impl_fpga_compat at hmsg
      rw [if_neg (not_not.mpr heq)] at hmsg
      cases hmsg
    · intro hne
      refine ⟨fpga_compat_error USRP2_FPGA_COMPAT_NUM (fpga_major fpga_compat_num), ?_⟩
      unfold umtrx_impl_fpga_compat
      rw [if_pos hne]
  · intro hne
    unfold umtrx_impl_fpga_compat
    rw [if_pos hne]
  · intro heq
    unfold umtrx_impl_fpga_compat
    rw [if_neg (not_not.mpr heq)]

/-- Witness for C31: with expected number 9, the word 0x00090003 publishes version
"9.3", the old-scheme word 0x00000009 publishes "9.0", and the word 0x00080003 is
refused. -/
theorem fpga_compat_check_witness :
    umtrx_impl_fpga_compat 9 0x00090003 = Except.ok "9.3"
    ∧ umtrx_impl_fpga_compat 9 0x00000009 = Except.ok "9.0"
    ∧ fpga_major 0x00090003 = 9 ∧ fpga_minor 0x00090003 = 3
    ∧ (∃ msg, umtrx_impl_fpga_compat 9 0x00080003 = Except.error msg) :=
  ⟨((fpga_compat_check 9 0x00090003 (by decide)).2.2.2.2 (by decide)).trans
      (congrArg Except.ok (by decide)),
    ((fpga_compat_check 9 0x00000009 (by decide)).2.2.2.2 (by decide)).trans
      (congrArg Except.ok (by decide)),
    by decide, by decide,
    (fpga_compat_check 9 0x00080003 (by decide)).2.2.1.mpr (by decide)⟩

end NetCommon
